import Mathlib

/-!
# Lock-co-located scheduling: hint tables, interposed mutex calls, scheduler reads

A shallow embedding of

* `src/common/lh_shared.h`   (table layout, hash / tag / slot-index macros),
* `src/liblh/liblh.c`        (the user-space side that publishes hints and wraps
  `pthread_mutex_lock` / `trylock` / `unlock`),
* `src/liblh/rseq.h`         (the CPU id read from a restartable-sequence area),
* `src/scx/scx_lhandoff.bpf.c` (the scheduler side that reads the hints),

followed by theorems about the embedded code.

Conventions.  Unsigned machine integers are `Nat`, signed ones `Int`; every
arithmetic step that can wrap carries its `% 2^w`.  A table is a total function on
`Fin n` (a fixed-size array); a user-space table pointer that may be `NULL` is an
`Option`.  The accesses are taken one after another (sequential semantics): the
memory orders of the atomics are not part of the model.  The state of the user-space side
keeps a log of what the code does towards its surroundings, in order: every call that leaves
it, with the shared tables as they are at that moment, and every clock reading.
-/

namespace LH

/-! ## `lh_shared.h` -/

abbrev LH_LOCK_TABLE_BUCKETS : Nat := 1024
abbrev LH_WAITER_TABLE_SLOTS : Nat := 4096
abbrev LH_CS_TABLE_SLOTS : Nat := 4096

def LH_YIELD_BUDGET : Int := 64
def LH_FALLBACK_US : Int := 500

def LH_WAITER_INACTIVE : Nat := 0
def LH_WAITER_ACTIVE : Nat := 1

/-- The record `struct lh_lock_entry` without its padding: `tag` is `u32` (0 = empty),
`owner_tid` is `u32`, `owner_cpu` is `s32`, `gen` is `u32`, `t_start_ns` is `u64`. -/
structure lh_lock_entry where
  tag : Nat
  owner_tid : Nat
  owner_cpu : Int
  gen : Nat
  t_start_ns : Nat
deriving DecidableEq, Repr

/-- The record `struct lh_lock_bucket`: the two ways `way[0]` and `way[1]`. -/
structure lh_lock_bucket where
  way0 : lh_lock_entry
  way1 : lh_lock_entry
deriving DecidableEq, Repr

/-- The record `struct lh_waiter_slot` without its padding: `flags` is `u32`,
`tid` is `u32`, `lock_addr` is `u64`, `target_cpu` is `s32`. -/
structure lh_waiter_slot where
  flags : Nat
  tid : Nat
  lock_addr : Nat
  target_cpu : Int
deriving DecidableEq, Repr

/-- The record `struct lh_cs_slot` without its padding: `in_cs` is `u32`. -/
structure lh_cs_slot where
  in_cs : Nat
deriving DecidableEq, Repr

abbrev LockTable := Fin LH_LOCK_TABLE_BUCKETS → lh_lock_bucket
abbrev WaiterTable := Fin LH_WAITER_TABLE_SLOTS → lh_waiter_slot
abbrev CsTable := Fin LH_CS_TABLE_SLOTS → lh_cs_slot

/-- The macro `LH_BUCKET_IDX(lock_addr, salt)`:
`((u32)(lock_addr ^ salt) * 2654435761u) % LH_LOCK_TABLE_BUCKETS`. -/
def LH_BUCKET_IDX (lock_addr salt : Nat) : Nat :=
  ((((lock_addr ^^^ salt) % 2 ^ 32) * 2654435761) % 2 ^ 32) % LH_LOCK_TABLE_BUCKETS

/-- The macro `LH_TAG_FROM_ADDR(lock_addr, salt)`:
`(u32)((lock_addr ^ salt) >> 32) | 1`. -/
def LH_TAG_FROM_ADDR (lock_addr salt : Nat) : Nat :=
  (((lock_addr ^^^ salt) >>> 32) % 2 ^ 32) ||| 1

/-- The macro `LH_WAITER_SLOT_IDX(tid)`. -/
def LH_WAITER_SLOT_IDX (tid : Nat) : Nat := tid % LH_WAITER_TABLE_SLOTS

/-- The macro `LH_CS_SLOT_IDX(tid)`. -/
def LH_CS_SLOT_IDX (tid : Nat) : Nat := tid % LH_CS_TABLE_SLOTS

/-- An all-zero lock entry (fresh shared memory). -/
def zero_entry : lh_lock_entry :=
  { tag := 0, owner_tid := 0, owner_cpu := 0, gen := 0, t_start_ns := 0 }

/-- An all-zero ownership table. -/
def zero_lock_table : LockTable := fun _ => { way0 := zero_entry, way1 := zero_entry }

/-- An all-zero waiter table. -/
def zero_waiter_table : WaiterTable :=
  fun _ => { flags := 0, tid := 0, lock_addr := 0, target_cpu := 0 }

/-- An all-zero critical-section table. -/
def zero_cs_table : CsTable := fun _ => { in_cs := 0 }

/-- Array store `tbl[i] = v`. -/
def store {n : Nat} {α : Type} (tbl : Fin n → α) (i : Fin n) (v : α) : Fin n → α :=
  fun j => if j = i then v else tbl j

/-! ## `liblh.c`: the ownership table -/

namespace Liblh

/-- The function `bucket_idx`; the index is in range of the table by construction of the macro. -/
def bucket_idx (g_hash_salt lock_addr : Nat) : Fin LH_LOCK_TABLE_BUCKETS :=
  ⟨LH_BUCKET_IDX lock_addr g_hash_salt, Nat.mod_lt _ (by decide)⟩

/-- The function `tag_from_addr`. -/
def tag_from_addr (g_hash_salt lock_addr : Nat) : Nat :=
  LH_TAG_FROM_ADDR lock_addr g_hash_salt

/-- The four plain stores and the final store of `tag` that `lock_table_insert` performs on
one way: `owner_tid = tid; owner_cpu = cpu; gen++; t_start_ns = get_time_ns(); tag = tag`. -/
def publish_entry (e : lh_lock_entry) (tag tid : Nat) (cpu : Int) (now : Nat) : lh_lock_entry :=
  { tag := tag, owner_tid := tid, owner_cpu := cpu, gen := (e.gen + 1) % 2 ^ 32,
    t_start_ns := now }

/-- The function `lock_table_insert`; `now` is the value `get_time_ns()` returns inside it.
The loop over the two ways is unrolled. -/
def lock_table_insert (g_lock_table : Option LockTable) (g_hash_salt : Nat)
    (lock_addr tid : Nat) (cpu : Int) (now : Nat) : Option LockTable :=
  match g_lock_table with
  | none => none
  | some tbl =>
    let bidx := bucket_idx g_hash_salt lock_addr
    let tag := tag_from_addr g_hash_salt lock_addr
    let bucket := tbl bidx
    if bucket.way0.tag = 0 ∨ bucket.way0.tag = tag then
      some (store tbl bidx { bucket with way0 := publish_entry bucket.way0 tag tid cpu now })
    else if bucket.way1.tag = 0 ∨ bucket.way1.tag = tag then
      some (store tbl bidx { bucket with way1 := publish_entry bucket.way1 tag tid cpu now })
    else
      some (store tbl bidx { bucket with way0 := publish_entry bucket.way0 tag tid cpu now })

/-- The function `lock_table_remove`: the first way whose tag matches gets `tag = 0`. -/
def lock_table_remove (g_lock_table : Option LockTable) (g_hash_salt : Nat)
    (lock_addr : Nat) : Option LockTable :=
  match g_lock_table with
  | none => none
  | some tbl =>
    let bidx := bucket_idx g_hash_salt lock_addr
    let tag := tag_from_addr g_hash_salt lock_addr
    let bucket := tbl bidx
    if bucket.way0.tag = tag then
      some (store tbl bidx { bucket with way0 := { bucket.way0 with tag := 0 } })
    else if bucket.way1.tag = tag then
      some (store tbl bidx { bucket with way1 := { bucket.way1 with tag := 0 } })
    else
      some tbl

/-- The function `lock_table_get_owner_cpu`; `-1` is "not found". -/
def lock_table_get_owner_cpu (g_lock_table : Option LockTable) (g_hash_salt : Nat)
    (lock_addr : Nat) : Int :=
  match g_lock_table with
  | none => -1
  | some tbl =>
    let bidx := bucket_idx g_hash_salt lock_addr
    let tag := tag_from_addr g_hash_salt lock_addr
    let bucket := tbl bidx
    if bucket.way0.tag = tag then bucket.way0.owner_cpu
    else if bucket.way1.tag = tag then bucket.way1.owner_cpu
    else -1

/-! ## `liblh.c`: the waiter table -/

/-- The index `(start + i) % LH_WAITER_TABLE_SLOTS` that `has_waiters_for_lock` visits in
round `i`, with `start = (u32)(lock_addr >> 6) % LH_WAITER_TABLE_SLOTS`. -/
def scan_idx (lock_addr i : Nat) : Fin LH_WAITER_TABLE_SLOTS :=
  ⟨(((lock_addr >>> 6) % 2 ^ 32) % LH_WAITER_TABLE_SLOTS + i) % LH_WAITER_TABLE_SLOTS,
    Nat.mod_lt _ (by decide)⟩

/-- The function `has_waiters_for_lock`: a scan of the 16 slots `scan_idx lock_addr i`,
`i = 0 .. 15`, true at the first active slot whose `lock_addr` field equals the lock. -/
def has_waiters_for_lock (g_waiter_table : Option WaiterTable) (lock_addr : Nat) : Bool :=
  match g_waiter_table with
  | none => false
  | some tbl =>
    (List.range 16).any fun i =>
      let slot := tbl (scan_idx lock_addr i)
      decide (slot.flags = LH_WAITER_ACTIVE) && decide (slot.lock_addr = lock_addr)

/-- The slot of a thread in the waiter table, `&g_waiter_table[LH_WAITER_SLOT_IDX(tid)]`. -/
def waiter_idx (tid : Nat) : Fin LH_WAITER_TABLE_SLOTS :=
  ⟨LH_WAITER_SLOT_IDX tid, Nat.mod_lt _ (by decide)⟩

/-- The function `waiter_slot_set`. -/
def waiter_slot_set (g_waiter_table : Option WaiterTable) (tid lock_addr : Nat)
    (target_cpu : Int) : Option WaiterTable :=
  match g_waiter_table with
  | none => none
  | some tbl =>
    let idx := waiter_idx tid
    some (store tbl idx
      { tid := tid, lock_addr := lock_addr, target_cpu := target_cpu,
        flags := LH_WAITER_ACTIVE })

/-- The function `waiter_slot_clear`. -/
def waiter_slot_clear (g_waiter_table : Option WaiterTable) (tid : Nat) : Option WaiterTable :=
  match g_waiter_table with
  | none => none
  | some tbl =>
    let idx := waiter_idx tid
    some (store tbl idx { tbl idx with flags := LH_WAITER_INACTIVE })

/-! ## `liblh.c`: the critical-section table -/

/-- The slot of a thread in the critical-section table. -/
def cs_idx (tid : Nat) : Fin LH_CS_TABLE_SLOTS :=
  ⟨LH_CS_SLOT_IDX tid, Nat.mod_lt _ (by decide)⟩

/-- The function `cs_slot_enter`: `atomic_fetch_add(&in_cs, 1)` on a `u32`. -/
def cs_slot_enter (g_cs_table : Option CsTable) (tid : Nat) : Option CsTable :=
  match g_cs_table with
  | none => none
  | some tbl =>
    let idx := cs_idx tid
    some (store tbl idx { in_cs := ((tbl idx).in_cs + 1) % 2 ^ 32 })

/-- The function `cs_slot_leave`: `old = atomic_fetch_sub(&in_cs, 1)` on a `u32`, then
`in_cs = 0` when `old == 0`.  The value is the table once the call has completed. -/
def cs_slot_leave (g_cs_table : Option CsTable) (tid : Nat) : Option CsTable :=
  match g_cs_table with
  | none => none
  | some tbl =>
    let idx := cs_idx tid
    let old := (tbl idx).in_cs
    let tbl1 := store tbl idx { in_cs := (old + 2 ^ 32 - 1) % 2 ^ 32 }
    if old = 0 then some (store tbl1 idx { in_cs := 0 }) else some tbl1

/-! ## `liblh.c`: the interposed calls

The interposed functions talk to their surroundings: the wrapped primitive, the clock,
the scheduler.  What the surroundings answer is an `Env`; what the function did to them
is recorded, in order, in the `trace` of the state (the outside calls) and in its `log` (the
outside calls, each with the shared tables at the moment of the call, and the clock
readings). -/

/-- The constant `SPIN_TRIES`. -/
def SPIN_TRIES : Nat := 100

/-- The error code `EINVAL`. -/
def EINVAL : Int := 22

/-- A call that leaves the shim: a wrapped primitive with its return code, or `sched_yield()`. -/
inductive Event where
  | real_trylock (ret : Int)
  | real_lock (ret : Int)
  | real_unlock (ret : Int)
  | sched_yield
deriving DecidableEq, Repr

/-- The answers of the surroundings during one interposed call: `get_tid()`, the CPU the
calling thread runs on (what the kernel writes into a registered `rseq` area and what
`sched_getcpu()` returns), the thread-local flag `__rseq_registered` on entry, the return code
of the `rseq` system call should the thread attempt the registration, the successive values of
`get_time_ns()`, the return codes of the successive calls of the wrapped `trylock`, the
return code of the wrapped blocking `lock` and of the wrapped `unlock`, and whether
`dlsym(RTLD_NEXT, ...)` finds the symbol on the pass-through path. -/
structure Env where
  tid : Nat
  cpu : Int
  rseq_registered : Bool
  rseq_ret : Int
  time_ns : Nat → Nat
  trylock_ret : Nat → Int
  lock_ret : Int
  unlock_ret : Int
  dlsym_found : Bool

/-- The shared memory as another thread or the scheduler finds it at some moment: the three
tables behind `g_lock_table`, `g_waiter_table` and `g_cs_table`. -/
structure Shared where
  lock_table : Option LockTable
  waiter_table : Option WaiterTable
  cs_table : Option CsTable

/-- What happens during a run, in order: a call that leaves the shim, together with the shared
memory at the moment the call is made, or a reading of the clock with the value read. -/
inductive Obs where
  | call (e : Event) (mem : Shared)
  | clock (value : Nat)

/-- The globals of `liblh.c` (tables, configuration, resolved function pointers as
"non-NULL" flags) together with the bookkeeping of the run: how many clock values and
`trylock` answers have been consumed, the trace of outside calls, and the log of outside
calls and clock readings in the order in which they happen. -/
structure Shim where
  g_lock_table : Option LockTable
  g_waiter_table : Option WaiterTable
  g_cs_table : Option CsTable
  g_hash_salt : Nat
  g_yield_budget : Int
  g_fallback_us : Int
  g_initialized : Bool
  g_enabled : Bool
  real_pthread_mutex_lock : Bool
  real_pthread_mutex_trylock : Bool
  real_pthread_mutex_unlock : Bool
  clock_reads : Nat
  trylock_calls : Nat
  trace : List Event
  log : List Obs

/-- The shared memory in state `st`. -/
def shared_of (st : Shim) : Shared :=
  { lock_table := st.g_lock_table, waiter_table := st.g_waiter_table,
    cs_table := st.g_cs_table }

/-- The function `get_time_ns`: the next clock value, a `u64`. -/
def get_time_ns (env : Env) (st : Shim) : Nat × Shim :=
  let now := env.time_ns st.clock_reads % 2 ^ 64
  (now, { st with clock_reads := st.clock_reads + 1, log := st.log ++ [Obs.clock now] })

/-- A call `real_pthread_mutex_trylock(mutex)`. -/
def call_real_trylock (env : Env) (st : Shim) : Int × Shim :=
  let ret := env.trylock_ret st.trylock_calls
  (ret, { st with trylock_calls := st.trylock_calls + 1,
                  trace := st.trace ++ [Event.real_trylock ret],
                  log := st.log ++ [Obs.call (Event.real_trylock ret) (shared_of st)] })

/-- A call `real_pthread_mutex_lock(mutex)` (or of the `dlsym` result on the pass-through path). -/
def call_real_lock (env : Env) (st : Shim) : Int × Shim :=
  (env.lock_ret, { st with trace := st.trace ++ [Event.real_lock env.lock_ret],
                           log := st.log ++ [Obs.call (Event.real_lock env.lock_ret)
                                               (shared_of st)] })

/-- A call `real_pthread_mutex_unlock(mutex)` (or of the `dlsym` result on the pass-through path). -/
def call_real_unlock (env : Env) (st : Shim) : Int × Shim :=
  (env.unlock_ret, { st with trace := st.trace ++ [Event.real_unlock env.unlock_ret],
                             log := st.log ++ [Obs.call (Event.real_unlock env.unlock_ret)
                                                 (shared_of st)] })

/-- A call `sched_yield()`. -/
def call_sched_yield (st : Shim) : Shim :=
  { st with trace := st.trace ++ [Event.sched_yield],
            log := st.log ++ [Obs.call Event.sched_yield (shared_of st)] }

/-- The function `rseq_register` of `rseq.h`: the return code and the flag
`__rseq_registered` afterwards.  A thread whose flag is set returns 0 at once; otherwise the
`rseq` system call is made and the flag is set when it returns 0. -/
def rseq_register (env : Env) : Int × Bool :=
  if env.rseq_registered then (0, true)
  else
    let ret := env.rseq_ret
    if ret = 0 then (ret, true) else (ret, env.rseq_registered)

/-- The function `rseq_cpu_id` of `rseq.h`: after the registration attempt of an unregistered
thread, the field `__rseq_abi.cpu_id`.  The kernel keeps that field equal to the CPU the
thread runs on once the area is registered; in an area that was never registered it still
holds the 0 of its static thread-local storage. -/
def rseq_cpu_id (env : Env) : Int :=
  let registered := if !env.rseq_registered then (rseq_register env).2 else env.rseq_registered
  if registered then env.cpu else 0

/-- The function `get_cpu`: `rseq_cpu_id()` when that is not negative, else `sched_getcpu()`. -/
def get_cpu (env : Env) : Int :=
  let cpu := rseq_cpu_id env
  if cpu ≥ 0 then cpu else env.cpu

/-- The function `on_lock_acquired`: `cs_slot_enter(tid)` then `lock_table_insert`.
The clock is read inside `lock_table_insert`, after its `NULL` check. -/
def on_lock_acquired (env : Env) (st : Shim) (mutex : Nat) : Shim :=
  let tid := env.tid
  let cpu := get_cpu env
  let lock_addr := mutex
  let st1 := { st with g_cs_table := cs_slot_enter st.g_cs_table tid }
  match st1.g_lock_table with
  | none => st1
  | some _ =>
    let (now, st2) := get_time_ns env st1
    { st2 with g_lock_table := lock_table_insert st2.g_lock_table st2.g_hash_salt
                                 lock_addr tid cpu now }

/-- The function `on_lock_release`: `cs_slot_leave(tid)` then `lock_table_remove`. -/
def on_lock_release (env : Env) (st : Shim) (mutex : Nat) : Shim :=
  let tid := env.tid
  let lock_addr := mutex
  let st1 := { st with g_cs_table := cs_slot_leave st.g_cs_table tid }
  { st1 with g_lock_table := lock_table_remove st1.g_lock_table st1.g_hash_salt lock_addr }

/-- Phase 1 of `pthread_mutex_lock`, `while (spin_count < SPIN_TRIES)`: `remaining` is
`SPIN_TRIES - spin_count`.  Each round pauses (`cpu_relax`, no effect on the state) and
retries `trylock`; the flag is `true` for "acquired, return 0" and `false` for
"spin budget exhausted". -/
def spin_phase (env : Env) (mutex : Nat) : Nat → Shim → Bool × Shim
  | 0, st => (false, st)
  | remaining + 1, st =>
    let (ret, st1) := call_real_trylock env st
    if ret = 0 then (true, on_lock_acquired env st1 mutex)
    else spin_phase env mutex remaining st1

/-- The refresh `g_waiter_table[idx].target_cpu = target_cpu` inside the yield loop. -/
def waiter_refresh (g_waiter_table : Option WaiterTable) (tid : Nat) (target_cpu : Int) :
    Option WaiterTable :=
  match g_waiter_table with
  | none => none
  | some tbl =>
    let idx := waiter_idx tid
    some (store tbl idx { tbl idx with target_cpu := target_cpu })

/-- The value `(u64)x` of an `int`. -/
def u64_of_int (x : Int) : Nat := (x % 2 ^ 64).toNat

/-- Phase 2 of `pthread_mutex_lock`, the loop `while (1)`; `fuel` bounds the number of
rounds (`none` = fuel used up), `yield_count` is the counter on entry of the round and
`start_ns` the clock value taken before phase 1.  The result is the return code and the
final state. -/
def yield_phase (env : Env) (mutex : Nat) (start_ns : Nat) :
    Nat → Int → Shim → Option (Int × Shim)
  | 0, _, _ => none
  | fuel + 1, yield_count, st =>
    let tid := env.tid
    let lock_addr := mutex
    let st1 := call_sched_yield st
    let yield_count := yield_count + 1
    let (ret, st2) := call_real_trylock env st1
    if ret = 0 then
      let st3 := { st2 with g_waiter_table := waiter_slot_clear st2.g_waiter_table tid }
      some (0, on_lock_acquired env st3 mutex)
    else
      let target_cpu := lock_table_get_owner_cpu st2.g_lock_table st2.g_hash_salt lock_addr
      let st3 := { st2 with g_waiter_table := waiter_refresh st2.g_waiter_table tid target_cpu }
      let (now, st4) := get_time_ns env st3
      let elapsed_us := ((now + 2 ^ 64 - start_ns) % 2 ^ 64) / 1000
      if yield_count ≥ st4.g_yield_budget ∨ elapsed_us ≥ u64_of_int st4.g_fallback_us then
        let st5 := { st4 with g_waiter_table := waiter_slot_clear st4.g_waiter_table tid }
        let (ret, st6) := call_real_lock env st5
        if ret = 0 then some (ret, on_lock_acquired env st6 mutex)
        else some (ret, st6)
      else
        yield_phase env mutex start_ns fuel yield_count st4

/-- The interposed `pthread_mutex_lock`; `fuel` bounds the rounds of the yield loop. -/
def pthread_mutex_lock (fuel : Nat) (env : Env) (st : Shim) (mutex : Nat) :
    Option (Int × Shim) :=
  if !st.g_initialized || !st.g_enabled || !st.real_pthread_mutex_lock then
    if env.dlsym_found then some (call_real_lock env st) else some (EINVAL, st)
  else
    let (ret, st1) := call_real_trylock env st
    if ret = 0 then some (0, on_lock_acquired env st1 mutex)
    else
      let tid := env.tid
      let lock_addr := mutex
      let (start_ns, st2) := get_time_ns env st1
      match spin_phase env mutex SPIN_TRIES st2 with
      | (true, st3) => some (0, st3)
      | (false, st3) =>
        let target_cpu := lock_table_get_owner_cpu st3.g_lock_table st3.g_hash_salt lock_addr
        let st4 := { st3 with g_waiter_table :=
                       waiter_slot_set st3.g_waiter_table tid lock_addr target_cpu }
        yield_phase env mutex start_ns fuel 0 st4

/-- The interposed `pthread_mutex_trylock`. -/
def pthread_mutex_trylock (env : Env) (st : Shim) (mutex : Nat) : Int × Shim :=
  if !st.g_initialized || !st.g_enabled || !st.real_pthread_mutex_trylock then
    if env.dlsym_found then call_real_trylock env st else (EINVAL, st)
  else
    let (ret, st1) := call_real_trylock env st
    if ret = 0 then (ret, on_lock_acquired env st1 mutex) else (ret, st1)

/-- The interposed `pthread_mutex_unlock`. -/
def pthread_mutex_unlock (env : Env) (st : Shim) (mutex : Nat) : Int × Shim :=
  if !st.g_initialized || !st.g_enabled || !st.real_pthread_mutex_unlock then
    if env.dlsym_found then call_real_unlock env st else (EINVAL, st)
  else
    let lock_addr := mutex
    let has_waiter := has_waiters_for_lock st.g_waiter_table lock_addr
    let st1 := on_lock_release env st mutex
    let (ret, st2) := call_real_unlock env st1
    if has_waiter then (ret, call_sched_yield st2) else (ret, st2)

/-! ### Initialisation -/

/-- The C library predicate `isspace` in the "C" locale: space, or one of the characters
9 .. 13 (tab, newline, vertical tab, form feed, carriage return). -/
def isspace (c : Char) : Bool :=
  c.toNat = 32 || (9 ≤ c.toNat && c.toNat ≤ 13)

/-- The C library predicate `isdigit`. -/
def isdigit (c : Char) : Bool :=
  48 ≤ c.toNat && c.toNat ≤ 57

/-- The decimal digits `atoi` converts: what follows the leading white space and one
optional sign, up to the first character that is not a digit. -/
def atoi_digits (s : String) : List Char :=
  let rest := s.toList.dropWhile isspace
  let rest := if rest.head? = some '-' ∨ rest.head? = some '+' then rest.tail else rest
  rest.takeWhile isdigit

/-- The C library function `strtol(nptr, NULL, 10)` on a 64-bit `long`: skip white space,
read an optional sign, convert the decimal digits that follow (0 when there is none); a value
outside `long` becomes `LONG_MAX` or `LONG_MIN`. -/
def strtol (s : String) : Int :=
  let negative := decide ((s.toList.dropWhile isspace).head? = some '-')
  let value : Int :=
    (atoi_digits s).foldl (fun acc c => acc * 10 + ((c.toNat : Int) - 48)) 0
  let value := if negative then -value else value
  if value > 2 ^ 63 - 1 then 2 ^ 63 - 1 else if value < -(2 ^ 63) then -(2 ^ 63) else value

/-- The conversion `(int)x` of a `long`: the low 32 bits, read as a signed number. -/
def int_of_long (x : Int) : Int :=
  (x + 2 ^ 31) % 2 ^ 32 - 2 ^ 31

/-- The C library function `atoi`, which the C library defines as
`(int) strtol(nptr, NULL, 10)`. -/
def atoi (s : String) : Int :=
  int_of_long (strtol s)

/-- What `liblh_init` finds in its process: the environment variables it reads (`NULL` is
`none`), the result of each `mmap` (`MAP_FAILED` is `none`), the value `strtoull(.., 16)`
gives for the salt, and whether `dlsym` resolved the three wrapped functions. -/
structure InitEnv where
  lock_fd_str : Option String
  waiter_fd_str : Option String
  cs_fd_str : Option String
  salt_str : Option String
  budget_str : Option String
  fallback_str : Option String
  enabled_str : Option String
  strtoull16 : String → Nat
  mmap_lock : Int → Option LockTable
  mmap_waiter : Int → Option WaiterTable
  mmap_cs : Int → Option CsTable
  dlsym_lock : Bool
  dlsym_trylock : Bool
  dlsym_unlock : Bool

/-- The globals of `liblh.c` as the program image holds them before `liblh_init` runs. -/
def static_shim : Shim :=
  { g_lock_table := none,
    g_waiter_table := none,
    g_cs_table := none,
    g_hash_salt := 0x12345678deadbeef,
    g_yield_budget := LH_YIELD_BUDGET,
    g_fallback_us := LH_FALLBACK_US,
    g_initialized := false,
    g_enabled := true,
    real_pthread_mutex_lock := false,
    real_pthread_mutex_trylock := false,
    real_pthread_mutex_unlock := false,
    clock_reads := 0,
    trylock_calls := 0,
    trace := [],
    log := [] }

/-- The function `init_real_funcs`. -/
def init_real_funcs (ie : InitEnv) (st : Shim) : Shim :=
  { st with real_pthread_mutex_lock := ie.dlsym_lock,
            real_pthread_mutex_trylock := ie.dlsym_trylock,
            real_pthread_mutex_unlock := ie.dlsym_unlock }

/-- The function `init_shared_memory`. -/
def init_shared_memory (ie : InitEnv) (st : Shim) : Shim :=
  let st := match ie.salt_str with
    | some salt_str => { st with g_hash_salt := ie.strtoull16 salt_str % 2 ^ 64 }
    | none => st
  let st := match ie.lock_fd_str with
    | some lock_fd_str => { st with g_lock_table := ie.mmap_lock (atoi lock_fd_str) }
    | none => st
  let st := match ie.waiter_fd_str with
    | some waiter_fd_str => { st with g_waiter_table := ie.mmap_waiter (atoi waiter_fd_str) }
    | none => st
  let st := match ie.cs_fd_str with
    | some cs_fd_str => { st with g_cs_table := ie.mmap_cs (atoi cs_fd_str) }
    | none => st
  let st := match ie.budget_str with
    | some budget_str => { st with g_yield_budget := atoi budget_str }
    | none => st
  let st := match ie.fallback_str with
    | some fallback_str => { st with g_fallback_us := atoi fallback_str }
    | none => st
  match ie.enabled_str with
  | some enabled_str => if enabled_str = "0" then { st with g_enabled := false } else st
  | none => st

/-- The constructor `liblh_init`. -/
def liblh_init (ie : InitEnv) : Shim :=
  let st := init_real_funcs ie static_shim
  let st := init_shared_memory ie st
  { st with g_initialized := true }

end Liblh

/-! ## `scx_lhandoff.bpf.c`: the scheduler side -/

namespace Scx

/-- The fields of `struct task_struct` the scheduler reads, as the `u32` values it reads. -/
structure task_struct where
  pid : Nat
  tgid : Nat
deriving DecidableEq, Repr

/-- The helper `bpf_map_lookup_elem` on an array map: `NULL` for a key outside the map. -/
def bpf_map_lookup_elem {n : Nat} {α : Type} (map : Fin n → α) (key : Nat) : Option α :=
  if h : key < n then some (map ⟨key, h⟩) else none

/-- The value `(s32)x` of a `u32`. -/
def s32_of_u32 (x : Nat) : Int :=
  if x % 2 ^ 32 < 2 ^ 31 then ((x % 2 ^ 32 : Nat) : Int) else ((x % 2 ^ 32 : Nat) : Int) - 2 ^ 32

/-- The scheduler-side macro `LH_BUCKET_IDX(lock_addr)`, over the global `hash_salt`. -/
def LH_BUCKET_IDX (hash_salt lock_addr : Nat) : Nat :=
  ((((lock_addr ^^^ hash_salt) % 2 ^ 32) * 2654435761) % 2 ^ 32) % LH_LOCK_TABLE_BUCKETS

/-- The scheduler-side macro `LH_TAG_FROM_ADDR(lock_addr)`, over the global `hash_salt`. -/
def LH_TAG_FROM_ADDR (hash_salt lock_addr : Nat) : Nat :=
  (((lock_addr ^^^ hash_salt) >>> 32) % 2 ^ 32) ||| 1

/-- The function `get_waiter_target_cpu`; `nr_cpus` and `hash_salt` are the read-only
globals, `waiter_table` and `lock_table` the two maps.  The block guarded by
`slot->lock_addr != 0` either returns a CPU (`some`) or falls through to the final
`return -1` (`none`). -/
def get_waiter_target_cpu (nr_cpus hash_salt : Nat) (waiter_table : WaiterTable)
    (lock_table : LockTable) (p : task_struct) : Int :=
  let tid := p.pid
  let slot_idx := LH.LH_WAITER_SLOT_IDX tid
  match bpf_map_lookup_elem waiter_table slot_idx with
  | none => -1
  | some slot =>
    if slot.flags ≠ LH_WAITER_ACTIVE then -1
    else if slot.tid ≠ tid then -1
    else if slot.target_cpu ≥ 0 ∧ slot.target_cpu < s32_of_u32 nr_cpus then slot.target_cpu
    else
      let via_lock_table : Option Int :=
        if slot.lock_addr ≠ 0 then
          let bucket_idx := LH_BUCKET_IDX hash_salt slot.lock_addr
          let tag := LH_TAG_FROM_ADDR hash_salt slot.lock_addr
          match bpf_map_lookup_elem lock_table bucket_idx with
          | none => none
          | some bucket =>
            if bucket.way0.tag = tag ∧
                (bucket.way0.owner_cpu ≥ 0 ∧ bucket.way0.owner_cpu < s32_of_u32 nr_cpus) then
              some bucket.way0.owner_cpu
            else if bucket.way1.tag = tag ∧
                (bucket.way1.owner_cpu ≥ 0 ∧ bucket.way1.owner_cpu < s32_of_u32 nr_cpus) then
              some bucket.way1.owner_cpu
            else none
        else none
      match via_lock_table with
      | some cpu => cpu
      | none => -1

/-- The function `is_task_in_cs`. -/
def is_task_in_cs (cs_table : CsTable) (p : task_struct) : Bool :=
  let tid := p.pid
  let slot_idx := LH.LH_CS_SLOT_IDX tid
  match bpf_map_lookup_elem cs_table slot_idx with
  | none => false
  | some slot => decide (slot.in_cs ≠ 0)

/-! ### Admission, placement, slice assignment, fork -/

/-- The constant `LH_MAX_ALLOWED_TGIDS`, the `max_entries` of the map `allowed_tgids`. -/
def LH_MAX_ALLOWED_TGIDS : Nat := 256

/-- The constant `LH_SLICE_NORMAL_NS`. -/
def LH_SLICE_NORMAL_NS : Nat := 5 * 1000 * 1000

/-- The constant `LH_SLICE_IN_CS_MULT`. -/
def LH_SLICE_IN_CS_MULT : Nat := 4

/-- The constant `LH_SLICE_WAITER_NS`. -/
def LH_SLICE_WAITER_NS : Nat := 1 * 1000 * 1000

/-- The flag `SCX_ENQ_PREEMPT`. -/
def SCX_ENQ_PREEMPT : Nat := 0x1

/-- The queue id `SCX_DSQ_GLOBAL`. -/
def SCX_DSQ_GLOBAL : Nat := 0x8000000000000001

/-- The record `struct task_ctx` of the per-task storage `task_ctx_map`. -/
structure task_ctx where
  controlled : Bool
  checked : Bool
deriving DecidableEq, Repr

/-- The hash map `allowed_tgids` (key `u32` tgid, value `u8`): its keys; the values are
never read.  At most `LH_MAX_ALLOWED_TGIDS` keys fit. -/
abbrev AllowedTgids := List Nat

/-- The helper `bpf_map_lookup_elem` on the hash map `allowed_tgids`: `true` for a non-`NULL`
result, that is, for a key that is present. -/
def hash_lookup (map : AllowedTgids) (key : Nat) : Bool :=
  decide (key ∈ map)

/-- The helper `bpf_map_update_elem(map, key, value, BPF_ANY)` on a hash map with
`max_entries` entries: an existing key keeps its place (its value is overwritten), a new key
is added while there is room, and with a full map the call fails and leaves the map as it
is. -/
def hash_update (max_entries : Nat) (map : AllowedTgids) (key : Nat) : AllowedTgids :=
  if key ∈ map then map
  else if map.length < max_entries then map ++ [key]
  else map

/-- The helper `bpf_task_storage_get(&task_ctx_map, p, NULL, flags)` on the storage of one
task: the existing entry if there is one; otherwise, with
`BPF_LOCAL_STORAGE_GET_F_CREATE`, a new zeroed entry when the kernel can provide one
(`create_ok`), and `NULL` in every other case. -/
def bpf_task_storage_get (storage : Option task_ctx) (create create_ok : Bool) :
    Option task_ctx :=
  match storage with
  | some ctx => some ctx
  | none => if create && create_ok then some { controlled := false, checked := false } else none

/-- The function `is_task_controlled` on the storage of task `p`; the result is the answer
and the storage of `p` after the call. -/
def is_task_controlled (allowed_tgids : AllowedTgids) (storage : Option task_ctx)
    (create_ok : Bool) (p : task_struct) : Bool × Option task_ctx :=
  let memo : Option Bool :=
    match bpf_task_storage_get storage false create_ok with
    | some ctx => if ctx.checked then some ctx.controlled else none
    | none => none
  match memo with
  | some answer => (answer, storage)
  | none =>
    let tgid := p.tgid
    let allowed := hash_lookup allowed_tgids tgid
    match bpf_task_storage_get storage true create_ok with
    | some _ => (allowed, some { controlled := allowed, checked := true })
    | none => (allowed, storage)

/-- The read-only globals and the maps of the scheduler program. -/
structure Maps where
  nr_cpus : Nat
  hash_salt : Nat
  allowed_tgids : AllowedTgids
  lock_table : LockTable
  waiter_table : WaiterTable
  cs_table : CsTable

/-- The callback `lhandoff_select_cpu`; the result is the chosen CPU and the storage of `p`
after the call (`wake_flags` is not used by the code). -/
def lhandoff_select_cpu (m : Maps) (storage : Option task_ctx) (create_ok : Bool)
    (p : task_struct) (prev_cpu : Int) : Int × Option task_ctx :=
  let prev_cpu := if prev_cpu < 0 ∨ prev_cpu ≥ s32_of_u32 m.nr_cpus then 0 else prev_cpu
  let (controlled, storage1) := is_task_controlled m.allowed_tgids storage create_ok p
  if !controlled then (prev_cpu, storage1)
  else if is_task_in_cs m.cs_table p then (prev_cpu, storage1)
  else
    let target := get_waiter_target_cpu m.nr_cpus m.hash_salt m.waiter_table m.lock_table p
    if target ≥ 0 ∧ target < s32_of_u32 m.nr_cpus then (target, storage1)
    else (prev_cpu, storage1)

/-- The arguments of the one call `scx_bpf_dsq_insert(p, dsq_id, slice, enq_flags)` that
`lhandoff_enqueue` makes. -/
structure DsqInsert where
  dsq_id : Nat
  slice : Nat
  enq_flags : Nat
deriving DecidableEq, Repr

/-- The callback `lhandoff_enqueue`; the result is its `scx_bpf_dsq_insert` call and the
storage of `p` after the call (the argument `enq_flags` is not used by the code). -/
def lhandoff_enqueue (m : Maps) (storage : Option task_ctx) (create_ok : Bool)
    (p : task_struct) : DsqInsert × Option task_ctx :=
  let slice := LH_SLICE_NORMAL_NS
  let (controlled, storage1) := is_task_controlled m.allowed_tgids storage create_ok p
  if !controlled then
    ({ dsq_id := SCX_DSQ_GLOBAL, slice := LH_SLICE_NORMAL_NS, enq_flags := 0 }, storage1)
  else
    let target_cpu := get_waiter_target_cpu m.nr_cpus m.hash_salt m.waiter_table m.lock_table p
    if target_cpu ≥ 0 then
      ({ dsq_id := SCX_DSQ_GLOBAL, slice := LH_SLICE_WAITER_NS, enq_flags := SCX_ENQ_PREEMPT },
        storage1)
    else
      let slice := if is_task_in_cs m.cs_table p then LH_SLICE_NORMAL_NS * LH_SLICE_IN_CS_MULT
                   else slice
      ({ dsq_id := SCX_DSQ_GLOBAL, slice := slice, enq_flags := 0 }, storage1)

/-- The tracepoint program `handle_fork`: the map `allowed_tgids` after it has run. -/
def handle_fork (allowed_tgids : AllowedTgids) (parent child : task_struct) : AllowedTgids :=
  let parent_tgid := parent.tgid
  let child_tgid := child.tgid
  if hash_lookup allowed_tgids parent_tgid then
    hash_update LH_MAX_ALLOWED_TGIDS allowed_tgids child_tgid
  else allowed_tgids

end Scx

/-! ## Sequences of calls used in the statements -/

open Liblh Scx

/-- A call on the critical-section table by one thread. -/
inductive CsOp where
  | enter
  | leave
deriving DecidableEq, Repr

/-- One call of `cs_slot_enter` or `cs_slot_leave` by thread `tid`. -/
def cs_step (tid : Nat) (t : Option CsTable) : CsOp → Option CsTable
  | CsOp.enter => cs_slot_enter t tid
  | CsOp.leave => cs_slot_leave t tid

/-- A finite sequence of `cs_slot_enter` / `cs_slot_leave` calls by thread `tid`. -/
def cs_run (tid : Nat) (t : Option CsTable) (ops : List CsOp) : Option CsTable :=
  ops.foldl (cs_step tid) t

/-- The saturating counter of the specification: `enter` adds one, `leave` subtracts one
but never goes below zero. -/
def saturating_step (d : Nat) : CsOp → Nat
  | CsOp.enter => d + 1
  | CsOp.leave => if d = 0 then 0 else d - 1

/-- The saturating counter of the specification after a sequence of calls, from depth `d`. -/
def saturating_depth (d : Nat) (ops : List CsOp) : Nat :=
  ops.foldl saturating_step d

/-- The salt both sides are built with. -/
def default_salt : Nat := 0x12345678deadbeef

/-- Two lock addresses 2^33 apart: same bucket, different tags (under `default_salt`). -/
def lock_a : Nat := 0x7f0000001000

/-- See `lock_a`. -/
def lock_b : Nat := 0x7f0200001000

/-- The ownership table after `insert(lock_a)`, `insert(lock_b)`, `remove(lock_a)`,
`insert(lock_b)` on an all-zero table: both ways of the bucket carry the tag of `lock_b`. -/
def twice_stored_table : Option LockTable :=
  lock_table_insert
    (lock_table_remove
      (lock_table_insert
        (lock_table_insert (some zero_lock_table) default_salt lock_a 100 0 0)
        default_salt lock_b 101 1 0)
      default_salt lock_a)
    default_salt lock_b 101 2 0

/-- The table behind `twice_stored_table`. -/
def twice_stored : LockTable := twice_stored_table.getD zero_lock_table

/-- A third lock address of the same bucket as `lock_a` and `lock_b`, with a third tag. -/
def lock_c : Nat := 0x7f0400001000

/-- The ownership table after `insert(lock_a)`, `insert(lock_b)` on an all-zero table:
way 0 holds `lock_a` (owner CPU 0), way 1 holds `lock_b` (owner CPU 1). -/
def two_locks : LockTable :=
  (lock_table_insert
    (lock_table_insert (some zero_lock_table) default_salt lock_a 100 0 0)
    default_salt lock_b 101 1 0).getD zero_lock_table

/-- A shim after a successful `liblh_init`: all three tables mapped and all-zero, default
salt and budgets, wrapped functions resolved, nothing called yet. -/
def ready_shim : Shim :=
  { g_lock_table := some zero_lock_table,
    g_waiter_table := some zero_waiter_table,
    g_cs_table := some zero_cs_table,
    g_hash_salt := default_salt,
    g_yield_budget := LH_YIELD_BUDGET,
    g_fallback_us := LH_FALLBACK_US,
    g_initialized := true,
    g_enabled := true,
    real_pthread_mutex_lock := true,
    real_pthread_mutex_trylock := true,
    real_pthread_mutex_unlock := true,
    clock_reads := 0,
    trylock_calls := 0,
    trace := [],
    log := [] }

/-- Thread 7 on CPU 2, its `rseq` area registered, with a free mutex: every wrapped call
returns 0. -/
def env_free : Env :=
  { tid := 7, cpu := 2, rseq_registered := true, rseq_ret := 0,
    time_ns := fun n => 1000000 + n, trylock_ret := fun _ => 0,
    lock_ret := 0, unlock_ret := 0, dlsym_found := true }

/-- Thread 7 on CPU 2 with a free mutex, whose `rseq` area is not registered and whose
registration attempt is refused (the system call returns -1, as it does when the C library has
already registered an area of its own for the thread). -/
def env_rseq_refused : Env :=
  { tid := 7, cpu := 2, rseq_registered := false, rseq_ret := -1,
    time_ns := fun n => 1000000 + n, trylock_ret := fun _ => 0,
    lock_ret := 0, unlock_ret := 0, dlsym_found := true }

/-- Thread 7 on CPU 2 with a held mutex: every `trylock` returns `EBUSY` (16), the blocking
lock returns 0, and the clock advances by `step_ns` between two readings. -/
def env_busy (step_ns : Nat) : Env :=
  { tid := 7, cpu := 2, rseq_registered := true, rseq_ret := 0,
    time_ns := fun n => 1000000 + n * step_ns, trylock_ret := fun _ => 16,
    lock_ret := 0, unlock_ret := 0, dlsym_found := true }

/-- The number of `sched_yield()` calls in a trace. -/
def count_yields (trace : List Event) : Nat :=
  trace.count Event.sched_yield

/-- An outside call that is not a successful acquisition and not the blocking lock:
a `sched_yield()` or a `trylock` with a non-zero return code. -/
def failed_attempt : Event → Bool
  | Event.sched_yield => true
  | Event.real_trylock ret => decide (ret ≠ 0)
  | _ => false

/-- The shim `ready_shim` after thread 1000 has published a waiter hint for `lock_a`
(slot 1000 of the waiter table). -/
def far_waiter_shim : Shim :=
  { ready_shim with
    g_waiter_table := waiter_slot_set (some zero_waiter_table) 1000 lock_a (-1) }

/-- The waiter table after thread 4163 has published a waiter hint for `lock_a` (slot 67). -/
def window_waiter_table : WaiterTable :=
  (waiter_slot_set (some zero_waiter_table) 4163 lock_a (-1)).getD zero_waiter_table

/-! ## Predicates and intermediate states of the acquisition path -/

/-- `Quiet s s1`: from `s` to `s1` only yields and failed `trylock` calls went out, and the
ownership table, the critical-section table and the configuration are as in `s`. -/
def Quiet (s s1 : Shim) : Prop :=
  s1.g_lock_table = s.g_lock_table ∧ s1.g_cs_table = s.g_cs_table ∧
  s1.g_hash_salt = s.g_hash_salt ∧ s1.g_yield_budget = s.g_yield_budget ∧
  s1.g_fallback_us = s.g_fallback_us ∧
  ∃ pre, s1.trace = s.trace ++ pre ∧ ∀ e ∈ pre, failed_attempt e = true

/-- `AcquireOutcome env mutex s ret s1`: the outside calls from `s` to `s1` are yields and
failed `trylock` calls followed by one last call, which is either a `trylock` that returned 0
(and `ret = 0`) or the blocking lock that returned `ret`; when `ret = 0` the tables of `s1`
are those of `s` after `cs_slot_enter` and `lock_table_insert` for this thread and lock,
otherwise both tables are those of `s`. -/
def AcquireOutcome (env : Env) (mutex : Nat) (s : Shim) (ret : Int) (s1 : Shim) : Prop :=
  ∃ pre last, s1.trace = s.trace ++ pre ++ [last] ∧ (∀ e ∈ pre, failed_attempt e = true) ∧
    (last = Event.real_trylock 0 ∧ ret = 0 ∨ last = Event.real_lock ret) ∧
    (if ret = 0 then
      s1.g_cs_table = cs_slot_enter s.g_cs_table env.tid ∧
      ∃ now, s1.g_lock_table
        = lock_table_insert s.g_lock_table s.g_hash_salt mutex env.tid (get_cpu env) now
     else s1.g_cs_table = s.g_cs_table ∧ s1.g_lock_table = s.g_lock_table)

/-- `Published env mutex s s1`: against the mapped tables of `s`, the tables of `s1` show the
acquisition of `mutex` by the calling thread: the ownership lookup of `mutex` returns the CPU
`get_cpu` gave, a way of the lock's bucket holds the lock's tag with `owner_tid = env.tid` and
that CPU, and the `u32` depth of the thread's critical-section slot is one more than in `s`. -/
def Published (env : Env) (mutex : Nat) (s s1 : Shim) : Prop :=
  lock_table_get_owner_cpu s1.g_lock_table s.g_hash_salt mutex = get_cpu env ∧
  (∃ lt1, s1.g_lock_table = some lt1 ∧
    (((lt1 (bucket_idx s.g_hash_salt mutex)).way0.tag = tag_from_addr s.g_hash_salt mutex ∧
        (lt1 (bucket_idx s.g_hash_salt mutex)).way0.owner_tid = env.tid ∧
        (lt1 (bucket_idx s.g_hash_salt mutex)).way0.owner_cpu = get_cpu env) ∨
      ((lt1 (bucket_idx s.g_hash_salt mutex)).way1.tag = tag_from_addr s.g_hash_salt mutex ∧
        (lt1 (bucket_idx s.g_hash_salt mutex)).way1.owner_tid = env.tid ∧
        (lt1 (bucket_idx s.g_hash_salt mutex)).way1.owner_cpu = get_cpu env))) ∧
  (∃ ct ct1, s.g_cs_table = some ct ∧ s1.g_cs_table = some ct1 ∧
    (ct1 (cs_idx env.tid)).in_cs = ((ct (cs_idx env.tid)).in_cs + 1) % 2 ^ 32)

/-- The state of the yield loop after one round whose `trylock` failed, at the degradation
check: yield, `trylock`, refresh of the hint's target CPU, clock read. -/
def failed_round (env : Env) (mutex : Nat) (s : Shim) : Shim :=
  let s2 := (call_real_trylock env (call_sched_yield s)).2
  let target_cpu := lock_table_get_owner_cpu s2.g_lock_table s2.g_hash_salt mutex
  (get_time_ns env
    { s2 with g_waiter_table := waiter_refresh s2.g_waiter_table env.tid target_cpu }).2

/-- The value `elapsed_us` of the degradation check when the clock reading number `read` is
taken: `(get_time_ns() - start_ns) / 1000` in `u64` arithmetic. -/
def elapsed_us (env : Env) (start_ns read : Nat) : Nat :=
  ((env.time_ns read % 2 ^ 64 + 2 ^ 64 - start_ns) % 2 ^ 64) / 1000

/-- The blocking fallback of the yield loop: clear the hint, call the wrapped blocking lock,
publish on success. -/
def blocking_fallback (env : Env) (mutex : Nat) (s : Shim) : Int × Shim :=
  let s5 := { s with g_waiter_table := waiter_slot_clear s.g_waiter_table env.tid }
  if env.lock_ret = 0 then (env.lock_ret, on_lock_acquired env (call_real_lock env s5).2 mutex)
  else (env.lock_ret, (call_real_lock env s5).2)

/-- The state on entry of the yield loop: the waiter hint of this thread published with the
owner CPU the ownership table gives for the lock. -/
def publish_waiter (env : Env) (mutex : Nat) (s : Shim) : Shim :=
  let target_cpu := lock_table_get_owner_cpu s.g_lock_table s.g_hash_salt mutex
  { s with g_waiter_table := waiter_slot_set s.g_waiter_table env.tid mutex target_cpu }

/-- The state on entry of the spin phase: the first `trylock` has failed and `start_ns` has
been read. -/
def spin_entry (env : Env) (s : Shim) : Shim :=
  (get_time_ns env (call_real_trylock env s).2).2

/-- The degradation check of the yield loop in round `i + 1` of a loop entered in state `s`
with counter `y`: `yield_count >= g_yield_budget || elapsed_us >= (u64)g_fallback_us`. -/
def degrade_check (env : Env) (start_ns : Nat) (y : Int) (s : Shim) (i : Nat) : Prop :=
  y + ((i : Int) + 1) ≥ s.g_yield_budget ∨
    elapsed_us env start_ns (s.clock_reads + i) ≥ u64_of_int s.g_fallback_us

/-- The value `elapsed_us` that the degradation check after the `k`-th yield of a
`pthread_mutex_lock` call started in state `st` computes when every `trylock` fails:
`start_ns` is the first clock value the call reads, the check after the `k`-th yield reads
the `k`-th value after it. -/
def lock_elapsed_us (env : Env) (st : Shim) (k : Nat) : Nat :=
  elapsed_us env (env.time_ns st.clock_reads % 2 ^ 64) (st.clock_reads + k)

/-- The degradation condition after the `k`-th yield:
`yield_count >= g_yield_budget || elapsed_us >= (u64)g_fallback_us` with `yield_count = k`. -/
def lock_degrades_at (env : Env) (st : Shim) (k : Nat) : Prop :=
  (k : Int) ≥ st.g_yield_budget ∨ lock_elapsed_us env st k ≥ u64_of_int st.g_fallback_us

/-! ## Further configurations and predicates used in the statements -/

/-- The clamp at the head of `lhandoff_select_cpu`:
`if (prev_cpu < 0 || prev_cpu >= (s32)nr_cpus) prev_cpu = 0`. -/
def clamp_prev_cpu (nr_cpus : Nat) (prev_cpu : Int) : Int :=
  if prev_cpu < 0 ∨ prev_cpu ≥ s32_of_u32 nr_cpus then 0 else prev_cpu

/-- Scheduler maps on a machine with 4 CPUs: tgid 1 is allowed, the three hint tables are
all-zero. -/
def maps_idle : Maps :=
  { nr_cpus := 4, hash_salt := default_salt, allowed_tgids := [1],
    lock_table := zero_lock_table, waiter_table := zero_waiter_table,
    cs_table := zero_cs_table }

/-- Thread 7 of the allowed process group 1. -/
def task_seven : task_struct := { pid := 7, tgid := 1 }

/-- Thread 9 of process group 5, which is not allowed in `maps_idle`. -/
def task_stranger : task_struct := { pid := 9, tgid := 5 }

/-- The maps `maps_idle` after thread 7 has published a waiter hint for `lock_a` with target
CPU 2. -/
def maps_hint_two : Maps :=
  { maps_idle with
    waiter_table := (waiter_slot_set (some zero_waiter_table) 7 lock_a 2).getD zero_waiter_table }

/-- The maps `maps_idle` after thread 7 has published a waiter hint for `lock_a` with no
target CPU (-1), as `pthread_mutex_lock` does when the ownership table has no entry for the
lock. -/
def maps_hint_unresolved : Maps :=
  { maps_idle with
    waiter_table :=
      (waiter_slot_set (some zero_waiter_table) 7 lock_a (-1)).getD zero_waiter_table }

/-- A full map `allowed_tgids`: the 256 tgids 1000 .. 1255. -/
def full_allowed : AllowedTgids := (List.range 256).map (fun i => 1000 + i)

/-- A shim after `liblh_init` when no table could be mapped: as `ready_shim`, with the three
table pointers `NULL`. -/
def unmapped_shim : Shim :=
  { ready_shim with g_lock_table := none, g_waiter_table := none, g_cs_table := none }

/-- `Unmapped s`: none of the three tables is mapped in `s`. -/
def Unmapped (s : Shim) : Prop :=
  s.g_lock_table = none ∧ s.g_waiter_table = none ∧ s.g_cs_table = none


/-- A process environment in which the launcher has passed the three tables (descriptors 3,
4, 5, all mapping successfully to all-zero memory) and the tunables are unset. -/
def launched_env : InitEnv :=
  { lock_fd_str := some "3", waiter_fd_str := some "4", cs_fd_str := some "5",
    salt_str := none, budget_str := none, fallback_str := none, enabled_str := some "1",
    strtoull16 := fun _ => 0,
    mmap_lock := fun _ => some zero_lock_table,
    mmap_waiter := fun _ => some zero_waiter_table,
    mmap_cs := fun _ => some zero_cs_table,
    dlsym_lock := true, dlsym_trylock := true, dlsym_unlock := true }

/-- The environment `launched_env` with `LH_YIELD_BUDGET=abc` and `LH_FALLBACK_US=fast`. -/
def garbled_env : InitEnv :=
  { launched_env with budget_str := some "abc", fallback_str := some "fast" }

/-- The environment `launched_env` with `LH_YIELD_BUDGET=128` and
`LH_FALLBACK_US=4294967297`, a number outside `int`. -/
def tuned_env : InitEnv :=
  { launched_env with budget_str := some "128", fallback_str := some "4294967297" }


/-- The time at which the state `s` is reached on a clock that starts at 0 and advances by
`ns_per_call` with every outside call (wrapped primitive or `sched_yield`). -/
def wall_time (ns_per_call : Nat) (s : Shim) : Nat :=
  ns_per_call * s.trace.length

/-- Thread 7 on CPU 2 with a held mutex, on a clock that advances 6 us with every outside
call: the first clock value is read after 1 outside call (the failed fast-path `trylock`),
the `n`-th later one after `1 + 100 + 2 * n` outside calls (100 spin attempts, then a yield
and a `trylock` per round). -/
def env_slow_spin : Env :=
  { tid := 7, cpu := 2, rseq_registered := true, rseq_ret := 0,
    time_ns := fun n => if n = 0 then 6000 * 1 else 6000 * (101 + 2 * n),
    trylock_ret := fun _ => 16, lock_ret := 0, unlock_ret := 0, dlsym_found := true }

/-- An observation without the memory: an outside call, or a clock reading with its value. -/
inductive Tick where
  | call (e : Event)
  | clock (value : Nat)
deriving DecidableEq

/-- The observation `o` without the memory. -/
def tick_of : Obs → Tick
  | Obs.call e _ => Tick.call e
  | Obs.clock value => Tick.clock value

/-- A log without the memory: the outside calls and clock readings, in order. -/
def ticks (log : List Obs) : List Tick :=
  log.map tick_of

/-- What `n` consecutive failing rounds of the spin phase do, the first one getting the
`trylock` answer number `t`: one `trylock` call each. -/
def spin_ticks (env : Env) : Nat → Nat → List Tick
  | _, 0 => []
  | t, n + 1 => Tick.call (Event.real_trylock (env.trylock_ret t)) :: spin_ticks env (t + 1) n

/-- What `k` consecutive failing rounds of the yield loop do, the first one getting the
`trylock` answer number `t` and the clock value number `c`: a yield, a `trylock` call and a
clock reading each. -/
def yield_ticks (env : Env) : Nat → Nat → Nat → List Tick
  | _, _, 0 => []
  | t, c, k + 1 =>
    Tick.call Event.sched_yield :: Tick.call (Event.real_trylock (env.trylock_ret t)) ::
      Tick.clock (env.time_ns c % 2 ^ 64) :: yield_ticks env (t + 1) (c + 1) k

/-- The state in which `pthread_mutex_lock` enters its yield loop when the fast path and the
spin phase have failed. -/
def yield_wait_entry (env : Env) (st : Shim) (mutex : Nat) : Shim :=
  publish_waiter env mutex (spin_phase env mutex SPIN_TRIES (spin_entry env st)).2


/-- The `flags` field of the waiter slot of thread `tid` in state `s` (`none` when the waiter
table is not mapped). -/
def waiter_flags (s : Shim) (tid : Nat) : Option Nat :=
  s.g_waiter_table.map fun wt => (wt (waiter_idx tid)).flags

/-- The `flags` field of the waiter slot of thread `tid` in the shared memory `mem` (`none`
when the waiter table is not mapped). -/
def mem_flags (mem : Shared) (tid : Nat) : Option Nat :=
  mem.waiter_table.map fun wt => (wt (waiter_idx tid)).flags

/-- `NoLock o`: the observation `o` is not a call of the wrapped blocking lock. -/
def NoLock (o : Obs) : Prop :=
  ∀ ret mem, o ≠ Obs.call (Event.real_lock ret) mem

/-- `LockHintFree tid log`: every call of the wrapped blocking lock in `log` was made while
the waiter slot of thread `tid` was inactive in the shared memory. -/
def LockHintFree (tid : Nat) (log : List Obs) : Prop :=
  ∀ ret mem, Obs.call (Event.real_lock ret) mem ∈ log →
    mem_flags mem tid = some LH_WAITER_INACTIVE


/-- Thread 7 on CPU 2 whose wrapped `unlock` fails with `EPERM` (1): the caller does not own
the mutex. -/
def env_not_owner : Env :=
  { tid := 7, cpu := 2, rseq_registered := true, rseq_ret := 0,
    time_ns := fun n => 1000000 + n, trylock_ret := fun _ => 0,
    lock_ret := 0, unlock_ret := 1, dlsym_found := true }

/-- The shim `ready_shim` after thread 7 has acquired `lock_a` on the fast path. -/
def holding_shim : Shim :=
  on_lock_acquired env_free ready_shim lock_a

/-- The shim `holding_shim` with the waiter table `window_waiter_table`: thread 7 holds
`lock_a` and thread 4163 waits for it. -/
def holding_waited_shim : Shim :=
  { holding_shim with g_waiter_table := some window_waiter_table }


/-- A lock address that differs from `lock_a` in bits 10 and 32 only. -/
def lock_a_twin : Nat := 0x7f0100001400


/-! ## Theorems -/

theorem store_same {n : Nat} {α : Type} (tbl : Fin n → α) (i : Fin n) (v : α) :
    store tbl i v i = v := by
  simp [store]

theorem lor_one_ne_zero (x : Nat) : x ||| 1 ≠ 0 := by
  intro h
  have h1 := congrArg (fun n => Nat.testBit n 0) h
  simp at h1

theorem tag_from_addr_ne_zero (salt lock_addr : Nat) : tag_from_addr salt lock_addr ≠ 0 :=
  lor_one_ne_zero _

theorem lookup_after_insert (tbl : LockTable) (salt lock_addr tid : Nat) (cpu : Int)
    (now : Nat) :
    lock_table_get_owner_cpu (lock_table_insert (some tbl) salt lock_addr tid cpu now)
      salt lock_addr = cpu := by
  simp only [lock_table_insert, lock_table_get_owner_cpu]
  split_ifs <;> simp_all [store, publish_entry]

/-- C1. Ownership round trip, insert then lookup: on every mapped ownership table, for every
lock address, thread id, CPU and clock value, a lookup of the lock right after its insert
returns the inserted CPU (same salt on both calls). -/
theorem insert_then_lookup_returns_cpu (tbl : LockTable) (salt lock_addr tid : Nat)
    (cpu : Int) (now : Nat) :
    lock_table_get_owner_cpu (lock_table_insert (some tbl) salt lock_addr tid cpu now)
      salt lock_addr = cpu :=
  lookup_after_insert tbl salt lock_addr tid cpu now

/-- C2 (the code at the failing input). After `insert(lock_a)`, `insert(lock_b)`,
`remove(lock_a)`, `insert(lock_b)` on an all-zero table, `remove(lock_b)` clears only way 0
and the lookup of `lock_b` still answers with the owner CPU 1 left in way 1, not with -1. -/
theorem remove_then_lookup_finds_second_copy :
    lock_table_get_owner_cpu (lock_table_remove twice_stored_table default_salt lock_b)
      default_salt lock_b = 1 := by
  decide

/-- C3 as stated fails when both ways carry the same tag: in `twice_stored` way 0 and
way 1 of the bucket both hold the (non-zero) tag of `lock_b`; the third lock `lock_c` of the
same bucket, with another tag, evicts way 0, and the lookup of `lock_b` is then answered
from way 1 (CPU 1) instead of "not found". -/
theorem eviction_claim_fails_on_equal_tags :
    (bucket_idx default_salt lock_b = bucket_idx default_salt lock_c ∧
      (twice_stored (bucket_idx default_salt lock_c)).way0.tag
        = tag_from_addr default_salt lock_b ∧
      (twice_stored (bucket_idx default_salt lock_c)).way1.tag
        = tag_from_addr default_salt lock_b ∧
      tag_from_addr default_salt lock_b ≠ 0 ∧
      tag_from_addr default_salt lock_c ≠ tag_from_addr default_salt lock_b) ∧
    lock_table_get_owner_cpu
        (lock_table_insert (some twice_stored) default_salt lock_c 102 3 0)
        default_salt lock_b = 1 := by
  decide

/-- C3 (amended). Eviction rule: if way 0 of a bucket holds the tag of lock `l1` and way 1
the tag of lock `l2`, the two tags are different, and a third lock `l3` of the same bucket
has a tag different from both, then after `lock_table_insert(l3, tid, cpu3)` the lookup of
`l1` returns -1, the lookup of `l2` still returns the owner CPU stored in way 1, and the
lookup of `l3` returns `cpu3`. -/
theorem eviction_rule (tbl : LockTable) (salt l1 l2 l3 tid : Nat) (cpu3 : Int) (now : Nat)
    (hb1 : bucket_idx salt l1 = bucket_idx salt l3)
    (hb2 : bucket_idx salt l2 = bucket_idx salt l3)
    (hw0 : (tbl (bucket_idx salt l3)).way0.tag = tag_from_addr salt l1)
    (hw1 : (tbl (bucket_idx salt l3)).way1.tag = tag_from_addr salt l2)
    (h12 : tag_from_addr salt l1 ≠ tag_from_addr salt l2)
    (h31 : tag_from_addr salt l3 ≠ tag_from_addr salt l1)
    (h32 : tag_from_addr salt l3 ≠ tag_from_addr salt l2) :
    lock_table_get_owner_cpu (lock_table_insert (some tbl) salt l3 tid cpu3 now) salt l1 = -1 ∧
    lock_table_get_owner_cpu (lock_table_insert (some tbl) salt l3 tid cpu3 now) salt l2
      = (tbl (bucket_idx salt l3)).way1.owner_cpu ∧
    lock_table_get_owner_cpu (lock_table_insert (some tbl) salt l3 tid cpu3 now) salt l3
      = cpu3 := by
  have hz1 := tag_from_addr_ne_zero salt l1
  have hz2 := tag_from_addr_ne_zero salt l2
  refine ⟨?_, ?_, lookup_after_insert tbl salt l3 tid cpu3 now⟩
  · simp only [lock_table_insert, lock_table_get_owner_cpu, hb1, hw0, hw1]
    simp [hz1, hz2, Ne.symm h31, Ne.symm h32, store, publish_entry, h31, h32, hw1, Ne.symm h12]
  · simp only [lock_table_insert, lock_table_get_owner_cpu, hb2, hw0, hw1]
    simp [hz1, hz2, Ne.symm h31, Ne.symm h32, store, publish_entry, h31, h32, hw1]

/-- Witness of `eviction_rule`: `two_locks`, evicted by `lock_c`. -/
theorem eviction_rule_witness :
    (bucket_idx default_salt lock_a = bucket_idx default_salt lock_c ∧
      bucket_idx default_salt lock_b = bucket_idx default_salt lock_c ∧
      (two_locks (bucket_idx default_salt lock_c)).way0.tag = tag_from_addr default_salt lock_a ∧
      (two_locks (bucket_idx default_salt lock_c)).way1.tag = tag_from_addr default_salt lock_b ∧
      tag_from_addr default_salt lock_a ≠ tag_from_addr default_salt lock_b ∧
      tag_from_addr default_salt lock_c ≠ tag_from_addr default_salt lock_a ∧
      tag_from_addr default_salt lock_c ≠ tag_from_addr default_salt lock_b) ∧
    (lock_table_get_owner_cpu
        (lock_table_insert (some two_locks) default_salt lock_c 102 3 0) default_salt lock_a = -1 ∧
      lock_table_get_owner_cpu
        (lock_table_insert (some two_locks) default_salt lock_c 102 3 0) default_salt lock_b
        = (two_locks (bucket_idx default_salt lock_c)).way1.owner_cpu ∧
      lock_table_get_owner_cpu
        (lock_table_insert (some two_locks) default_salt lock_c 102 3 0) default_salt lock_c
        = 3) :=
  ⟨by decide,
   eviction_rule two_locks default_salt lock_a lock_b lock_c 102 3 0
     (by decide) (by decide) (by decide) (by decide) (by decide) (by decide) (by decide)⟩

theorem waiter_lookup_own_slot (wt : WaiterTable) (tid : Nat) :
    bpf_map_lookup_elem wt (LH.LH_WAITER_SLOT_IDX tid) = some (wt (waiter_idx tid)) := by
  have h : LH.LH_WAITER_SLOT_IDX tid < LH_WAITER_TABLE_SLOTS := Nat.mod_lt _ (by decide)
  simp [bpf_map_lookup_elem, h, waiter_idx]

theorem cs_lookup_own_slot (ct : CsTable) (tid : Nat) :
    bpf_map_lookup_elem ct (LH.LH_CS_SLOT_IDX tid) = some (ct (cs_idx tid)) := by
  have h : LH.LH_CS_SLOT_IDX tid < LH_CS_TABLE_SLOTS := Nat.mod_lt _ (by decide)
  simp [bpf_map_lookup_elem, h, cs_idx]

theorem waiter_idx_congr (t1 t2 : Nat) (h : t1 % 4096 = t2 % 4096) :
    waiter_idx t1 = waiter_idx t2 := by
  simp [waiter_idx, LH.LH_WAITER_SLOT_IDX, h]

/-- C4. Waiter aliasing safety: for thread ids `t1 ≠ t2` that share a slot
(`t1 % 4096 = t2 % 4096`), on every mapped waiter table, for every lock address and target
CPU, after `waiter_slot_set(t1, lock, cpu)` the scheduler-side `get_waiter_target_cpu` of a
task whose pid is `t2` returns -1, whatever the ownership table, `nr_cpus` and salt are. -/
theorem aliased_waiter_not_found (wt : WaiterTable) (t1 t2 lock_addr : Nat) (cpu : Int)
    (nr_cpus hash_salt tgid : Nat) (lt : LockTable)
    (hne : t1 ≠ t2) (halias : t1 % 4096 = t2 % 4096) :
    (waiter_slot_set (some wt) t1 lock_addr cpu).map
      (fun wt1 => get_waiter_target_cpu nr_cpus hash_salt wt1 lt { pid := t2, tgid := tgid })
      = some (-1) := by
  simp only [waiter_slot_set, Option.map_some', get_waiter_target_cpu, waiter_lookup_own_slot]
  rw [← waiter_idx_congr t1 t2 halias, store_same]
  simp [hne, LH_WAITER_ACTIVE]

/-- Witness of `aliased_waiter_not_found`: thread ids 7 and 4103 share slot 7. -/
theorem aliased_waiter_not_found_witness :
    ((7 : Nat) ≠ 4103 ∧ 7 % 4096 = 4103 % 4096) ∧
    (waiter_slot_set (some zero_waiter_table) 7 lock_a 2).map
      (fun wt1 => get_waiter_target_cpu 4 default_salt wt1 two_locks { pid := 4103, tgid := 1 })
      = some (-1) :=
  ⟨by decide,
   aliased_waiter_not_found zero_waiter_table 7 4103 lock_a 2 4 default_salt 1 two_locks
     (by decide) (by decide)⟩

/-- C5. Waiter round trip: on every mapped waiter table, for every thread id, lock address and
target CPU `c` with `0 ≤ c < nr_cpus` (`nr_cpus` a CPU count that fits the `s32` the code
compares in, as the launcher's `get_nr_cpus` guarantees), after
`waiter_slot_set(tid, lock, c)` the scheduler-side `get_waiter_target_cpu` of the task with
that pid returns `c`. -/
theorem publish_then_resolve_returns_target (wt : WaiterTable) (tid lock_addr : Nat) (c : Int)
    (nr_cpus hash_salt tgid : Nat) (lt : LockTable)
    (hn : nr_cpus < 2 ^ 31) (h0 : 0 ≤ c) (hc : c < (nr_cpus : Int)) :
    (waiter_slot_set (some wt) tid lock_addr c).map
      (fun wt1 => get_waiter_target_cpu nr_cpus hash_salt wt1 lt { pid := tid, tgid := tgid })
      = some c := by
  have hs : s32_of_u32 nr_cpus = (nr_cpus : Int) := by
    have h1 : nr_cpus % 2 ^ 32 = nr_cpus := Nat.mod_eq_of_lt (by omega)
    simp only [s32_of_u32, h1]
    rw [if_pos hn]
  simp only [waiter_slot_set, Option.map_some', get_waiter_target_cpu, waiter_lookup_own_slot,
    store_same, hs]
  simp [h0, hc, LH_WAITER_ACTIVE]

/-- Witness of `publish_then_resolve_returns_target`: thread 7 asks for CPU 2 of 4. -/
theorem publish_then_resolve_returns_target_witness :
    ((4 : Nat) < 2 ^ 31 ∧ (0 : Int) ≤ 2 ∧ (2 : Int) < ((4 : Nat) : Int)) ∧
    (waiter_slot_set (some zero_waiter_table) 7 lock_a 2).map
      (fun wt1 => get_waiter_target_cpu 4 default_salt wt1 zero_lock_table
        { pid := 7, tgid := 1 })
      = some 2 :=
  ⟨by decide,
   publish_then_resolve_returns_target zero_waiter_table 7 lock_a 2 4 default_salt 1
     zero_lock_table (by decide) (by decide) (by decide)⟩

theorem cs_step_depth (tid : Nat) (tbl : CsTable) (op : CsOp)
    (hd : (tbl (cs_idx tid)).in_cs < 2 ^ 32)
    (hs : saturating_step (tbl (cs_idx tid)).in_cs op < 2 ^ 32) :
    ∃ tbl1, cs_step tid (some tbl) op = some tbl1 ∧
      (tbl1 (cs_idx tid)).in_cs = saturating_step (tbl (cs_idx tid)).in_cs op := by
  cases op with
  | enter =>
    refine ⟨_, rfl, ?_⟩
    simp only [store_same, saturating_step] at hs ⊢
    exact Nat.mod_eq_of_lt hs
  | leave =>
    by_cases h0 : (tbl (cs_idx tid)).in_cs = 0
    · refine ⟨_, by simp [cs_step, cs_slot_leave, h0]; rfl, ?_⟩
      simp [store_same, saturating_step, h0]
    · refine ⟨_, by simp [cs_step, cs_slot_leave, h0]; rfl, ?_⟩
      simp only [store_same, saturating_step, if_neg h0]
      omega

theorem cs_run_depth (tid : Nat) (ops : List CsOp) :
    ∀ tbl : CsTable, (∀ k, saturating_depth (tbl (cs_idx tid)).in_cs (ops.take k) < 2 ^ 32) →
      ∃ tbl1, cs_run tid (some tbl) ops = some tbl1 ∧
        (tbl1 (cs_idx tid)).in_cs = saturating_depth (tbl (cs_idx tid)).in_cs ops := by
  induction ops with
  | nil => intro tbl _; exact ⟨tbl, rfl, rfl⟩
  | cons op rest ih =>
    intro tbl hb
    have h0 := hb 0
    have h1 := hb 1
    simp only [List.take_zero, List.take_succ_cons, saturating_depth, List.foldl_nil,
      List.foldl_cons] at h0 h1
    obtain ⟨tbl1, hstep, hdepth⟩ := cs_step_depth tid tbl op h0 h1
    have hrest : ∀ k, saturating_depth (tbl1 (cs_idx tid)).in_cs (rest.take k) < 2 ^ 32 := by
      intro k
      have := hb (k + 1)
      simpa [saturating_depth, hdepth] using this
    obtain ⟨tbl2, hrun, hd2⟩ := ih tbl1 hrest
    refine ⟨tbl2, ?_, ?_⟩
    · simpa [cs_run, hstep] using hrun
    · simpa [saturating_depth, hdepth] using hd2

/-- C6. Non-negative critical-section depth: take a mapped critical-section table in which
the slot of `tid` holds depth 0, and any finite sequence `ops` of `cs_slot_enter` /
`cs_slot_leave` calls of `tid` whose saturating counter stays below 2^32 at every point.
Then after each completed call (after the first `k` calls, for every `k`) the stored depth
equals the saturating counter (enter: +1, leave: -1 but never below 0) and the scheduler's
`is_task_in_cs` is true exactly when that counter is not 0.  In particular one `leave` at
depth 0 leaves the stored depth at 0 and `is_task_in_cs` false. -/
theorem cs_depth_follows_saturating_counter (tbl : CsTable) (tid tgid : Nat) (ops : List CsOp)
    (hzero : (tbl (cs_idx tid)).in_cs = 0)
    (hbound : ∀ k, saturating_depth 0 (ops.take k) < 2 ^ 32) :
    (∀ k, ∃ tbl1, cs_run tid (some tbl) (ops.take k) = some tbl1 ∧
        (tbl1 (cs_idx tid)).in_cs = saturating_depth 0 (ops.take k) ∧
        is_task_in_cs tbl1 { pid := tid, tgid := tgid }
          = decide (saturating_depth 0 (ops.take k) ≠ 0)) ∧
    (∃ tbl1, cs_slot_leave (some tbl) tid = some tbl1 ∧ (tbl1 (cs_idx tid)).in_cs = 0 ∧
        is_task_in_cs tbl1 { pid := tid, tgid := tgid } = false) := by
  constructor
  · intro k
    have hb : ∀ j, saturating_depth (tbl (cs_idx tid)).in_cs ((ops.take k).take j) < 2 ^ 32 := by
      intro j
      rw [hzero, List.take_take]
      exact hbound _
    obtain ⟨tbl1, hrun, hd⟩ := cs_run_depth tid (ops.take k) tbl hb
    rw [hzero] at hd
    exact ⟨tbl1, hrun, hd, by simp [is_task_in_cs, cs_lookup_own_slot, hd]⟩
  · refine ⟨_, by simp [cs_slot_leave, hzero]; rfl, ?_, ?_⟩
    · simp [store_same]
    · simp [is_task_in_cs, cs_lookup_own_slot, store_same]

/-- Witness of `cs_depth_follows_saturating_counter`: thread 7 on an all-zero table does
leave, enter, enter, leave, leave, leave. -/
theorem cs_depth_follows_saturating_counter_witness :
    ((zero_cs_table (cs_idx 7)).in_cs = 0 ∧
      ∀ k, saturating_depth 0
        ([CsOp.leave, CsOp.enter, CsOp.enter, CsOp.leave, CsOp.leave, CsOp.leave].take k)
        < 2 ^ 32) ∧
    ((∀ k, ∃ tbl1,
        cs_run 7 (some zero_cs_table)
          ([CsOp.leave, CsOp.enter, CsOp.enter, CsOp.leave, CsOp.leave, CsOp.leave].take k)
          = some tbl1 ∧
        (tbl1 (cs_idx 7)).in_cs = saturating_depth 0
          ([CsOp.leave, CsOp.enter, CsOp.enter, CsOp.leave, CsOp.leave, CsOp.leave].take k) ∧
        is_task_in_cs tbl1 { pid := 7, tgid := 1 }
          = decide (saturating_depth 0
              ([CsOp.leave, CsOp.enter, CsOp.enter, CsOp.leave, CsOp.leave, CsOp.leave].take k)
              ≠ 0)) ∧
      (∃ tbl1, cs_slot_leave (some zero_cs_table) 7 = some tbl1 ∧ (tbl1 (cs_idx 7)).in_cs = 0 ∧
        is_task_in_cs tbl1 { pid := 7, tgid := 1 } = false)) := by
  have hb : ∀ k, saturating_depth 0
      ([CsOp.leave, CsOp.enter, CsOp.enter, CsOp.leave, CsOp.leave, CsOp.leave].take k)
      < 2 ^ 32 := by
    intro k
    rcases k with _ | _ | _ | _ | _ | _ | _ | k <;>
      simp [saturating_depth, saturating_step]
  exact ⟨⟨rfl, hb⟩, cs_depth_follows_saturating_counter zero_cs_table 7 1 _ rfl hb⟩

theorem on_lock_acquired_trace (env : Env) (st : Shim) (mutex : Nat) :
    (on_lock_acquired env st mutex).trace = st.trace := by
  unfold on_lock_acquired
  cases h : st.g_lock_table <;> simp [h, get_time_ns]

theorem on_lock_acquired_cs (env : Env) (st : Shim) (mutex : Nat) :
    (on_lock_acquired env st mutex).g_cs_table = cs_slot_enter st.g_cs_table env.tid := by
  unfold on_lock_acquired
  cases h : st.g_lock_table <;> simp [h, get_time_ns]

theorem on_lock_acquired_waiter (env : Env) (st : Shim) (mutex : Nat) :
    (on_lock_acquired env st mutex).g_waiter_table = st.g_waiter_table := by
  unfold on_lock_acquired
  cases h : st.g_lock_table <;> simp [h, get_time_ns]

theorem on_lock_acquired_lock (env : Env) (st : Shim) (mutex : Nat) :
    (on_lock_acquired env st mutex).g_lock_table =
      lock_table_insert st.g_lock_table st.g_hash_salt mutex env.tid (get_cpu env)
        (env.time_ns st.clock_reads % 2 ^ 64) := by
  unfold on_lock_acquired
  cases h : st.g_lock_table <;> simp [h, get_time_ns, lock_table_insert]

theorem on_lock_acquired_flags (env : Env) (st : Shim) (mutex : Nat) :
    (on_lock_acquired env st mutex).g_initialized = st.g_initialized ∧
    (on_lock_acquired env st mutex).g_enabled = st.g_enabled ∧
    (on_lock_acquired env st mutex).real_pthread_mutex_unlock = st.real_pthread_mutex_unlock ∧
    (on_lock_acquired env st mutex).g_hash_salt = st.g_hash_salt := by
  unfold on_lock_acquired
  cases h : st.g_lock_table <;> simp [h, get_time_ns]

theorem unlock_lock_table (env : Env) (st : Shim) (mutex : Nat)
    (hinit : st.g_initialized = true) (hen : st.g_enabled = true)
    (hu : st.real_pthread_mutex_unlock = true) :
    (pthread_mutex_unlock env st mutex).2.g_lock_table
      = lock_table_remove st.g_lock_table st.g_hash_salt mutex := by
  simp only [pthread_mutex_unlock, hinit, hen, hu]
  cases has_waiters_for_lock st.g_waiter_table mutex <;>
    simp [call_real_unlock, on_lock_release, call_sched_yield]

theorem unlock_cs_table (env : Env) (st : Shim) (mutex : Nat)
    (hinit : st.g_initialized = true) (hen : st.g_enabled = true)
    (hu : st.real_pthread_mutex_unlock = true) :
    (pthread_mutex_unlock env st mutex).2.g_cs_table = cs_slot_leave st.g_cs_table env.tid := by
  simp only [pthread_mutex_unlock, hinit, hen, hu]
  cases has_waiters_for_lock st.g_waiter_table mutex <;>
    simp [call_real_unlock, on_lock_release, call_sched_yield]

theorem unlock_trace (env : Env) (st : Shim) (mutex : Nat)
    (hinit : st.g_initialized = true) (hen : st.g_enabled = true)
    (hu : st.real_pthread_mutex_unlock = true) :
    (pthread_mutex_unlock env st mutex).2.trace
      = st.trace ++ Event.real_unlock env.unlock_ret ::
          (if has_waiters_for_lock st.g_waiter_table mutex then [Event.sched_yield] else []) := by
  simp only [pthread_mutex_unlock, hinit, hen, hu]
  cases has_waiters_for_lock st.g_waiter_table mutex <;>
    simp [call_real_unlock, on_lock_release, call_sched_yield]

theorem unlock_ret (env : Env) (st : Shim) (mutex : Nat)
    (hinit : st.g_initialized = true) (hen : st.g_enabled = true)
    (hu : st.real_pthread_mutex_unlock = true) :
    (pthread_mutex_unlock env st mutex).1 = env.unlock_ret := by
  simp only [pthread_mutex_unlock, hinit, hen, hu]
  cases has_waiters_for_lock st.g_waiter_table mutex <;>
    simp [call_real_unlock, on_lock_release, call_sched_yield]

theorem lookup_after_remove (tbl : LockTable) (salt lock_addr : Nat)
    (h : ¬ ((tbl (bucket_idx salt lock_addr)).way0.tag = tag_from_addr salt lock_addr ∧
            (tbl (bucket_idx salt lock_addr)).way1.tag = tag_from_addr salt lock_addr)) :
    lock_table_get_owner_cpu (lock_table_remove (some tbl) salt lock_addr) salt lock_addr
      = -1 := by
  have hz := tag_from_addr_ne_zero salt lock_addr
  simp only [lock_table_remove, lock_table_get_owner_cpu]
  split_ifs <;> simp_all [store, Ne.symm hz]

theorem get_cpu_registered (env : Env)
    (h : env.rseq_registered = true ∨ env.rseq_ret = 0) : get_cpu env = env.cpu := by
  have hr : rseq_cpu_id env = env.cpu := by
    rcases h with h | h
    · simp [rseq_cpu_id, h]
    · cases hb : env.rseq_registered <;> simp [rseq_cpu_id, rseq_register, h, hb]
  simp only [get_cpu, hr]
  split_ifs <;> rfl

/-- End-to-end fast path for a thread whose `rseq` area is registered (the flag is set on
entry, or the registration attempt returns 0): with the shim initialised and enabled and the
three tables mapped and all-zero, when thread `env.tid` on CPU `env.cpu` calls
`pthread_mutex_lock(mutex)` and the first wrapped `trylock` returns 0, the call returns 0 and
afterwards way 0 of the lock's bucket holds the lock's tag with `owner_tid = env.tid` and
`owner_cpu = env.cpu`, the lookup of the lock returns `env.cpu`, the thread's CS depth is 1,
the waiter table is untouched and the only outside call was that one `trylock` (no yield).
After the same thread's subsequent `pthread_mutex_unlock(mutex)` the lookup of the lock
returns -1 and the thread's CS depth is 0. -/
theorem fast_path_with_rseq_registered (fuel : Nat) (env env2 : Env) (st : Shim) (mutex : Nat)
    (hinit : st.g_initialized = true) (hen : st.g_enabled = true)
    (hl : st.real_pthread_mutex_lock = true) (hu : st.real_pthread_mutex_unlock = true)
    (hlt : st.g_lock_table = some zero_lock_table)
    (hwt : st.g_waiter_table = some zero_waiter_table)
    (hct : st.g_cs_table = some zero_cs_table)
    (htry : env.trylock_ret st.trylock_calls = 0)
    (hreg : env.rseq_registered = true ∨ env.rseq_ret = 0)
    (htid : env2.tid = env.tid) :
    ∃ st1, pthread_mutex_lock fuel env st mutex = some (0, st1) ∧
      st1.g_lock_table.map (fun t =>
          ((t (bucket_idx st.g_hash_salt mutex)).way0.tag,
           (t (bucket_idx st.g_hash_salt mutex)).way0.owner_tid,
           (t (bucket_idx st.g_hash_salt mutex)).way0.owner_cpu))
        = some (tag_from_addr st.g_hash_salt mutex, env.tid, env.cpu) ∧
      lock_table_get_owner_cpu st1.g_lock_table st.g_hash_salt mutex = env.cpu ∧
      st1.g_cs_table.map (fun t => (t (cs_idx env.tid)).in_cs) = some 1 ∧
      st1.g_waiter_table = st.g_waiter_table ∧
      st1.trace = st.trace ++ [Event.real_trylock 0] ∧
      lock_table_get_owner_cpu (pthread_mutex_unlock env2 st1 mutex).2.g_lock_table
        st.g_hash_salt mutex = -1 ∧
      (pthread_mutex_unlock env2 st1 mutex).2.g_cs_table.map
        (fun t => (t (cs_idx env.tid)).in_cs) = some 0 := by
  have hz := tag_from_addr_ne_zero st.g_hash_salt mutex
  have hcpu := get_cpu_registered env hreg
  have hlock : pthread_mutex_lock fuel env st mutex
      = some (0, on_lock_acquired env (call_real_trylock env st).2 mutex) := by
    simp [pthread_mutex_lock, hinit, hen, hl, call_real_trylock, htry]
  have hlt1 : (on_lock_acquired env (call_real_trylock env st).2 mutex).g_lock_table
      = some (store zero_lock_table (bucket_idx st.g_hash_salt mutex)
          { way0 := publish_entry zero_entry (tag_from_addr st.g_hash_salt mutex) env.tid env.cpu
                      (env.time_ns st.clock_reads % 2 ^ 64),
            way1 := zero_entry }) := by
    rw [on_lock_acquired_lock, hcpu]
    simp [call_real_trylock, hlt, lock_table_insert, zero_lock_table, zero_entry]
  have hct1 : (on_lock_acquired env (call_real_trylock env st).2 mutex).g_cs_table
      = some (store zero_cs_table (cs_idx env.tid) { in_cs := 1 }) := by
    rw [on_lock_acquired_cs]
    simp [call_real_trylock, hct, cs_slot_enter, zero_cs_table]
  have hwt1 : (on_lock_acquired env (call_real_trylock env st).2 mutex).g_waiter_table
      = some zero_waiter_table := by
    rw [on_lock_acquired_waiter]
    simp [call_real_trylock, hwt]
  have hfl := on_lock_acquired_flags env (call_real_trylock env st).2 mutex
  have htr := on_lock_acquired_trace env (call_real_trylock env st).2 mutex
  generalize on_lock_acquired env (call_real_trylock env st).2 mutex = s1 at *
  have hinit1 : s1.g_initialized = true := by rw [hfl.1]; exact hinit
  have hen1 : s1.g_enabled = true := by rw [hfl.2.1]; exact hen
  have hu1 : s1.real_pthread_mutex_unlock = true := by rw [hfl.2.2.1]; exact hu
  have hsalt1 : s1.g_hash_salt = st.g_hash_salt := hfl.2.2.2
  refine ⟨s1, hlock, ?_, ?_, ?_, ?_, ?_, ?_, ?_⟩
  · rw [hlt1]
    simp [store_same, publish_entry]
  · rw [hlt1]
    simp [lock_table_get_owner_cpu, store_same, publish_entry]
  · rw [hct1]
    simp [store_same]
  · rw [hwt1, hwt]
  · rw [htr]
    simp [call_real_trylock, htry]
  · rw [unlock_lock_table env2 s1 mutex hinit1 hen1 hu1, hlt1, hsalt1]
    apply lookup_after_remove
    simp [store_same, zero_entry, Ne.symm hz]
  · rw [unlock_cs_table env2 s1 mutex hinit1 hen1 hu1, hct1, htid]
    simp [cs_slot_leave, store_same]

/-- C7 fails on the code for a thread whose `rseq` registration is refused: thread 7 runs on
CPU 2, its registration attempt returns -1 and leaves the flag unset, `rseq_cpu_id` then
returns the 0 of the never-registered area, `get_cpu` accepts it (0 is not negative, so
`sched_getcpu` is not asked) and the fast path of `pthread_mutex_lock(lock_a)` on all-zero
tables publishes `owner_tid = 7` with `owner_cpu = 0`, not 2; the lookup returns 0.  The rest
is as the claim says: depth 1, waiter table untouched, one `trylock` and no yield, and after
the unlock the lookup returns -1 and the depth is 0. -/
theorem fast_path_publishes_cpu_zero_when_rseq_refused :
    env_rseq_refused.cpu = 2 ∧ rseq_register env_rseq_refused = (-1, false) ∧
    rseq_cpu_id env_rseq_refused = 0 ∧ get_cpu env_rseq_refused = 0 ∧
    ∃ st1, pthread_mutex_lock 64 env_rseq_refused ready_shim lock_a = some (0, st1) ∧
      st1.g_lock_table.map (fun t =>
          ((t (bucket_idx ready_shim.g_hash_salt lock_a)).way0.tag,
           (t (bucket_idx ready_shim.g_hash_salt lock_a)).way0.owner_tid,
           (t (bucket_idx ready_shim.g_hash_salt lock_a)).way0.owner_cpu))
        = some (tag_from_addr ready_shim.g_hash_salt lock_a, 7, 0) ∧
      lock_table_get_owner_cpu st1.g_lock_table ready_shim.g_hash_salt lock_a = 0 ∧
      st1.g_cs_table.map (fun t => (t (cs_idx 7)).in_cs) = some 1 ∧
      st1.g_waiter_table = ready_shim.g_waiter_table ∧
      st1.trace = [Event.real_trylock 0] ∧
      lock_table_get_owner_cpu (pthread_mutex_unlock env_rseq_refused st1 lock_a).2.g_lock_table
        ready_shim.g_hash_salt lock_a = -1 ∧
      (pthread_mutex_unlock env_rseq_refused st1 lock_a).2.g_cs_table.map
        (fun t => (t (cs_idx 7)).in_cs) = some 0 := by
  refine ⟨rfl, by decide, by decide, by decide,
    on_lock_acquired env_rseq_refused (call_real_trylock env_rseq_refused ready_shim).2 lock_a,
    rfl, by decide, by decide, by decide, ?_, by decide, by decide, by decide⟩
  rw [on_lock_acquired_waiter]
  rfl

/-- C8 as stated fails for a waiter outside the scanned window: thread 1000 has published an
active hint for `lock_a` in its slot 1000, the scan for `lock_a` covers slots 64 .. 79 only,
and `pthread_mutex_unlock(lock_a)` returns after the wrapped unlock without any yield. -/
theorem unlock_misses_waiter_outside_window :
    (waiter_slot_set (some zero_waiter_table) 1000 lock_a (-1)).map
        (fun t => ((t (waiter_idx 1000)).flags, (t (waiter_idx 1000)).lock_addr))
      = some (LH_WAITER_ACTIVE, lock_a) ∧
    (pthread_mutex_unlock env_free
        far_waiter_shim
        lock_a).2.trace = [Event.real_unlock 0] ∧
    count_yields (pthread_mutex_unlock env_free
        far_waiter_shim
        lock_a).2.trace = 0 := by
  decide

theorem has_waiters_of_scanned (wt : WaiterTable) (lock_addr i : Nat) (hi : i < 16)
    (hflags : (wt (scan_idx lock_addr i)).flags = LH_WAITER_ACTIVE)
    (haddr : (wt (scan_idx lock_addr i)).lock_addr = lock_addr) :
    has_waiters_for_lock (some wt) lock_addr = true := by
  simp only [has_waiters_for_lock, List.any_eq_true]
  exact ⟨i, List.mem_range.mpr hi, by simp [hflags, haddr]⟩

/-- C8 (amended). Handoff yield on release: with the shim initialised and enabled, for every
mapped waiter table in which one of the 16 scanned slots (index
`((lock >> 6) + i) mod 4096` for some `i < 16`) holds an active hint whose lock address is the
lock being released, `pthread_mutex_unlock` makes exactly two outside calls, in this order:
the wrapped unlock and one `sched_yield()`; it returns the wrapped unlock's code. -/
theorem unlock_yields_once_for_scanned_waiter (env : Env) (st : Shim) (wt : WaiterTable)
    (mutex i : Nat)
    (hinit : st.g_initialized = true) (hen : st.g_enabled = true)
    (hu : st.real_pthread_mutex_unlock = true)
    (hwt : st.g_waiter_table = some wt) (hi : i < 16)
    (hflags : (wt (scan_idx mutex i)).flags = LH_WAITER_ACTIVE)
    (haddr : (wt (scan_idx mutex i)).lock_addr = mutex) :
    (pthread_mutex_unlock env st mutex).2.trace
      = st.trace ++ [Event.real_unlock env.unlock_ret, Event.sched_yield] ∧
    (pthread_mutex_unlock env st mutex).1 = env.unlock_ret := by
  refine ⟨?_, unlock_ret env st mutex hinit hen hu⟩
  rw [unlock_trace env st mutex hinit hen hu, hwt,
    has_waiters_of_scanned wt mutex i hi hflags haddr]
  rfl

/-- Witness of `unlock_yields_once_for_scanned_waiter`: thread 4163 (slot 67, inside the
window 64 .. 79 of `lock_a`) waits for `lock_a` when thread 7 releases it. -/
theorem unlock_yields_once_for_scanned_waiter_witness :
    (ready_shim.g_initialized = true ∧ ready_shim.g_enabled = true ∧
      ready_shim.real_pthread_mutex_unlock = true ∧
      (3 : Nat) < 16 ∧
      (window_waiter_table (scan_idx lock_a 3)).flags = LH_WAITER_ACTIVE ∧
      (window_waiter_table (scan_idx lock_a 3)).lock_addr = lock_a) ∧
    ((pthread_mutex_unlock env_free
        { ready_shim with g_waiter_table := some window_waiter_table }
        lock_a).2.trace
      = [] ++ [Event.real_unlock env_free.unlock_ret, Event.sched_yield] ∧
    (pthread_mutex_unlock env_free
        { ready_shim with g_waiter_table := some window_waiter_table }
        lock_a).1 = env_free.unlock_ret) :=
  ⟨by decide,
   unlock_yields_once_for_scanned_waiter env_free
     { ready_shim with g_waiter_table := some window_waiter_table }
     window_waiter_table
     lock_a 3 rfl rfl rfl rfl (by decide) (by decide) (by decide)⟩

theorem quiet_refl (s : Shim) : Quiet s s :=
  ⟨rfl, rfl, rfl, rfl, rfl, [], by simp, by simp⟩

theorem quiet_trans {s s1 s2 : Shim} (h1 : Quiet s s1) (h2 : Quiet s1 s2) : Quiet s s2 := by
  obtain ⟨a1, b1, c1, d1, e1, p1, t1, f1⟩ := h1
  obtain ⟨a2, b2, c2, d2, e2, p2, t2, f2⟩ := h2
  refine ⟨a2.trans a1, b2.trans b1, c2.trans c1, d2.trans d1, e2.trans e1, p1 ++ p2, ?_, ?_⟩
  · rw [t2, t1, List.append_assoc]
  · intro e he
    rcases List.mem_append.mp he with h | h
    · exact f1 e h
    · exact f2 e h

theorem quiet_outcome {env : Env} {mutex : Nat} {s s1 s2 : Shim} {ret : Int}
    (h1 : Quiet s s1) (h2 : AcquireOutcome env mutex s1 ret s2) :
    AcquireOutcome env mutex s ret s2 := by
  obtain ⟨a1, b1, c1, _, _, p1, t1, f1⟩ := h1
  obtain ⟨p2, last, t2, f2, hl, htab⟩ := h2
  refine ⟨p1 ++ p2, last, ?_, ?_, hl, ?_⟩
  · rw [t2, t1]; simp [List.append_assoc]
  · intro e he
    rcases List.mem_append.mp he with h | h
    · exact f1 e h
    · exact f2 e h
  · rw [a1, b1, c1] at htab
    exact htab

theorem quiet_trylock_fail (env : Env) (s : Shim) (h : env.trylock_ret s.trylock_calls ≠ 0) :
    Quiet s (call_real_trylock env s).2 :=
  ⟨rfl, rfl, rfl, rfl, rfl, [Event.real_trylock (env.trylock_ret s.trylock_calls)], rfl,
    by simp [failed_attempt, h]⟩

theorem quiet_yield (s : Shim) : Quiet s (call_sched_yield s) :=
  ⟨rfl, rfl, rfl, rfl, rfl, [Event.sched_yield], rfl, by simp [failed_attempt]⟩

theorem quiet_clock (env : Env) (s : Shim) : Quiet s (get_time_ns env s).2 :=
  ⟨rfl, rfl, rfl, rfl, rfl, [], by simp [get_time_ns], by simp⟩

theorem quiet_waiter (s : Shim) (wt : Option WaiterTable) :
    Quiet s { s with g_waiter_table := wt } :=
  ⟨rfl, rfl, rfl, rfl, rfl, [], by simp, by simp⟩

theorem outcome_trylock_success (env : Env) (mutex : Nat) (s : Shim) (wt : Option WaiterTable)
    (h : env.trylock_ret s.trylock_calls = 0) :
    AcquireOutcome env mutex s 0
      (on_lock_acquired env { (call_real_trylock env s).2 with g_waiter_table := wt } mutex) := by
  refine ⟨[], Event.real_trylock 0, ?_, by simp, Or.inl ⟨rfl, rfl⟩, ?_⟩
  · rw [on_lock_acquired_trace]
    simp [call_real_trylock, h]
  · rw [if_pos rfl, on_lock_acquired_cs, on_lock_acquired_lock]
    exact ⟨rfl, _, rfl⟩

theorem outcome_blocking_lock (env : Env) (mutex : Nat) (s : Shim) :
    AcquireOutcome env mutex s env.lock_ret
      (if env.lock_ret = 0 then on_lock_acquired env (call_real_lock env s).2 mutex
       else (call_real_lock env s).2) := by
  by_cases h : env.lock_ret = 0
  · rw [if_pos h]
    refine ⟨[], Event.real_lock env.lock_ret, ?_, by simp, Or.inr rfl, ?_⟩
    · rw [on_lock_acquired_trace]
      simp [call_real_lock]
    · rw [if_pos h, on_lock_acquired_cs, on_lock_acquired_lock]
      exact ⟨rfl, _, rfl⟩
  · rw [if_neg h]
    refine ⟨[], Event.real_lock env.lock_ret, by simp [call_real_lock], by simp, Or.inr rfl, ?_⟩
    rw [if_neg h]
    exact ⟨rfl, rfl⟩

theorem spin_phase_outcome (env : Env) (mutex : Nat) :
    ∀ (n : Nat) (s : Shim),
      ((spin_phase env mutex n s).1 = true ∧
        AcquireOutcome env mutex s 0 (spin_phase env mutex n s).2) ∨
      ((spin_phase env mutex n s).1 = false ∧ Quiet s (spin_phase env mutex n s).2) := by
  intro n
  induction n with
  | zero => intro s; exact Or.inr ⟨rfl, quiet_refl s⟩
  | succ n ih =>
    intro s
    by_cases h : env.trylock_ret s.trylock_calls = 0
    · left
      have hs : spin_phase env mutex (n + 1) s
          = (true, on_lock_acquired env (call_real_trylock env s).2 mutex) := by
        simp [spin_phase, call_real_trylock, h]
      rw [hs]
      exact ⟨rfl, outcome_trylock_success env mutex s _ h⟩
    · have hs : spin_phase env mutex (n + 1) s
          = spin_phase env mutex n (call_real_trylock env s).2 := by
        simp [spin_phase, call_real_trylock, h]
      rw [hs]
      rcases ih (call_real_trylock env s).2 with ⟨hb, ho⟩ | ⟨hb, hq⟩
      · exact Or.inl ⟨hb, quiet_outcome (quiet_trylock_fail env s h) ho⟩
      · exact Or.inr ⟨hb, quiet_trans (quiet_trylock_fail env s h) hq⟩

theorem yield_phase_fail (env : Env) (mutex start_ns fuel : Nat) (y : Int) (s : Shim)
    (h : env.trylock_ret s.trylock_calls ≠ 0) :
    yield_phase env mutex start_ns (fuel + 1) y s =
      if y + 1 ≥ s.g_yield_budget ∨
          elapsed_us env start_ns s.clock_reads ≥ u64_of_int s.g_fallback_us then
        some (blocking_fallback env mutex (failed_round env mutex s))
      else yield_phase env mutex start_ns fuel (y + 1) (failed_round env mutex s) := by
  rw [yield_phase]
  simp only [call_real_trylock, call_sched_yield, get_time_ns, call_real_lock, failed_round,
    elapsed_us, blocking_fallback, if_neg h]
  by_cases hc : y + 1 ≥ s.g_yield_budget ∨
      ((env.time_ns s.clock_reads % 2 ^ 64 + 2 ^ 64 - start_ns) % 2 ^ 64) / 1000
        ≥ u64_of_int s.g_fallback_us
  · rw [if_pos hc, if_pos hc]
    by_cases hl : env.lock_ret = 0
    · rw [if_pos hl, if_pos hl]
    · rw [if_neg hl, if_neg hl]
  · rw [if_neg hc, if_neg hc]

theorem quiet_failed_round (env : Env) (mutex : Nat) (s : Shim)
    (h : env.trylock_ret s.trylock_calls ≠ 0) : Quiet s (failed_round env mutex s) :=
  quiet_trans (quiet_yield s)
    (quiet_trans (quiet_trylock_fail env (call_sched_yield s) h)
      (quiet_trans (quiet_waiter _ _) (quiet_clock env _)))

theorem outcome_blocking_fallback (env : Env) (mutex : Nat) (s : Shim) :
    AcquireOutcome env mutex s (blocking_fallback env mutex s).1
      (blocking_fallback env mutex s).2 := by
  have h := outcome_blocking_lock env mutex
    { s with g_waiter_table := waiter_slot_clear s.g_waiter_table env.tid }
  have hq : Quiet s { s with g_waiter_table := waiter_slot_clear s.g_waiter_table env.tid } :=
    quiet_waiter _ _
  unfold blocking_fallback
  by_cases hl : env.lock_ret = 0
  · simp only [if_pos hl] at h ⊢
    exact quiet_outcome hq h
  · simp only [if_neg hl] at h ⊢
    exact quiet_outcome hq h

theorem yield_phase_outcome (env : Env) (mutex start_ns : Nat) :
    ∀ (fuel : Nat) (y : Int) (s : Shim), 1 ≤ fuel → s.g_yield_budget ≤ y + fuel →
      ∃ ret s1, yield_phase env mutex start_ns fuel y s = some (ret, s1) ∧
        AcquireOutcome env mutex s ret s1 := by
  intro fuel
  induction fuel with
  | zero => intro y s h; omega
  | succ fuel ih =>
    intro y s _ hbud
    have hq1 : Quiet s (call_sched_yield s) := quiet_yield s
    by_cases h : env.trylock_ret s.trylock_calls = 0
    · refine ⟨0, _, ?_, quiet_outcome hq1
        (outcome_trylock_success env mutex (call_sched_yield s)
          (waiter_slot_clear (call_real_trylock env (call_sched_yield s)).2.g_waiter_table env.tid)
          h)⟩
      rw [yield_phase]
      simp only [call_real_trylock] at h ⊢
      simp [h, call_sched_yield]
    · have hq := quiet_failed_round env mutex s h
      rw [yield_phase_fail env mutex start_ns fuel y s h]
      by_cases hc : y + 1 ≥ s.g_yield_budget ∨
          elapsed_us env start_ns s.clock_reads ≥ u64_of_int s.g_fallback_us
      · rw [if_pos hc]
        exact ⟨_, _, rfl, quiet_outcome hq (outcome_blocking_fallback env mutex _)⟩
      · rw [if_neg hc]
        have hb : ¬ (y + 1 ≥ s.g_yield_budget) := fun hh => hc (Or.inl hh)
        have hfuel : 1 ≤ fuel := by
          push_cast at hbud
          omega
        have hbud2 : (failed_round env mutex s).g_yield_budget ≤ y + 1 + fuel := by
          rw [hq.2.2.2.1]
          push_cast at hbud
          omega
        obtain ⟨ret, s1, he, ho⟩ := ih (y + 1) (failed_round env mutex s) hfuel hbud2
        exact ⟨ret, s1, he, quiet_outcome hq ho⟩

theorem lock_contended (fuel : Nat) (env : Env) (st : Shim) (mutex : Nat)
    (hinit : st.g_initialized = true) (hen : st.g_enabled = true)
    (hl : st.real_pthread_mutex_lock = true)
    (h : env.trylock_ret st.trylock_calls ≠ 0) :
    pthread_mutex_lock fuel env st mutex =
      if (spin_phase env mutex SPIN_TRIES (spin_entry env st)).1 = true then
        some (0, (spin_phase env mutex SPIN_TRIES (spin_entry env st)).2)
      else
        yield_phase env mutex (env.time_ns st.clock_reads % 2 ^ 64) fuel 0
          (publish_waiter env mutex (spin_phase env mutex SPIN_TRIES (spin_entry env st)).2) := by
  simp only [pthread_mutex_lock, hinit, hen, hl, spin_entry, publish_waiter]
  simp only [call_real_trylock, get_time_ns] at h ⊢
  simp only [Bool.not_true, Bool.or_self, Bool.false_eq_true, if_false, if_neg h]
  split <;> rename_i heq <;> rw [heq] <;> simp

theorem lock_outcome (fuel : Nat) (env : Env) (st : Shim) (mutex : Nat)
    (hinit : st.g_initialized = true) (hen : st.g_enabled = true)
    (hl : st.real_pthread_mutex_lock = true)
    (hf1 : 1 ≤ fuel) (hf : st.g_yield_budget ≤ (fuel : Int)) :
    ∃ ret st1, pthread_mutex_lock fuel env st mutex = some (ret, st1) ∧
      AcquireOutcome env mutex st ret st1 := by
  by_cases h : env.trylock_ret st.trylock_calls = 0
  · refine ⟨0, _, ?_, outcome_trylock_success env mutex st st.g_waiter_table h⟩
    simp [pthread_mutex_lock, hinit, hen, hl, call_real_trylock, h]
  · have hq1 : Quiet st (spin_entry env st) := quiet_trans (quiet_trylock_fail env st h)
      (quiet_clock env (call_real_trylock env st).2)
    rw [lock_contended fuel env st mutex hinit hen hl h]
    rcases spin_phase_outcome env mutex SPIN_TRIES (spin_entry env st) with ⟨hb, ho⟩ | ⟨hb, hq⟩
    · rw [if_pos hb]
      exact ⟨0, _, rfl, quiet_outcome hq1 ho⟩
    · rw [if_neg (by simp [hb])]
      have hq4 : Quiet st
          (publish_waiter env mutex (spin_phase env mutex SPIN_TRIES (spin_entry env st)).2) :=
        quiet_trans (quiet_trans hq1 hq) (quiet_waiter _ _)
      obtain ⟨ret, s5, he, ho⟩ := yield_phase_outcome env mutex
        (env.time_ns st.clock_reads % 2 ^ 64) fuel 0 _ hf1
        (by rw [hq4.2.2.2.1]; simpa using hf)
      exact ⟨ret, s5, he, quiet_outcome hq4 ho⟩

theorem trylock_outcome (env : Env) (st : Shim) (mutex : Nat)
    (hinit : st.g_initialized = true) (hen : st.g_enabled = true)
    (ht : st.real_pthread_mutex_trylock = true) :
    (pthread_mutex_trylock env st mutex).1 = env.trylock_ret st.trylock_calls ∧
    (pthread_mutex_trylock env st mutex).2.trace
      = st.trace ++ [Event.real_trylock (env.trylock_ret st.trylock_calls)] ∧
    (if env.trylock_ret st.trylock_calls = 0 then
      (pthread_mutex_trylock env st mutex).2.g_cs_table = cs_slot_enter st.g_cs_table env.tid ∧
      ∃ now, (pthread_mutex_trylock env st mutex).2.g_lock_table
        = lock_table_insert st.g_lock_table st.g_hash_salt mutex env.tid (get_cpu env) now
     else (pthread_mutex_trylock env st mutex).2.g_cs_table = st.g_cs_table ∧
      (pthread_mutex_trylock env st mutex).2.g_lock_table = st.g_lock_table) := by
  by_cases h : env.trylock_ret st.trylock_calls = 0
  · have he : pthread_mutex_trylock env st mutex
        = (env.trylock_ret st.trylock_calls,
            on_lock_acquired env (call_real_trylock env st).2 mutex) := by
      simp [pthread_mutex_trylock, hinit, hen, ht, call_real_trylock, h]
    rw [he, if_pos h]
    refine ⟨rfl, ?_, ?_, ?_⟩
    · simp only [on_lock_acquired_trace]; rfl
    · simp only [on_lock_acquired_cs]; rfl
    · simp only [on_lock_acquired_lock]; exact ⟨_, rfl⟩
  · have he : pthread_mutex_trylock env st mutex = call_real_trylock env st := by
      simp only [pthread_mutex_trylock, hinit, hen, ht]
      simp only [call_real_trylock] at h ⊢
      simp [h]
    rw [he, if_neg h]
    exact ⟨rfl, rfl, rfl, rfl⟩

theorem published_of_tables (env : Env) (mutex : Nat) (s s1 : Shim) (lt : LockTable)
    (ct : CsTable) (now : Nat)
    (hlt : s.g_lock_table = some lt) (hct : s.g_cs_table = some ct)
    (h1 : s1.g_cs_table = cs_slot_enter s.g_cs_table env.tid)
    (h2 : s1.g_lock_table
      = lock_table_insert s.g_lock_table s.g_hash_salt mutex env.tid (get_cpu env) now) :
    Published env mutex s s1 := by
  refine ⟨?_, ?_, ct, _, hct, by rw [h1, hct]; rfl, by simp [store_same]⟩
  · rw [h2, hlt]
    exact lookup_after_insert lt s.g_hash_salt mutex env.tid (get_cpu env) now
  · rw [h2, hlt]
    simp only [lock_table_insert]
    split_ifs
    · exact ⟨_, rfl, Or.inl (by simp [store_same, publish_entry])⟩
    · exact ⟨_, rfl, Or.inr (by simp [store_same, publish_entry])⟩
    · exact ⟨_, rfl, Or.inl (by simp [store_same, publish_entry])⟩

/-- C10. Transparency of the interception (shim initialised and enabled, wrapped functions
resolved, ownership and critical-section table mapped, `fuel` at least 1 and at least the
yield budget so that the yield loop runs to its end).  For every behaviour `env` of the
wrapped primitive, `pthread_mutex_lock` returns, and its outside calls are yields and failed
`trylock` calls followed by one last call: either a `trylock` that returned 0, and then the
function returns 0, or the blocking lock, and then the function returns that call's code.  So
it returns 0 exactly when a wrapped acquisition call returned 0, no wrapped call follows the
first success, and otherwise the code is the blocking lock's.  `pthread_mutex_trylock` makes
the one wrapped `trylock` call and returns its code.  For both, when the returned code is 0
the ownership lookup of the lock returns the CPU `get_cpu` gave, a way of the lock's bucket
holds the lock's tag with the caller's tid and that CPU, and the caller's `u32` depth is one
more than before; when the code is not 0 both tables are unchanged. -/
theorem interposition_is_transparent (fuel : Nat) (env : Env) (st : Shim) (mutex : Nat)
    (lt : LockTable) (ct : CsTable)
    (hinit : st.g_initialized = true) (hen : st.g_enabled = true)
    (hl : st.real_pthread_mutex_lock = true) (ht : st.real_pthread_mutex_trylock = true)
    (hlt : st.g_lock_table = some lt) (hct : st.g_cs_table = some ct)
    (hf1 : 1 ≤ fuel) (hf : st.g_yield_budget ≤ (fuel : Int)) :
    (∃ ret st1, pthread_mutex_lock fuel env st mutex = some (ret, st1) ∧
      ∃ pre last, st1.trace = st.trace ++ pre ++ [last] ∧
        (∀ e ∈ pre, failed_attempt e = true) ∧
        (last = Event.real_trylock 0 ∧ ret = 0 ∨ last = Event.real_lock ret) ∧
        (if ret = 0 then Published env mutex st st1
         else st1.g_cs_table = st.g_cs_table ∧ st1.g_lock_table = st.g_lock_table)) ∧
    ((pthread_mutex_trylock env st mutex).1 = env.trylock_ret st.trylock_calls ∧
      (pthread_mutex_trylock env st mutex).2.trace
        = st.trace ++ [Event.real_trylock (env.trylock_ret st.trylock_calls)] ∧
      (if env.trylock_ret st.trylock_calls = 0 then
        Published env mutex st (pthread_mutex_trylock env st mutex).2
       else (pthread_mutex_trylock env st mutex).2.g_cs_table = st.g_cs_table ∧
        (pthread_mutex_trylock env st mutex).2.g_lock_table = st.g_lock_table)) := by
  constructor
  · obtain ⟨ret, st1, he, pre, last, htr, hpre, hlast, htab⟩ :=
      lock_outcome fuel env st mutex hinit hen hl hf1 hf
    refine ⟨ret, st1, he, pre, last, htr, hpre, hlast, ?_⟩
    by_cases h0 : ret = 0
    · rw [if_pos h0] at htab ⊢
      obtain ⟨h1, now, h2⟩ := htab
      exact published_of_tables env mutex st st1 lt ct now hlt hct h1 h2
    · rw [if_neg h0] at htab ⊢
      exact htab
  · obtain ⟨hc, htr, htab⟩ := trylock_outcome env st mutex hinit hen ht
    refine ⟨hc, htr, ?_⟩
    by_cases h0 : env.trylock_ret st.trylock_calls = 0
    · rw [if_pos h0] at htab ⊢
      obtain ⟨h1, now, h2⟩ := htab
      exact published_of_tables env mutex st _ lt ct now hlt hct h1 h2
    · rw [if_neg h0] at htab ⊢
      exact htab

theorem failed_round_facts (env : Env) (mutex : Nat) (s : Shim) :
    (failed_round env mutex s).clock_reads = s.clock_reads + 1 ∧
    (failed_round env mutex s).g_yield_budget = s.g_yield_budget ∧
    (failed_round env mutex s).g_fallback_us = s.g_fallback_us ∧
    (failed_round env mutex s).trace
      = s.trace ++ [Event.sched_yield, Event.real_trylock (env.trylock_ret s.trylock_calls)] := by
  simp [failed_round, get_time_ns, call_real_trylock, call_sched_yield]

theorem blocking_fallback_facts (env : Env) (mutex : Nat) (s : Shim) :
    (blocking_fallback env mutex s).1 = env.lock_ret ∧
    (blocking_fallback env mutex s).2.trace = s.trace ++ [Event.real_lock env.lock_ret] := by
  unfold blocking_fallback
  by_cases h : env.lock_ret = 0
  · simp only [if_pos h, on_lock_acquired_trace]
    exact ⟨trivial, rfl⟩
  · simp only [if_neg h]
    exact ⟨trivial, rfl⟩

theorem count_yields_append (a b : List Event) :
    count_yields (a ++ b) = count_yields a + count_yields b := by
  simp [count_yields]

theorem yield_phase_all_fail (env : Env) (mutex start_ns : Nat)
    (hfail : ∀ n, env.trylock_ret n ≠ 0) :
    ∀ (m fuel : Nat) (y : Int) (s : Shim), m + 1 ≤ fuel →
      degrade_check env start_ns y s m →
      (∀ i, i < m → ¬ degrade_check env start_ns y s i) →
      ∃ s1, yield_phase env mutex start_ns fuel y s = some (env.lock_ret, s1) ∧
        count_yields s1.trace = count_yields s.trace + (m + 1) ∧
        s1.trace.getLast? = some (Event.real_lock env.lock_ret) := by
  intro m
  induction m with
  | zero =>
    intro fuel y s hfuel hc _
    obtain ⟨f, rfl⟩ : ∃ f, fuel = f + 1 := ⟨fuel - 1, by omega⟩
    rw [yield_phase_fail env mutex start_ns f y s (hfail _)]
    have hc0 : y + 1 ≥ s.g_yield_budget ∨
        elapsed_us env start_ns s.clock_reads ≥ u64_of_int s.g_fallback_us := by
      simpa [degrade_check] using hc
    rw [if_pos hc0]
    obtain ⟨hr, htr⟩ := blocking_fallback_facts env mutex (failed_round env mutex s)
    refine ⟨(blocking_fallback env mutex (failed_round env mutex s)).2, ?_, ?_, ?_⟩
    · rw [← hr]
    · rw [htr, (failed_round_facts env mutex s).2.2.2]
      simp [count_yields_append, count_yields]
    · rw [htr]
      simp
  | succ m ih =>
    intro fuel y s hfuel hc hnc
    obtain ⟨f, rfl⟩ : ∃ f, fuel = f + 1 := ⟨fuel - 1, by omega⟩
    rw [yield_phase_fail env mutex start_ns f y s (hfail _)]
    have hc0 : ¬ (y + 1 ≥ s.g_yield_budget ∨
        elapsed_us env start_ns s.clock_reads ≥ u64_of_int s.g_fallback_us) := by
      simpa [degrade_check] using hnc 0 (by omega)
    rw [if_neg hc0]
    obtain ⟨hclk, hbud, hfb, htr⟩ := failed_round_facts env mutex s
    have hshift : ∀ i, degrade_check env start_ns (y + 1) (failed_round env mutex s) i
        ↔ degrade_check env start_ns y s (i + 1) := by
      intro i
      simp only [degrade_check, hclk, hbud, hfb]
      have e1 : s.clock_reads + 1 + i = s.clock_reads + (i + 1) := by omega
      have e2 : y + 1 + ((i : Int) + 1) = y + (((i + 1 : Nat) : Int) + 1) := by
        push_cast; ring
      rw [e1, e2]
    obtain ⟨s1, he, hcount, hlast⟩ := ih f (y + 1) (failed_round env mutex s) (by omega)
      ((hshift m).mpr hc) (fun i hi => fun h => hnc (i + 1) (by omega) ((hshift i).mp h))
    refine ⟨s1, he, ?_, hlast⟩
    rw [hcount, htr]
    simp [count_yields_append, count_yields]
    omega

theorem spin_phase_all_fail (env : Env) (mutex : Nat) (hfail : ∀ n, env.trylock_ret n ≠ 0) :
    ∀ (n : Nat) (s : Shim),
      (spin_phase env mutex n s).1 = false ∧
      (spin_phase env mutex n s).2.clock_reads = s.clock_reads ∧
      (spin_phase env mutex n s).2.g_yield_budget = s.g_yield_budget ∧
      (spin_phase env mutex n s).2.g_fallback_us = s.g_fallback_us ∧
      count_yields (spin_phase env mutex n s).2.trace = count_yields s.trace := by
  intro n
  induction n with
  | zero => intro s; exact ⟨rfl, rfl, rfl, rfl, rfl⟩
  | succ n ih =>
    intro s
    have hs : spin_phase env mutex (n + 1) s
        = spin_phase env mutex n (call_real_trylock env s).2 := by
      have h := hfail s.trylock_calls
      simp [spin_phase, call_real_trylock, h]
    rw [hs]
    obtain ⟨h1, h2, h3, h4, h5⟩ := ih (call_real_trylock env s).2
    refine ⟨h1, h2, h3, h4, ?_⟩
    rw [h5]
    simp [call_real_trylock, count_yields_append, count_yields]

theorem lock_all_fail (fuel : Nat) (env : Env) (st : Shim) (mutex : Nat)
    (hinit : st.g_initialized = true) (hen : st.g_enabled = true)
    (hl : st.real_pthread_mutex_lock = true)
    (hfail : ∀ n, env.trylock_ret n ≠ 0)
    (k : Nat) (hk1 : 1 ≤ k) (hkf : k ≤ fuel)
    (hdeg : lock_degrades_at env st k)
    (hnot : ∀ j, 1 ≤ j → j < k → ¬ lock_degrades_at env st j) :
    ∃ st1, pthread_mutex_lock fuel env st mutex = some (env.lock_ret, st1) ∧
      count_yields st1.trace = count_yields st.trace + k ∧
      st1.trace.getLast? = some (Event.real_lock env.lock_ret) := by
  rw [lock_contended fuel env st mutex hinit hen hl (hfail _)]
  obtain ⟨hb, hclk, hbud, hfb, hcnt⟩ :=
    spin_phase_all_fail env mutex hfail SPIN_TRIES (spin_entry env st)
  rw [if_neg (by simp [hb])]
  generalize (spin_phase env mutex SPIN_TRIES (spin_entry env st)).2 = s3 at hclk hbud hfb hcnt
  have hshift : ∀ i, degrade_check env (env.time_ns st.clock_reads % 2 ^ 64) 0
      (publish_waiter env mutex s3) i ↔ lock_degrades_at env st (i + 1) := by
    intro i
    simp only [degrade_check, lock_degrades_at, lock_elapsed_us, publish_waiter, hclk, hbud, hfb,
      spin_entry, get_time_ns, call_real_trylock]
    have e1 : st.clock_reads + 1 + i = st.clock_reads + (i + 1) := by omega
    have e2 : (0 : Int) + ((i : Int) + 1) = ((i + 1 : Nat) : Int) := by push_cast; ring
    rw [e1, e2]
  obtain ⟨m, rfl⟩ : ∃ m, k = m + 1 := ⟨k - 1, by omega⟩
  obtain ⟨s1, he, hc, hlast⟩ := yield_phase_all_fail env mutex
    (env.time_ns st.clock_reads % 2 ^ 64) hfail m fuel 0 (publish_waiter env mutex s3) hkf
    ((hshift m).mpr hdeg)
    (fun i hi h => hnot (i + 1) (by omega) (by omega) ((hshift i).mp h))
  refine ⟨s1, he, ?_, hlast⟩
  rw [hc]
  have : (publish_waiter env mutex s3).trace = s3.trace := rfl
  rw [this, hcnt]
  simp [spin_entry, get_time_ns, call_real_trylock, count_yields_append, count_yields]

/-- C9. Degradation rule (shim initialised and enabled, every wrapped `trylock` failing).
(1) If `k ≥ 1` is the first retry at which `k ≥ yield_budget` or
`elapsed_us ≥ fallback_threshold_us` holds (the condition is false at every retry
`1 ≤ j < k`), then `pthread_mutex_lock` returns the code of the wrapped blocking lock, that
call is its last outside call, and exactly `k` yields were issued before it.
(2) With `yield_budget = 64` and threshold 500 us, if the elapsed time is below 500 us at the
retries 1 .. 63, exactly 64 yields precede the blocking lock.
(3) With the same settings, if the elapsed time is below 500 us at the retries 1 .. 9 and at
least 500 us at retry 10, exactly 10 yields precede the blocking lock.
The threshold is compared as the code does, `(u64)g_fallback_us`; `fuel` only has to cover
the `k` rounds. -/
theorem fallback_at_first_exceeded_check (fuel : Nat) (env : Env) (st : Shim) (mutex : Nat)
    (hinit : st.g_initialized = true) (hen : st.g_enabled = true)
    (hl : st.real_pthread_mutex_lock = true)
    (hfail : ∀ n, env.trylock_ret n ≠ 0) :
    (∀ k, 1 ≤ k → k ≤ fuel → lock_degrades_at env st k →
      (∀ j, 1 ≤ j → j < k → ¬ lock_degrades_at env st j) →
      ∃ st1, pthread_mutex_lock fuel env st mutex = some (env.lock_ret, st1) ∧
        count_yields st1.trace = count_yields st.trace + k ∧
        st1.trace.getLast? = some (Event.real_lock env.lock_ret)) ∧
    (st.g_yield_budget = 64 → st.g_fallback_us = 500 → 64 ≤ fuel →
      (∀ j, 1 ≤ j → j < 64 → lock_elapsed_us env st j < 500) →
      ∃ st1, pthread_mutex_lock fuel env st mutex = some (env.lock_ret, st1) ∧
        count_yields st1.trace = count_yields st.trace + 64 ∧
        st1.trace.getLast? = some (Event.real_lock env.lock_ret)) ∧
    (st.g_yield_budget = 64 → st.g_fallback_us = 500 → 10 ≤ fuel →
      (∀ j, 1 ≤ j → j < 10 → lock_elapsed_us env st j < 500) →
      500 ≤ lock_elapsed_us env st 10 →
      ∃ st1, pthread_mutex_lock fuel env st mutex = some (env.lock_ret, st1) ∧
        count_yields st1.trace = count_yields st.trace + 10 ∧
        st1.trace.getLast? = some (Event.real_lock env.lock_ret)) := by
  have h500 : u64_of_int 500 = 500 := by decide
  refine ⟨fun k hk1 hkf hdeg hnot =>
      lock_all_fail fuel env st mutex hinit hen hl hfail k hk1 hkf hdeg hnot, ?_, ?_⟩
  · intro hb hf hfuel hlow
    refine lock_all_fail fuel env st mutex hinit hen hl hfail 64 (by omega) hfuel ?_ ?_
    · left; rw [hb]; norm_num
    · intro j hj1 hj
      have := hlow j hj1 hj
      simp only [lock_degrades_at, hb, hf, h500]
      push_neg
      constructor
      · have : (j : Int) < 64 := by exact_mod_cast hj
        omega
      · omega
  · intro hb hf hfuel hlow hhigh
    refine lock_all_fail fuel env st mutex hinit hen hl hfail 10 (by omega) hfuel ?_ ?_
    · right; rw [hf, h500]; exact hhigh
    · intro j hj1 hj
      have := hlow j hj1 hj
      simp only [lock_degrades_at, hb, hf, h500]
      push_neg
      constructor
      · have : (j : Int) < 10 := by exact_mod_cast hj
        omega
      · omega

/-- Witness of `fallback_at_first_exceeded_check`: thread 7 with the default budget 64 and
threshold 500 us on a held mutex.  With the clock advancing 50 us per reading the threshold
is first reached at retry 10 and exactly 10 yields precede the blocking lock; with the clock
advancing 1 us per reading the budget is reached first and exactly 64 yields precede it. -/
theorem fallback_at_first_exceeded_check_witness :
    (ready_shim.g_initialized = true ∧ ready_shim.g_enabled = true ∧
      ready_shim.real_pthread_mutex_lock = true ∧
      (∀ n, (env_busy 50000).trylock_ret n ≠ 0) ∧ (∀ n, (env_busy 1000).trylock_ret n ≠ 0) ∧
      ready_shim.g_yield_budget = 64 ∧ ready_shim.g_fallback_us = 500 ∧
      (∀ j, 1 ≤ j → j < 10 → lock_elapsed_us (env_busy 50000) ready_shim j < 500) ∧
      500 ≤ lock_elapsed_us (env_busy 50000) ready_shim 10 ∧
      (∀ j, 1 ≤ j → j < 64 → lock_elapsed_us (env_busy 1000) ready_shim j < 500)) ∧
    (∃ st1, pthread_mutex_lock 64 (env_busy 50000) ready_shim lock_a
        = some ((env_busy 50000).lock_ret, st1) ∧
      count_yields st1.trace = count_yields ready_shim.trace + 10 ∧
      st1.trace.getLast? = some (Event.real_lock (env_busy 50000).lock_ret)) ∧
    (∃ st1, pthread_mutex_lock 64 (env_busy 1000) ready_shim lock_a
        = some ((env_busy 1000).lock_ret, st1) ∧
      count_yields st1.trace = count_yields ready_shim.trace + 64 ∧
      st1.trace.getLast? = some (Event.real_lock (env_busy 1000).lock_ret)) := by
  have hfail : ∀ n, (env_busy 50000).trylock_ret n ≠ 0 := by
    intro n; simp [env_busy]
  have hfail1 : ∀ n, (env_busy 1000).trylock_ret n ≠ 0 := by
    intro n; simp [env_busy]
  have hlow : ∀ j, 1 ≤ j → j < 10 → lock_elapsed_us (env_busy 50000) ready_shim j < 500 := by
    intro j h1 h2
    interval_cases j <;> decide
  have hhigh : 500 ≤ lock_elapsed_us (env_busy 50000) ready_shim 10 := by decide
  have hlow1 : ∀ j, 1 ≤ j → j < 64 → lock_elapsed_us (env_busy 1000) ready_shim j < 500 := by
    intro j h1 h2
    interval_cases j <;> decide
  exact ⟨⟨rfl, rfl, rfl, hfail, hfail1, rfl, rfl, hlow, hhigh, hlow1⟩,
    (fallback_at_first_exceeded_check 64 (env_busy 50000) ready_shim lock_a rfl rfl rfl
      hfail).2.2 rfl rfl (by decide) hlow hhigh,
    (fallback_at_first_exceeded_check 64 (env_busy 1000) ready_shim lock_a rfl rfl rfl
      hfail1).2.1 rfl rfl (by decide) hlow1⟩

/-- Witness of `interposition_is_transparent`: thread 7 on CPU 2 with the default settings
and all-zero tables.  On a free mutex the lock call returns 0, the lookup of `lock_a` then
returns 2 and the depth of thread 7 is 1; a `trylock` on a held mutex returns 16 and leaves
both tables as they were. -/
theorem interposition_is_transparent_witness :
    (ready_shim.g_initialized = true ∧ ready_shim.g_enabled = true ∧
      ready_shim.real_pthread_mutex_lock = true ∧
      ready_shim.real_pthread_mutex_trylock = true ∧
      ready_shim.g_lock_table = some zero_lock_table ∧
      ready_shim.g_cs_table = some zero_cs_table ∧
      1 ≤ 64 ∧ ready_shim.g_yield_budget ≤ ((64 : Nat) : Int)) ∧
    (∃ st1, pthread_mutex_lock 64 env_free ready_shim lock_a = some (0, st1) ∧
      lock_table_get_owner_cpu st1.g_lock_table ready_shim.g_hash_salt lock_a = 2 ∧
      ∃ ct1, st1.g_cs_table = some ct1 ∧ (ct1 (cs_idx 7)).in_cs = 1) ∧
    ((pthread_mutex_trylock (env_busy 1000) ready_shim lock_a).1 = 16 ∧
      (pthread_mutex_trylock (env_busy 1000) ready_shim lock_a).2.g_cs_table
        = ready_shim.g_cs_table ∧
      (pthread_mutex_trylock (env_busy 1000) ready_shim lock_a).2.g_lock_table
        = ready_shim.g_lock_table) := by
  have h1 := (interposition_is_transparent 64 env_free ready_shim lock_a zero_lock_table
    zero_cs_table rfl rfl rfl rfl rfl rfl (by decide) (by decide)).1
  have h2 := (interposition_is_transparent 64 (env_busy 1000) ready_shim lock_a zero_lock_table
    zero_cs_table rfl rfl rfl rfl rfl rfl (by decide) (by decide)).2
  refine ⟨⟨rfl, rfl, rfl, rfl, rfl, rfl, by decide, by decide⟩, ?_, ?_⟩
  · obtain ⟨ret, st1, he, pre, last, _, _, _, htab⟩ := h1
    have he0 : pthread_mutex_lock 64 env_free ready_shim lock_a
        = some (0, on_lock_acquired env_free (call_real_trylock env_free ready_shim).2 lock_a) :=
      rfl
    have hret : ret = 0 := by
      rw [he0] at he
      exact ((Prod.mk.inj (Option.some.inj he)).1).symm
    subst hret
    rw [if_pos rfl] at htab
    obtain ⟨hlook, _, ctz, ct1, hctz, hct1, hdepth⟩ := htab
    have hz : ctz = zero_cs_table := (Option.some.inj hctz).symm
    refine ⟨st1, he, hlook, ct1, hct1, ?_⟩
    rw [hz] at hdepth
    exact hdepth
  · obtain ⟨hc, _, htab⟩ := h2
    have hfail : (env_busy 1000).trylock_ret ready_shim.trylock_calls ≠ 0 := by
      simp [env_busy]
    rw [if_neg hfail] at htab
    exact ⟨hc, htab.1, htab.2⟩

theorem s32_of_u32_small (n : Nat) (h : n < 2 ^ 31) : s32_of_u32 n = (n : Int) := by
  have h1 : n % 2 ^ 32 = n := Nat.mod_eq_of_lt (by omega)
  simp only [s32_of_u32, h1]
  rw [if_pos h]

theorem s32_of_u32_le (n : Nat) : s32_of_u32 n ≤ (n : Int) := by
  have h1 : n % 2 ^ 32 ≤ n := Nat.mod_le _ _
  simp only [s32_of_u32]
  split_ifs <;> omega

theorem waiter_target_range (nr_cpus hash_salt : Nat) (wt : WaiterTable) (lt : LockTable)
    (p : task_struct) :
    get_waiter_target_cpu nr_cpus hash_salt wt lt p = -1 ∨
    (0 ≤ get_waiter_target_cpu nr_cpus hash_salt wt lt p ∧
      get_waiter_target_cpu nr_cpus hash_salt wt lt p < s32_of_u32 nr_cpus) := by
  unfold get_waiter_target_cpu
  simp only
  split
  · exact Or.inl rfl
  · split_ifs with h1 h2 h3 h4
    · exact Or.inl rfl
    · exact Or.inl rfl
    · exact Or.inr h3
    · split
      · rename_i cpu heq
        split at heq
        · exact absurd heq (by simp)
        · split_ifs at heq with h5 h6
          · cases heq; exact Or.inr h5.2
          · cases heq; exact Or.inr h6.2
      · exact Or.inl rfl
    · exact Or.inl rfl

theorem select_cpu_cases (m : Maps) (storage : Option task_ctx) (create_ok : Bool)
    (p : task_struct) (prev_cpu : Int) :
    (lhandoff_select_cpu m storage create_ok p prev_cpu).1 =
      if (is_task_controlled m.allowed_tgids storage create_ok p).1 = false then
        clamp_prev_cpu m.nr_cpus prev_cpu
      else if is_task_in_cs m.cs_table p = true then clamp_prev_cpu m.nr_cpus prev_cpu
      else if get_waiter_target_cpu m.nr_cpus m.hash_salt m.waiter_table m.lock_table p ≥ 0 then
        get_waiter_target_cpu m.nr_cpus m.hash_salt m.waiter_table m.lock_table p
      else clamp_prev_cpu m.nr_cpus prev_cpu := by
  have hr := waiter_target_range m.nr_cpus m.hash_salt m.waiter_table m.lock_table p
  simp only [lhandoff_select_cpu, clamp_prev_cpu]
  rcases is_task_controlled m.allowed_tgids storage create_ok p with ⟨c, s1⟩
  cases c
  · simp
  · by_cases hcs : is_task_in_cs m.cs_table p = true
    · simp [hcs]
    · by_cases ht : get_waiter_target_cpu m.nr_cpus m.hash_salt m.waiter_table m.lock_table p ≥ 0
      · have hlt : get_waiter_target_cpu m.nr_cpus m.hash_salt m.waiter_table m.lock_table p
            < s32_of_u32 m.nr_cpus := by
          rcases hr with h | h
          · omega
          · exact h.2
        simp [hcs, ht, hlt]
      · have ht2 : ¬ (0 ≤ get_waiter_target_cpu m.nr_cpus m.hash_salt m.waiter_table
            m.lock_table p) := ht
        simp [hcs, ht, ht2]

theorem enqueue_cases (m : Maps) (storage : Option task_ctx) (create_ok : Bool)
    (p : task_struct) :
    (lhandoff_enqueue m storage create_ok p).1 =
      if (is_task_controlled m.allowed_tgids storage create_ok p).1 = false then
        { dsq_id := SCX_DSQ_GLOBAL, slice := LH_SLICE_NORMAL_NS, enq_flags := 0 }
      else if get_waiter_target_cpu m.nr_cpus m.hash_salt m.waiter_table m.lock_table p ≥ 0 then
        { dsq_id := SCX_DSQ_GLOBAL, slice := LH_SLICE_WAITER_NS, enq_flags := SCX_ENQ_PREEMPT }
      else if is_task_in_cs m.cs_table p = true then
        { dsq_id := SCX_DSQ_GLOBAL, slice := LH_SLICE_NORMAL_NS * LH_SLICE_IN_CS_MULT,
          enq_flags := 0 }
      else { dsq_id := SCX_DSQ_GLOBAL, slice := LH_SLICE_NORMAL_NS, enq_flags := 0 } := by
  simp only [lhandoff_enqueue]
  rcases is_task_controlled m.allowed_tgids storage create_ok p with ⟨c, s1⟩
  cases c
  · simp
  · by_cases ht : get_waiter_target_cpu m.nr_cpus m.hash_salt m.waiter_table m.lock_table p ≥ 0
    · simp [ht]
    · have ht2 : ¬ (0 ≤ get_waiter_target_cpu m.nr_cpus m.hash_salt m.waiter_table
          m.lock_table p) := ht
      by_cases hcs : is_task_in_cs m.cs_table p = true
      · simp [ht2, hcs]
      · simp [ht2, hcs]

theorem clamp_in_range (nr_cpus : Nat) (prev_cpu : Int) (hn : nr_cpus < 2 ^ 31)
    (h0 : 0 ≤ prev_cpu) (h1 : prev_cpu < (nr_cpus : Int)) :
    clamp_prev_cpu nr_cpus prev_cpu = prev_cpu := by
  simp only [clamp_prev_cpu, s32_of_u32_small nr_cpus hn]
  rw [if_neg (by omega)]

/-- C11. CPU placement of a controlled task: for a task that `is_task_controlled` answers
`true` for and a `prev_cpu` in `[0, nr_cpus)` (`nr_cpus` below 2^31, as the launcher sets it),
`lhandoff_select_cpu` returns `prev_cpu` when the task is in a critical section, whatever its
waiter hint resolves to; when it is not in a critical section and its waiter hint resolves to
a CPU `c` (`get_waiter_target_cpu` returns `c ≥ 0`) it returns `c`; and when it is not in a
critical section and the hint does not resolve (`get_waiter_target_cpu` returns a negative
value) it returns `prev_cpu`. -/
theorem controlled_placement (m : Maps) (storage : Option task_ctx) (create_ok : Bool)
    (p : task_struct) (prev_cpu : Int)
    (hn : m.nr_cpus < 2 ^ 31) (h0 : 0 ≤ prev_cpu) (h1 : prev_cpu < (m.nr_cpus : Int))
    (hc : (is_task_controlled m.allowed_tgids storage create_ok p).1 = true) :
    (is_task_in_cs m.cs_table p = true →
      (lhandoff_select_cpu m storage create_ok p prev_cpu).1 = prev_cpu) ∧
    (is_task_in_cs m.cs_table p = false →
      ∀ c, get_waiter_target_cpu m.nr_cpus m.hash_salt m.waiter_table m.lock_table p = c →
        0 ≤ c → (lhandoff_select_cpu m storage create_ok p prev_cpu).1 = c) ∧
    (is_task_in_cs m.cs_table p = false →
      get_waiter_target_cpu m.nr_cpus m.hash_salt m.waiter_table m.lock_table p < 0 →
      (lhandoff_select_cpu m storage create_ok p prev_cpu).1 = prev_cpu) := by
  have hclamp := clamp_in_range m.nr_cpus prev_cpu hn h0 h1
  rw [select_cpu_cases, hclamp]
  refine ⟨?_, ?_, ?_⟩
  · intro hcs
    simp [hc, hcs]
  · intro hcs c hres hc0
    subst hres
    simp [hc, hcs, hc0]
  · intro hcs hneg
    have : ¬ (0 ≤ get_waiter_target_cpu m.nr_cpus m.hash_salt m.waiter_table m.lock_table p) := by
      omega
    simp [hc, hcs, this]

/-- Witness of `controlled_placement`: thread 7 (allowed, not in a critical section) has a
hint that resolves to CPU 2 and was last on CPU 1. -/
theorem controlled_placement_witness :
    (maps_hint_two.nr_cpus < 2 ^ 31 ∧ (0 : Int) ≤ 1 ∧ (1 : Int) < (maps_hint_two.nr_cpus : Int) ∧
      (is_task_controlled maps_hint_two.allowed_tgids none true task_seven).1 = true ∧
      is_task_in_cs maps_hint_two.cs_table task_seven = false ∧
      get_waiter_target_cpu maps_hint_two.nr_cpus maps_hint_two.hash_salt
        maps_hint_two.waiter_table maps_hint_two.lock_table task_seven = 2) ∧
    (lhandoff_select_cpu maps_hint_two none true task_seven 1).1 = 2 :=
  ⟨by decide,
   (controlled_placement maps_hint_two none true task_seven 1 (by decide) (by decide)
     (by decide) (by decide)).2.1 (by decide) 2 (by decide) (by decide)⟩

/-- C12 as stated fails for a `prev_cpu` outside `[0, nr_cpus)`: on 4 CPUs the uncontrolled
thread 9 with `prev_cpu = 6` is placed on CPU 0, not on CPU 6. -/
theorem uncontrolled_placement_clamps :
    hash_lookup maps_idle.allowed_tgids task_stranger.tgid = false ∧
    (is_task_controlled maps_idle.allowed_tgids none true task_stranger).1 = false ∧
    (lhandoff_select_cpu maps_idle none true task_stranger 6).1 = 0 := by
  decide

theorem uncontrolled_of_not_allowed (allowed : AllowedTgids) (storage : Option task_ctx)
    (create_ok : Bool) (p : task_struct)
    (htg : p.tgid ∉ allowed)
    (hmemo : ∀ ctx, storage = some ctx → ctx.checked = true → ctx.controlled = false) :
    (is_task_controlled allowed storage create_ok p).1 = false := by
  cases storage with
  | none =>
    cases create_ok <;> simp [is_task_controlled, bpf_task_storage_get, hash_lookup, htg]
  | some ctx =>
    by_cases hch : ctx.checked = true
    · simp [is_task_controlled, bpf_task_storage_get, hch, hmemo ctx rfl hch]
    · simp [is_task_controlled, bpf_task_storage_get, hch, hash_lookup, htg]

/-- C12 (amended). CPU placement of an uncontrolled task: for every task whose tgid is not in
`allowed_tgids` (and whose memoized classification, if there is one, is "uncontrolled" too),
`lhandoff_select_cpu` returns `prev_cpu` unchanged when `0 ≤ prev_cpu < nr_cpus` and 0 for
every other `prev_cpu`; the three hint tables in `m` are arbitrary and do not enter the
result (`nr_cpus` below 2^31, as the launcher sets it). -/
theorem uncontrolled_placement (m : Maps) (storage : Option task_ctx) (create_ok : Bool)
    (p : task_struct) (prev_cpu : Int)
    (hn : m.nr_cpus < 2 ^ 31)
    (htg : p.tgid ∉ m.allowed_tgids)
    (hmemo : ∀ ctx, storage = some ctx → ctx.checked = true → ctx.controlled = false) :
    (0 ≤ prev_cpu ∧ prev_cpu < (m.nr_cpus : Int) →
      (lhandoff_select_cpu m storage create_ok p prev_cpu).1 = prev_cpu) ∧
    (¬ (0 ≤ prev_cpu ∧ prev_cpu < (m.nr_cpus : Int)) →
      (lhandoff_select_cpu m storage create_ok p prev_cpu).1 = 0) := by
  have hu := uncontrolled_of_not_allowed m.allowed_tgids storage create_ok p htg hmemo
  rw [select_cpu_cases, if_pos hu]
  simp only [clamp_prev_cpu, s32_of_u32_small m.nr_cpus hn]
  constructor
  · intro h
    rw [if_neg (by omega)]
  · intro h
    rw [if_pos (by omega)]

/-- Witness of `uncontrolled_placement`: the stranger thread 9 on 4 CPUs, last on CPU 3. -/
theorem uncontrolled_placement_witness :
    (maps_hint_two.nr_cpus < 2 ^ 31 ∧ task_stranger.tgid ∉ maps_hint_two.allowed_tgids ∧
      (∀ ctx, (none : Option task_ctx) = some ctx → ctx.checked = true → ctx.controlled = false) ∧
      ((0 : Int) ≤ 3 ∧ (3 : Int) < (maps_hint_two.nr_cpus : Int))) ∧
    (lhandoff_select_cpu maps_hint_two none true task_stranger 3).1 = 3 := by
  have hmemo : ∀ ctx, (none : Option task_ctx) = some ctx → ctx.checked = true →
      ctx.controlled = false := by
    intro ctx h
    cases h
  exact ⟨⟨by decide, by decide, hmemo, by decide⟩,
    (uncontrolled_placement maps_hint_two none true task_stranger 3 (by decide) (by decide)
      hmemo).1 (by decide)⟩

/-- C13. Slice assignment without a waiter hint: a task that `is_task_controlled` answers
`false` for gets the slice 5,000,000 ns on the global queue with flags 0, whatever the
tables hold; a task it answers `true` for whose waiter hint does not resolve
(`get_waiter_target_cpu` negative) gets 20,000,000 ns when `is_task_in_cs` is true and
5,000,000 ns otherwise, on the global queue with flags 0. -/
theorem slice_without_waiter_hint (m : Maps) (storage : Option task_ctx) (create_ok : Bool)
    (p : task_struct) :
    ((is_task_controlled m.allowed_tgids storage create_ok p).1 = false →
      (lhandoff_enqueue m storage create_ok p).1
        = { dsq_id := SCX_DSQ_GLOBAL, slice := 5000000, enq_flags := 0 }) ∧
    ((is_task_controlled m.allowed_tgids storage create_ok p).1 = true →
      get_waiter_target_cpu m.nr_cpus m.hash_salt m.waiter_table m.lock_table p < 0 →
      (lhandoff_enqueue m storage create_ok p).1
        = { dsq_id := SCX_DSQ_GLOBAL,
            slice := if is_task_in_cs m.cs_table p = true then 20000000 else 5000000,
            enq_flags := 0 }) := by
  rw [enqueue_cases]
  constructor
  · intro hu
    rw [if_pos hu]
    rfl
  · intro hc hneg
    have h1 : ¬ ((is_task_controlled m.allowed_tgids storage create_ok p).1 = false) := by
      simp [hc]
    have h2 : ¬ (get_waiter_target_cpu m.nr_cpus m.hash_salt m.waiter_table m.lock_table p
        ≥ 0) := by omega
    rw [if_neg h1, if_neg h2]
    by_cases hcs : is_task_in_cs m.cs_table p = true
    · rw [if_pos hcs, if_pos hcs]; rfl
    · rw [if_neg hcs, if_neg hcs]; rfl

/-- Witness of `slice_without_waiter_hint`: the stranger thread 9 gets 5 ms; the allowed
thread 7, without a hint and not in a critical section, gets 5 ms too. -/
theorem slice_without_waiter_hint_witness :
    ((is_task_controlled maps_idle.allowed_tgids none true task_stranger).1 = false ∧
      (is_task_controlled maps_idle.allowed_tgids none true task_seven).1 = true ∧
      get_waiter_target_cpu maps_idle.nr_cpus maps_idle.hash_salt maps_idle.waiter_table
        maps_idle.lock_table task_seven < 0) ∧
    (lhandoff_enqueue maps_idle none true task_stranger).1
      = { dsq_id := SCX_DSQ_GLOBAL, slice := 5000000, enq_flags := 0 } ∧
    (lhandoff_enqueue maps_idle none true task_seven).1
      = { dsq_id := SCX_DSQ_GLOBAL,
          slice := if is_task_in_cs maps_idle.cs_table task_seven = true then 20000000
                   else 5000000,
          enq_flags := 0 } :=
  ⟨by decide,
   (slice_without_waiter_hint maps_idle none true task_stranger).1 (by decide),
   (slice_without_waiter_hint maps_idle none true task_seven).2 (by decide) (by decide)⟩

/-- C14 as stated fails for a hint that does not resolve: the allowed thread 7 has an active
waiter slot carrying its own tid, with target CPU -1 and a lock the ownership table does not
know; `lhandoff_enqueue` gives it the normal slice 5,000,000 ns with flags 0. -/
theorem unresolved_waiter_gets_normal_slice :
    (is_task_controlled maps_hint_unresolved.allowed_tgids none true task_seven).1 = true ∧
    (maps_hint_unresolved.waiter_table (waiter_idx 7)).flags = LH_WAITER_ACTIVE ∧
    (maps_hint_unresolved.waiter_table (waiter_idx 7)).tid = task_seven.pid ∧
    (lhandoff_enqueue maps_hint_unresolved none true task_seven).1
      = { dsq_id := SCX_DSQ_GLOBAL, slice := 5000000, enq_flags := 0 } := by
  decide

/-- C14 (amended). Slice assignment for a waiter: for every task that `is_task_controlled`
answers `true` for and whose waiter hint resolves to a CPU (`get_waiter_target_cpu` returns a
value `≥ 0`: the slot is active, carries the task's tid, and either its target CPU lies in
`[0, nr_cpus)` or the ownership table gives such an owner CPU for its lock),
`lhandoff_enqueue` assigns the slice 1,000,000 ns with the flag `SCX_ENQ_PREEMPT`. -/
theorem resolved_waiter_gets_short_slice (m : Maps) (storage : Option task_ctx)
    (create_ok : Bool) (p : task_struct)
    (hc : (is_task_controlled m.allowed_tgids storage create_ok p).1 = true)
    (hres : 0 ≤ get_waiter_target_cpu m.nr_cpus m.hash_salt m.waiter_table m.lock_table p) :
    (lhandoff_enqueue m storage create_ok p).1
      = { dsq_id := SCX_DSQ_GLOBAL, slice := 1000000, enq_flags := SCX_ENQ_PREEMPT } := by
  have h1 : ¬ ((is_task_controlled m.allowed_tgids storage create_ok p).1 = false) := by
    simp [hc]
  rw [enqueue_cases, if_neg h1, if_pos hres]
  rfl

/-- Witness of `resolved_waiter_gets_short_slice`: thread 7 with a hint for CPU 2. -/
theorem resolved_waiter_gets_short_slice_witness :
    ((is_task_controlled maps_hint_two.allowed_tgids none true task_seven).1 = true ∧
      0 ≤ get_waiter_target_cpu maps_hint_two.nr_cpus maps_hint_two.hash_salt
        maps_hint_two.waiter_table maps_hint_two.lock_table task_seven) ∧
    (lhandoff_enqueue maps_hint_two none true task_seven).1
      = { dsq_id := SCX_DSQ_GLOBAL, slice := 1000000, enq_flags := SCX_ENQ_PREEMPT } :=
  ⟨by decide,
   resolved_waiter_gets_short_slice maps_hint_two none true task_seven (by decide)
     (by decide)⟩

/-- C16 as stated fails on a full map: with the 256 tgids 1000 .. 1255 allowed, the fork of a
child with tgid 2000 by a parent with tgid 1000 leaves tgid 2000 out of the set. -/
theorem fork_on_full_map_adds_nothing :
    full_allowed.length = 256 ∧ (1000 : Nat) ∈ full_allowed ∧
    (2000 : Nat) ∉ handle_fork full_allowed { pid := 1000, tgid := 1000 }
      { pid := 2000, tgid := 2000 } := by
  have hlen : full_allowed.length = 256 := by simp [full_allowed]
  have hparent : (1000 : Nat) ∈ full_allowed := List.mem_map.mpr ⟨0, by simp, rfl⟩
  have hchild : (2000 : Nat) ∉ full_allowed := by
    intro h
    obtain ⟨i, hi, he⟩ := List.mem_map.mp h
    have := List.mem_range.mp hi
    omega
  refine ⟨hlen, hparent, ?_⟩
  simp only [handle_fork, hash_lookup, hash_update, LH_MAX_ALLOWED_TGIDS, hparent, hchild, hlen]
  simpa using hchild

/-- C16 (amended). Group inheritance: for every state of `allowed_tgids` and every parent and
child, after `handle_fork` the child's tgid is in the set if the parent's tgid was in it and
the set already contained the child's tgid or held fewer than 256 tgids; if the parent's tgid
was not in it the set is unchanged; every member stays a member; and running `handle_fork`
twice with the same pair gives the same set as running it once. -/
theorem fork_inheritance (allowed : AllowedTgids) (parent child : task_struct) :
    (parent.tgid ∈ allowed → (child.tgid ∈ allowed ∨ allowed.length < 256) →
      child.tgid ∈ handle_fork allowed parent child) ∧
    (parent.tgid ∉ allowed → handle_fork allowed parent child = allowed) ∧
    (∀ t, t ∈ allowed → t ∈ handle_fork allowed parent child) ∧
    handle_fork (handle_fork allowed parent child) parent child
      = handle_fork allowed parent child := by
  by_cases hp : parent.tgid ∈ allowed
  · by_cases hc : child.tgid ∈ allowed
    · have h1 : handle_fork allowed parent child = allowed := by
        simp [handle_fork, hash_lookup, hash_update, hp, hc]
      rw [h1, h1]
      exact ⟨fun _ _ => hc, fun h => absurd hp h, fun t ht => ht, rfl⟩
    · by_cases hroom : allowed.length < 256
      · have h1 : handle_fork allowed parent child = allowed ++ [child.tgid] := by
          simp [handle_fork, hash_lookup, hash_update, hp, hc, hroom, LH_MAX_ALLOWED_TGIDS]
        have h2 : handle_fork (allowed ++ [child.tgid]) parent child
            = allowed ++ [child.tgid] := by
          simp [handle_fork, hash_lookup, hash_update, hp]
        rw [h1, h2]
        exact ⟨fun _ _ => by simp, fun h => absurd hp h,
          fun t ht => List.mem_append_left _ ht, rfl⟩
      · have h1 : handle_fork allowed parent child = allowed := by
          simp [handle_fork, hash_lookup, hash_update, hp, hc, hroom, LH_MAX_ALLOWED_TGIDS]
        rw [h1, h1]
        exact ⟨fun _ h => by rcases h with h | h <;> contradiction, fun h => absurd hp h,
          fun t ht => ht, rfl⟩
  · have h1 : handle_fork allowed parent child = allowed := by
      simp [handle_fork, hash_lookup, hp]
    rw [h1, h1]
    exact ⟨fun h => absurd h hp, fun _ => rfl, fun t ht => ht, rfl⟩

/-- Witness of `fork_inheritance`: the allowed process group 1 forks a child with tgid 42. -/
theorem fork_inheritance_witness :
    ((1 : Nat) ∈ [1] ∧ ((42 : Nat) ∈ [1] ∨ [1].length < 256)) ∧
    (42 : Nat) ∈ handle_fork [1] { pid := 1, tgid := 1 } { pid := 42, tgid := 42 } :=
  ⟨by decide,
   (fork_inheritance [1] { pid := 1, tgid := 1 } { pid := 42, tgid := 42 }).1 (by decide)
     (by decide)⟩

/-- C18. Hint inconsistency never yields an invalid decision: for arbitrary contents of the
waiter and ownership tables, `get_waiter_target_cpu` returns -1 or a CPU in `[0, nr_cpus)`;
and for `nr_cpus ≥ 1`, `lhandoff_select_cpu` returns a CPU in `[0, nr_cpus)` for every task,
every task storage and every `prev_cpu`. -/
theorem decisions_stay_in_range (m : Maps) (storage : Option task_ctx) (create_ok : Bool)
    (p : task_struct) (prev_cpu : Int) (hn : 1 ≤ m.nr_cpus) :
    (get_waiter_target_cpu m.nr_cpus m.hash_salt m.waiter_table m.lock_table p = -1 ∨
      (0 ≤ get_waiter_target_cpu m.nr_cpus m.hash_salt m.waiter_table m.lock_table p ∧
        get_waiter_target_cpu m.nr_cpus m.hash_salt m.waiter_table m.lock_table p
          < (m.nr_cpus : Int))) ∧
    (0 ≤ (lhandoff_select_cpu m storage create_ok p prev_cpu).1 ∧
      (lhandoff_select_cpu m storage create_ok p prev_cpu).1 < (m.nr_cpus : Int)) := by
  have hr := waiter_target_range m.nr_cpus m.hash_salt m.waiter_table m.lock_table p
  have hle := s32_of_u32_le m.nr_cpus
  have hclamp : 0 ≤ clamp_prev_cpu m.nr_cpus prev_cpu ∧
      clamp_prev_cpu m.nr_cpus prev_cpu < (m.nr_cpus : Int) := by
    simp only [clamp_prev_cpu]
    split_ifs with h
    · constructor
      · exact le_refl 0
      · exact_mod_cast hn
    · push_neg at h
      omega
  constructor
  · rcases hr with h | h
    · exact Or.inl h
    · exact Or.inr ⟨h.1, by omega⟩
  · rw [select_cpu_cases]
    split_ifs with h1 h2 h3
    · exact hclamp
    · exact hclamp
    · rcases hr with h | h
      · omega
      · exact ⟨h.1, by omega⟩
    · exact hclamp

/-- Witness of `decisions_stay_in_range`: thread 7 with the hint for CPU 2, last seen on a
CPU number (9) that the 4-CPU configuration does not have. -/
theorem decisions_stay_in_range_witness :
    (1 ≤ maps_hint_two.nr_cpus) ∧
    ((get_waiter_target_cpu maps_hint_two.nr_cpus maps_hint_two.hash_salt
          maps_hint_two.waiter_table maps_hint_two.lock_table task_seven = -1 ∨
      (0 ≤ get_waiter_target_cpu maps_hint_two.nr_cpus maps_hint_two.hash_salt
          maps_hint_two.waiter_table maps_hint_two.lock_table task_seven ∧
        get_waiter_target_cpu maps_hint_two.nr_cpus maps_hint_two.hash_salt
          maps_hint_two.waiter_table maps_hint_two.lock_table task_seven
          < (maps_hint_two.nr_cpus : Int))) ∧
    (0 ≤ (lhandoff_select_cpu maps_hint_two none true task_seven 9).1 ∧
      (lhandoff_select_cpu maps_hint_two none true task_seven 9).1
        < (maps_hint_two.nr_cpus : Int))) :=
  ⟨by decide, decisions_stay_in_range maps_hint_two none true task_seven 9 (by decide)⟩

/-- C19. Tag and index well-formedness: for every lock address and salt, `LH_TAG_FROM_ADDR`
is a non-zero value below 2^32 and `LH_BUCKET_IDX` is below 1024; for every tid,
`LH_WAITER_SLOT_IDX` and `LH_CS_SLOT_IDX` are below 4096. -/
theorem tag_and_indices_well_formed (lock_addr salt tid : Nat) :
    LH.LH_TAG_FROM_ADDR lock_addr salt ≠ 0 ∧
    LH.LH_TAG_FROM_ADDR lock_addr salt < 2 ^ 32 ∧
    LH.LH_BUCKET_IDX lock_addr salt < 1024 ∧
    LH.LH_WAITER_SLOT_IDX tid < 4096 ∧
    LH.LH_CS_SLOT_IDX tid < 4096 := by
  refine ⟨lor_one_ne_zero _, ?_, ?_, ?_, ?_⟩
  · exact Nat.or_lt_two_pow (Nat.mod_lt _ (by norm_num)) (by norm_num)
  · exact Nat.mod_lt _ (by norm_num)
  · exact Nat.mod_lt _ (by norm_num)
  · exact Nat.mod_lt _ (by norm_num)

/-- C20. Waiter clear: on every mapped waiter table and for every tid, after
`waiter_slot_clear(tid)` the scheduler-side `get_waiter_target_cpu` of the task with that pid
returns -1 (whatever the ownership table, `nr_cpus` and salt are); in every slot the fields
`tid`, `lock_addr` and `target_cpu` are as before, and every slot other than the one of `tid`
is unchanged; and clearing twice gives the same table as clearing once. -/
theorem waiter_clear_hides_hint (wt : WaiterTable) (tid tgid nr_cpus hash_salt : Nat)
    (lt : LockTable) :
    ∃ wt1, waiter_slot_clear (some wt) tid = some wt1 ∧
      get_waiter_target_cpu nr_cpus hash_salt wt1 lt { pid := tid, tgid := tgid } = -1 ∧
      (∀ j, (wt1 j).tid = (wt j).tid ∧ (wt1 j).lock_addr = (wt j).lock_addr ∧
        (wt1 j).target_cpu = (wt j).target_cpu) ∧
      (∀ j, j ≠ waiter_idx tid → wt1 j = wt j) ∧
      waiter_slot_clear (waiter_slot_clear (some wt) tid) tid
        = waiter_slot_clear (some wt) tid := by
  refine ⟨_, rfl, ?_, ?_, ?_, ?_⟩
  · simp [get_waiter_target_cpu, waiter_lookup_own_slot, store_same, LH_WAITER_INACTIVE,
      LH_WAITER_ACTIVE]
  · intro j
    by_cases hj : j = waiter_idx tid
    · subst hj
      simp [store_same]
    · simp [store, hj]
  · intro j hj
    simp [store, hj]
  · simp only [waiter_slot_clear, store_same]
    congr 1
    funext j
    by_cases hj : j = waiter_idx tid
    · simp [store, hj]
    · simp [store, hj]

theorem unmapped_on_lock_acquired (env : Env) (mutex : Nat) (s : Shim) (h : Unmapped s) :
    Unmapped (on_lock_acquired env s mutex) := by
  obtain ⟨hl, hw, hc⟩ := h
  simp [Unmapped, on_lock_acquired, hl, hw, hc, cs_slot_enter]

theorem unmapped_trylock (env : Env) (s : Shim) (h : Unmapped s) :
    Unmapped (call_real_trylock env s).2 := h

theorem unmapped_spin_phase (env : Env) (mutex : Nat) :
    ∀ (n : Nat) (s : Shim), Unmapped s → Unmapped (spin_phase env mutex n s).2 := by
  intro n
  induction n with
  | zero => intro s h; exact h
  | succ n ih =>
    intro s h
    by_cases ht : env.trylock_ret s.trylock_calls = 0
    · have hs : spin_phase env mutex (n + 1) s
          = (true, on_lock_acquired env (call_real_trylock env s).2 mutex) := by
        simp [spin_phase, call_real_trylock, ht]
      rw [hs]
      exact unmapped_on_lock_acquired env mutex _ (unmapped_trylock env s h)
    · have hs : spin_phase env mutex (n + 1) s
          = spin_phase env mutex n (call_real_trylock env s).2 := by
        simp [spin_phase, call_real_trylock, ht]
      rw [hs]
      exact ih _ (unmapped_trylock env s h)

theorem unmapped_failed_round (env : Env) (mutex : Nat) (s : Shim) (h : Unmapped s) :
    Unmapped (failed_round env mutex s) := by
  obtain ⟨hl, hw, hc⟩ := h
  simp [Unmapped, failed_round, get_time_ns, call_real_trylock, call_sched_yield, hl, hw, hc,
    waiter_refresh]

theorem unmapped_blocking_fallback (env : Env) (mutex : Nat) (s : Shim) (h : Unmapped s) :
    Unmapped (blocking_fallback env mutex s).2 := by
  obtain ⟨hl, hw, hc⟩ := h
  have h5 : Unmapped (call_real_lock env
      { s with g_waiter_table := waiter_slot_clear s.g_waiter_table env.tid }).2 := by
    simp [Unmapped, call_real_lock, hl, hw, hc, waiter_slot_clear]
  unfold blocking_fallback
  by_cases hr : env.lock_ret = 0
  · simp only [if_pos hr]
    exact unmapped_on_lock_acquired env mutex _ h5
  · simp only [if_neg hr]
    exact h5

theorem unmapped_yield_phase (env : Env) (mutex start_ns : Nat) :
    ∀ (fuel : Nat) (y : Int) (s : Shim), Unmapped s →
      ∀ r, yield_phase env mutex start_ns fuel y s = some r → Unmapped r.2 := by
  intro fuel
  induction fuel with
  | zero =>
    intro y s _ r hr
    simp [yield_phase] at hr
  | succ fuel ih =>
    intro y s h r hr
    by_cases ht : env.trylock_ret s.trylock_calls = 0
    · have hs : yield_phase env mutex start_ns (fuel + 1) y s
          = some (0, on_lock_acquired env
              { (call_real_trylock env (call_sched_yield s)).2 with
                g_waiter_table := waiter_slot_clear
                  (call_real_trylock env (call_sched_yield s)).2.g_waiter_table env.tid }
              mutex) := by
        rw [yield_phase]
        simp [call_real_trylock, call_sched_yield, ht]
      rw [hs] at hr
      cases hr
      apply unmapped_on_lock_acquired
      obtain ⟨hl, hw, hc⟩ := h
      simp [Unmapped, call_real_trylock, call_sched_yield, hl, hw, hc, waiter_slot_clear]
    · rw [yield_phase_fail env mutex start_ns fuel y s ht] at hr
      split_ifs at hr with hcnd
      · cases hr
        exact unmapped_blocking_fallback env mutex _ (unmapped_failed_round env mutex s h)
      · exact ih (y + 1) _ (unmapped_failed_round env mutex s h) r hr

theorem unmapped_lock (fuel : Nat) (env : Env) (st : Shim) (mutex : Nat)
    (hinit : st.g_initialized = true) (hen : st.g_enabled = true)
    (hl : st.real_pthread_mutex_lock = true) (h : Unmapped st) :
    ∀ r, pthread_mutex_lock fuel env st mutex = some r → Unmapped r.2 := by
  intro r hr
  by_cases ht : env.trylock_ret st.trylock_calls = 0
  · have hs : pthread_mutex_lock fuel env st mutex
        = some (0, on_lock_acquired env (call_real_trylock env st).2 mutex) := by
      simp [pthread_mutex_lock, hinit, hen, hl, call_real_trylock, ht]
    rw [hs] at hr
    cases hr
    exact unmapped_on_lock_acquired env mutex _ (unmapped_trylock env st h)
  · rw [lock_contended fuel env st mutex hinit hen hl ht] at hr
    have hentry : Unmapped (spin_entry env st) := h
    have hspin := unmapped_spin_phase env mutex SPIN_TRIES (spin_entry env st) hentry
    split_ifs at hr with hb
    · cases hr
      exact hspin
    · have hpub : Unmapped (publish_waiter env mutex
          (spin_phase env mutex SPIN_TRIES (spin_entry env st)).2) := by
        obtain ⟨h1, h2, h3⟩ := hspin
        simp [Unmapped, publish_waiter, h1, h2, h3, waiter_slot_set]
      exact unmapped_yield_phase env mutex _ fuel 0 _ hpub r hr

/-- C17 as stated fails on a held mutex: with no table mapped and the default settings,
`pthread_mutex_lock` on a mutex whose `trylock` keeps failing issues 64 voluntary yields
(and the `trylock` attempts around them) before the blocking acquisition, not that single
call only. -/
theorem unmapped_lock_still_spins_and_yields :
    (unmapped_shim.g_lock_table = none ∧ unmapped_shim.g_waiter_table = none ∧
      unmapped_shim.g_cs_table = none) ∧
    ∃ st1, pthread_mutex_lock 64 (env_busy 1000) unmapped_shim lock_a = some (0, st1) ∧
      count_yields st1.trace = 64 ∧ st1.trace ≠ [Event.real_lock 0] := by
  have hfail : ∀ n, (env_busy 1000).trylock_ret n ≠ 0 := by
    intro n; simp [env_busy]
  have h500 : u64_of_int 500 = 500 := by decide
  have hdeg : lock_degrades_at (env_busy 1000) unmapped_shim 64 := by
    unfold lock_degrades_at
    left; decide
  have hnot : ∀ j, 1 ≤ j → j < 64 → ¬ lock_degrades_at (env_busy 1000) unmapped_shim j := by
    intro j h1 h2
    unfold lock_degrades_at
    interval_cases j <;> decide
  obtain ⟨st1, he, hc, hlast⟩ := lock_all_fail 64 (env_busy 1000) unmapped_shim lock_a
    rfl rfl rfl hfail 64 (by decide) (by decide) hdeg hnot
  refine ⟨⟨rfl, rfl, rfl⟩, st1, he, ?_, ?_⟩
  · rw [hc]; rfl
  · intro heq
    rw [heq] at hc
    revert hc
    decide

/-- C17 (amended). Unmapped tables: when none of the three tables is mapped (shim initialised
and enabled, `fuel` covering the yield budget), `pthread_mutex_lock` returns, touches no hint
table (all three are still unmapped afterwards), and its outside calls are voluntary yields
and failed `trylock` calls followed by one last call, either a `trylock` that returned 0 (the
result is then 0) or the blocking lock, whose code is the result.  The state machine of
`trylock`, spin and yield-wait runs as with mapped tables. -/
theorem unmapped_tables_lock (fuel : Nat) (env : Env) (st : Shim) (mutex : Nat)
    (hinit : st.g_initialized = true) (hen : st.g_enabled = true)
    (hl : st.real_pthread_mutex_lock = true)
    (hf1 : 1 ≤ fuel) (hf : st.g_yield_budget ≤ (fuel : Int))
    (hlt : st.g_lock_table = none) (hwt : st.g_waiter_table = none)
    (hct : st.g_cs_table = none) :
    ∃ ret st1, pthread_mutex_lock fuel env st mutex = some (ret, st1) ∧
      st1.g_lock_table = none ∧ st1.g_waiter_table = none ∧ st1.g_cs_table = none ∧
      ∃ pre last, st1.trace = st.trace ++ pre ++ [last] ∧
        (∀ e ∈ pre, failed_attempt e = true) ∧
        (last = Event.real_trylock 0 ∧ ret = 0 ∨ last = Event.real_lock ret) := by
  obtain ⟨ret, st1, he, pre, last, htr, hpre, hlast, _⟩ :=
    lock_outcome fuel env st mutex hinit hen hl hf1 hf
  obtain ⟨h1, h2, h3⟩ := unmapped_lock fuel env st mutex hinit hen hl ⟨hlt, hwt, hct⟩ _ he
  exact ⟨ret, st1, he, h1, h2, h3, pre, last, htr, hpre, hlast⟩

/-- Witness of `unmapped_tables_lock`: thread 7 with no table mapped, on a free mutex. -/
theorem unmapped_tables_lock_witness :
    (unmapped_shim.g_initialized = true ∧ unmapped_shim.g_enabled = true ∧
      unmapped_shim.real_pthread_mutex_lock = true ∧ 1 ≤ 64 ∧
      unmapped_shim.g_yield_budget ≤ ((64 : Nat) : Int) ∧
      unmapped_shim.g_lock_table = none ∧ unmapped_shim.g_waiter_table = none ∧
      unmapped_shim.g_cs_table = none) ∧
    ∃ ret st1, pthread_mutex_lock 64 env_free unmapped_shim lock_a = some (ret, st1) ∧
      st1.g_lock_table = none ∧ st1.g_waiter_table = none ∧ st1.g_cs_table = none ∧
      ∃ pre last, st1.trace = unmapped_shim.trace ++ pre ++ [last] ∧
        (∀ e ∈ pre, failed_attempt e = true) ∧
        (last = Event.real_trylock 0 ∧ ret = 0 ∨ last = Event.real_lock ret) :=
  ⟨⟨rfl, rfl, rfl, by decide, by decide, rfl, rfl, rfl⟩,
   unmapped_tables_lock 64 env_free unmapped_shim lock_a rfl rfl rfl (by decide) (by decide)
     rfl rfl rfl⟩

theorem lock_lookup_own_bucket (lt : LockTable) (salt lock_addr : Nat) :
    bpf_map_lookup_elem lt (Scx.LH_BUCKET_IDX salt lock_addr)
      = some (lt (bucket_idx salt lock_addr)) := by
  have h : Scx.LH_BUCKET_IDX salt lock_addr < LH_LOCK_TABLE_BUCKETS := Nat.mod_lt _ (by decide)
  simp only [bpf_map_lookup_elem, h, dite_true]
  rfl

/-- C21. Resolution through the ownership table: for every non-zero lock address, every owner
CPU `c` with `0 ≤ c < nr_cpus` (`nr_cpus` below 2^31, as the launcher sets it) and the same
salt on both sides, after the user-space `lock_table_insert(L, owner, c)` on any mapped
ownership table and `waiter_slot_set(tid, L, -1)` on any mapped waiter table, the
scheduler-side `get_waiter_target_cpu` of the task with pid `tid` returns `c`; and the
scheduler-side macros `LH_BUCKET_IDX` / `LH_TAG_FROM_ADDR` compute the same bucket and tag as
the user-space ones for every lock address and salt. -/
theorem hint_resolves_through_ownership (lt : LockTable) (wt : WaiterTable)
    (salt lock_addr owner tid tgid nr_cpus now : Nat) (c : Int)
    (hL : lock_addr ≠ 0) (hn : nr_cpus < 2 ^ 31) (h0 : 0 ≤ c) (hc : c < (nr_cpus : Int)) :
    ((lock_table_insert (some lt) salt lock_addr owner c now).bind fun lt1 =>
      (waiter_slot_set (some wt) tid lock_addr (-1)).map fun wt1 =>
        get_waiter_target_cpu nr_cpus salt wt1 lt1 { pid := tid, tgid := tgid }) = some c ∧
    (∀ l s, Scx.LH_BUCKET_IDX s l = LH.LH_BUCKET_IDX l s ∧
      Scx.LH_TAG_FROM_ADDR s l = LH.LH_TAG_FROM_ADDR l s) := by
  refine ⟨?_, fun l s => ⟨rfl, rfl⟩⟩
  have hs : s32_of_u32 nr_cpus = (nr_cpus : Int) := s32_of_u32_small nr_cpus hn
  have htag : Scx.LH_TAG_FROM_ADDR salt lock_addr = tag_from_addr salt lock_addr := rfl
  have hz := tag_from_addr_ne_zero salt lock_addr
  simp only [lock_table_insert, waiter_slot_set]
  split_ifs with h1 h2
  · simp only [Option.some_bind, Option.map_some', get_waiter_target_cpu,
      waiter_lookup_own_slot, store_same, lock_lookup_own_bucket, hs, htag]
    simp [hL, h0, hc, LH_WAITER_ACTIVE, publish_entry]
  · simp only [Option.some_bind, Option.map_some', get_waiter_target_cpu,
      waiter_lookup_own_slot, store_same, lock_lookup_own_bucket, hs, htag]
    have h1a : ¬ (lt (bucket_idx salt lock_addr)).way0.tag = tag_from_addr salt lock_addr :=
      fun h => h1 (Or.inr h)
    simp [hL, h0, hc, LH_WAITER_ACTIVE, publish_entry, h1a]
  · simp only [Option.some_bind, Option.map_some', get_waiter_target_cpu,
      waiter_lookup_own_slot, store_same, lock_lookup_own_bucket, hs, htag]
    simp [hL, h0, hc, LH_WAITER_ACTIVE, publish_entry]

/-- Witness of `hint_resolves_through_ownership`: thread 101 owns `lock_b` on CPU 1 (stored in
way 1 of the bucket in `two_locks`), thread 7 waits for it without a target CPU, 4 CPUs. -/
theorem hint_resolves_through_ownership_witness :
    (lock_b ≠ 0 ∧ (4 : Nat) < 2 ^ 31 ∧ (0 : Int) ≤ 1 ∧ (1 : Int) < ((4 : Nat) : Int)) ∧
    ((lock_table_insert (some two_locks) default_salt lock_b 101 1 0).bind fun lt1 =>
      (waiter_slot_set (some zero_waiter_table) 7 lock_b (-1)).map fun wt1 =>
        get_waiter_target_cpu 4 default_salt wt1 lt1 { pid := 7, tgid := 1 }) = some 1 :=
  ⟨by decide,
   (hint_resolves_through_ownership two_locks zero_waiter_table default_salt lock_b 101 7 1 4
     0 1 (by decide) (by decide) (by decide) (by decide)).1⟩

/-- C22 as stated fails: with `LH_YIELD_BUDGET=abc` and `LH_FALLBACK_US=fast` the settings
after `liblh_init` are 0 and 0, not the defaults 64 and 500. -/
theorem garbled_settings_become_zero :
    garbled_env.budget_str = some "abc" ∧ atoi_digits "abc" = [] ∧
    garbled_env.fallback_str = some "fast" ∧ atoi_digits "fast" = [] ∧
    (liblh_init garbled_env).g_yield_budget = 0 ∧
    (liblh_init garbled_env).g_fallback_us = 0 := by
  decide

theorem atoi_without_digits (s : String) (h : atoi_digits s = []) : atoi s = 0 := by
  simp [atoi, strtol, int_of_long, h]

theorem init_budget (ie : InitEnv) :
    (liblh_init ie).g_yield_budget
      = match ie.budget_str with
        | some s => atoi s
        | none => LH_YIELD_BUDGET := by
  obtain ⟨l, w, c, sa, b, f, e, _, _, _, _, _, _, _⟩ := ie
  cases sa <;> cases l <;> cases w <;> cases c <;> cases b <;> cases f <;> cases e <;>
    first
    | rfl
    | (simp only [liblh_init, init_shared_memory]; split_ifs <;> rfl)

theorem init_fallback (ie : InitEnv) :
    (liblh_init ie).g_fallback_us
      = match ie.fallback_str with
        | some s => atoi s
        | none => LH_FALLBACK_US := by
  obtain ⟨l, w, c, sa, b, f, e, _, _, _, _, _, _, _⟩ := ie
  cases sa <;> cases l <;> cases w <;> cases c <;> cases b <;> cases f <;> cases e <;>
    first
    | rfl
    | (simp only [liblh_init, init_shared_memory]; split_ifs <;> rfl)

theorem atoi_range (s : String) : -(2 ^ 31) ≤ atoi s ∧ atoi s < 2 ^ 31 := by
  simp only [atoi, int_of_long]
  omega

/-- C22 (amended). Settings after `liblh_init`: an unset `LH_YIELD_BUDGET` /
`LH_FALLBACK_US` leaves the built-in default 64 / 500; a set one is converted with `atoi`
(the `int` that `(int) strtol(.., 10)` gives, always within the range of `int`), so a value
that cannot be parsed as a number (no digit after the optional white space and sign) gives
the setting 0. -/
theorem settings_after_init (ie : InitEnv) :
    (ie.budget_str = none → (liblh_init ie).g_yield_budget = 64) ∧
    (ie.fallback_str = none → (liblh_init ie).g_fallback_us = 500) ∧
    (∀ s, ie.budget_str = some s → (liblh_init ie).g_yield_budget = atoi s) ∧
    (∀ s, ie.fallback_str = some s → (liblh_init ie).g_fallback_us = atoi s) ∧
    (∀ s, ie.budget_str = some s → atoi_digits s = [] → (liblh_init ie).g_yield_budget = 0) ∧
    (∀ s, ie.fallback_str = some s → atoi_digits s = [] →
      (liblh_init ie).g_fallback_us = 0) ∧
    (-(2 ^ 31) ≤ (liblh_init ie).g_yield_budget ∧ (liblh_init ie).g_yield_budget < 2 ^ 31 ∧
      -(2 ^ 31) ≤ (liblh_init ie).g_fallback_us ∧ (liblh_init ie).g_fallback_us < 2 ^ 31) := by
  have hb := init_budget ie
  have hf := init_fallback ie
  refine ⟨?_, ?_, ?_, ?_, ?_, ?_, ?_⟩
  · intro h
    rw [hb, h]
    rfl
  · intro h
    rw [hf, h]
    rfl
  · intro s h
    rw [hb, h]
  · intro s h
    rw [hf, h]
  · intro s h hd
    rw [hb, h]
    exact atoi_without_digits s hd
  · intro s h hd
    rw [hf, h]
    exact atoi_without_digits s hd
  · have hbr : -(2 ^ 31) ≤ (liblh_init ie).g_yield_budget ∧
        (liblh_init ie).g_yield_budget < 2 ^ 31 := by
      rw [hb]
      cases ie.budget_str with
      | none => exact ⟨by decide, by decide⟩
      | some s => exact atoi_range s
    have hfr : -(2 ^ 31) ≤ (liblh_init ie).g_fallback_us ∧
        (liblh_init ie).g_fallback_us < 2 ^ 31 := by
      rw [hf]
      cases ie.fallback_str with
      | none => exact ⟨by decide, by decide⟩
      | some s => exact atoi_range s
    exact ⟨hbr.1, hbr.2, hfr.1, hfr.2⟩

/-- Witness of `settings_after_init`: unset tunables keep 64 and 500; the values `abc` and
`fast` give 0 and 0; the values `128` and `4294967297` give 128 and 1 (the low 32 bits). -/
theorem settings_after_init_witness :
    (launched_env.budget_str = none ∧ launched_env.fallback_str = none ∧
      garbled_env.budget_str = some "abc" ∧ atoi_digits "abc" = [] ∧
      garbled_env.fallback_str = some "fast" ∧ atoi_digits "fast" = [] ∧
      tuned_env.budget_str = some "128" ∧ tuned_env.fallback_str = some "4294967297") ∧
    (liblh_init launched_env).g_yield_budget = 64 ∧
    (liblh_init launched_env).g_fallback_us = 500 ∧
    (liblh_init garbled_env).g_yield_budget = 0 ∧
    (liblh_init garbled_env).g_fallback_us = 0 ∧
    (liblh_init tuned_env).g_yield_budget = 128 ∧
    (liblh_init tuned_env).g_fallback_us = 1 :=
  ⟨by decide,
   (settings_after_init launched_env).1 rfl,
   (settings_after_init launched_env).2.1 rfl,
   (settings_after_init garbled_env).2.2.2.2.1 "abc" rfl (by decide),
   (settings_after_init garbled_env).2.2.2.2.2.1 "fast" rfl (by decide),
   ((settings_after_init tuned_env).2.2.1 "128" rfl).trans (by decide),
   ((settings_after_init tuned_env).2.2.2.1 "4294967297" rfl).trans (by decide)⟩

theorem cs_idx_congr (t1 t2 : Nat) (h : t1 % 4096 = t2 % 4096) : cs_idx t1 = cs_idx t2 := by
  simp [cs_idx, LH.LH_CS_SLOT_IDX, h]

/-- C24 as stated fails: threads 7 and 4103 share slot 7 of the critical-section table; after
`cs_slot_enter(7)` on an all-zero table, `is_task_in_cs` of the task with pid 4103 is true,
and the allowed thread 4103 (no waiter hint) is given the critical-section slice of
20,000,000 ns. -/
theorem aliased_cs_slot_reads_in_cs :
    ((7 : Nat) ≠ 4103 ∧ 7 % 4096 = 4103 % 4096) ∧
    (cs_slot_enter (some zero_cs_table) 7).map
        (fun ct => is_task_in_cs ct { pid := 4103, tgid := 1 }) = some true ∧
    (cs_slot_enter (some zero_cs_table) 7).map
        (fun ct => (lhandoff_enqueue { maps_idle with cs_table := ct } none true
          { pid := 4103, tgid := 1 }).1.slice) = some 20000000 := by
  decide

/-- C24 (amended). CS-slot aliasing: for all tids `t1 ≠ t2` with `t1 mod 4096 = t2 mod 4096`,
after `cs_slot_enter(t1)` on an all-zero critical-section table, `is_task_in_cs` of the task
with pid `t2` is true (the slot holds a depth only, no tid).  So a controlled thread `t2` that
has not entered a critical section is kept on its (valid) `prev_cpu` by `lhandoff_select_cpu`
and, when its waiter hint does not resolve, is given the critical-section slice of
20,000,000 ns by `lhandoff_enqueue`, because of the entry of `t1`. -/
theorem aliased_cs_slot_is_shared (t1 t2 tgid : Nat) (hne : t1 ≠ t2)
    (halias : t1 % 4096 = t2 % 4096) :
    ∃ ct, cs_slot_enter (some zero_cs_table) t1 = some ct ∧
      is_task_in_cs ct { pid := t2, tgid := tgid } = true ∧
      (∀ (m : Maps) (storage : Option task_ctx) (create_ok : Bool) (prev_cpu : Int),
        m.cs_table = ct →
        (is_task_controlled m.allowed_tgids storage create_ok { pid := t2, tgid := tgid }).1
          = true →
        ((lhandoff_select_cpu m storage create_ok { pid := t2, tgid := tgid } prev_cpu).1
            = clamp_prev_cpu m.nr_cpus prev_cpu ∧
          (get_waiter_target_cpu m.nr_cpus m.hash_salt m.waiter_table m.lock_table
              { pid := t2, tgid := tgid } < 0 →
            (lhandoff_enqueue m storage create_ok { pid := t2, tgid := tgid }).1
              = { dsq_id := SCX_DSQ_GLOBAL, slice := 20000000, enq_flags := 0 }))) := by
  have _ := hne
  have hin : is_task_in_cs
      (store zero_cs_table (cs_idx t1) { in_cs := ((zero_cs_table (cs_idx t1)).in_cs + 1) % 2 ^ 32 })
      { pid := t2, tgid := tgid } = true := by
    simp only [is_task_in_cs, cs_lookup_own_slot]
    rw [← cs_idx_congr t1 t2 halias, store_same]
    simp [zero_cs_table]
  refine ⟨_, rfl, hin, ?_⟩
  intro m storage create_ok prev_cpu hm hc
  have hin2 : is_task_in_cs m.cs_table { pid := t2, tgid := tgid } = true := by
    rw [hm]; exact hin
  have h1 : ¬ ((is_task_controlled m.allowed_tgids storage create_ok
      { pid := t2, tgid := tgid }).1 = false) := by simp [hc]
  constructor
  · rw [select_cpu_cases, if_neg h1, if_pos hin2]
  · intro hneg
    have h2 : ¬ (get_waiter_target_cpu m.nr_cpus m.hash_salt m.waiter_table m.lock_table
        { pid := t2, tgid := tgid } ≥ 0) := by omega
    rw [enqueue_cases, if_neg h1, if_neg h2, if_pos hin2]
    rfl

/-- Witness of `aliased_cs_slot_is_shared`: threads 7 and 4103. -/
theorem aliased_cs_slot_is_shared_witness :
    ((7 : Nat) ≠ 4103 ∧ 7 % 4096 = 4103 % 4096) ∧
    ∃ ct, cs_slot_enter (some zero_cs_table) 7 = some ct ∧
      is_task_in_cs ct { pid := 4103, tgid := 1 } = true ∧
      (∀ (m : Maps) (storage : Option task_ctx) (create_ok : Bool) (prev_cpu : Int),
        m.cs_table = ct →
        (is_task_controlled m.allowed_tgids storage create_ok { pid := 4103, tgid := 1 }).1
          = true →
        ((lhandoff_select_cpu m storage create_ok { pid := 4103, tgid := 1 } prev_cpu).1
            = clamp_prev_cpu m.nr_cpus prev_cpu ∧
          (get_waiter_target_cpu m.nr_cpus m.hash_salt m.waiter_table m.lock_table
              { pid := 4103, tgid := 1 } < 0 →
            (lhandoff_enqueue m storage create_ok { pid := 4103, tgid := 1 }).1
              = { dsq_id := SCX_DSQ_GLOBAL, slice := 20000000, enq_flags := 0 }))) :=
  ⟨by decide, aliased_cs_slot_is_shared 7 4103 1 (by decide) (by decide)⟩

theorem spin_phase_all_fail_calls (env : Env) (mutex : Nat)
    (hfail : ∀ n, env.trylock_ret n ≠ 0) :
    ∀ (n : Nat) (s : Shim),
      (spin_phase env mutex n s).2.trace.length = s.trace.length + n ∧
      (spin_phase env mutex n s).2.trylock_calls = s.trylock_calls + n := by
  intro n
  induction n with
  | zero => intro s; exact ⟨rfl, rfl⟩
  | succ n ih =>
    intro s
    have hs : spin_phase env mutex (n + 1) s
        = spin_phase env mutex n (call_real_trylock env s).2 := by
      have h := hfail s.trylock_calls
      simp [spin_phase, call_real_trylock, h]
    rw [hs]
    obtain ⟨h1, h2⟩ := ih (call_real_trylock env s).2
    rw [h1, h2]
    simp [call_real_trylock]
    omega

theorem yield_wait_entry_facts (env : Env) (st : Shim) (mutex : Nat)
    (hfail : ∀ n, env.trylock_ret n ≠ 0) :
    (yield_wait_entry env st mutex).trace.length = st.trace.length + 1 + SPIN_TRIES ∧
    (yield_wait_entry env st mutex).trylock_calls = st.trylock_calls + 1 + SPIN_TRIES ∧
    (yield_wait_entry env st mutex).clock_reads = st.clock_reads + 1 := by
  obtain ⟨h1, h2⟩ := spin_phase_all_fail_calls env mutex hfail SPIN_TRIES (spin_entry env st)
  obtain ⟨_, h3, _, _, _⟩ := spin_phase_all_fail env mutex hfail SPIN_TRIES (spin_entry env st)
  refine ⟨?_, ?_, ?_⟩
  · show (spin_phase env mutex SPIN_TRIES (spin_entry env st)).2.trace.length = _
    rw [h1]
    simp [spin_entry, get_time_ns, call_real_trylock]
  · show (spin_phase env mutex SPIN_TRIES (spin_entry env st)).2.trylock_calls = _
    rw [h2]
    simp [spin_entry, get_time_ns, call_real_trylock]
  · show (spin_phase env mutex SPIN_TRIES (spin_entry env st)).2.clock_reads = _
    rw [h3]
    simp [spin_entry, get_time_ns, call_real_trylock]

/-- C25 as stated fails when the spin phase is slow: on a clock that advances 6 us per
outside call, the clock values the call reads are the wall-clock times of the states in which
it reads them; at the first degradation check only 12 us have passed since the yield loop was
entered (and 1 yield of 64 has been used), yet the call falls back to the blocking lock right
there, after a single yield: the 600 us of the spin phase are counted. -/
theorem spin_time_counts_toward_threshold :
    (env_slow_spin.time_ns 0 = wall_time 6000 (call_real_trylock env_slow_spin ready_shim).2 ∧
      env_slow_spin.time_ns 1
        = wall_time 6000
            (failed_round env_slow_spin lock_a
              (yield_wait_entry env_slow_spin ready_shim lock_a))) ∧
    (wall_time 6000
          (failed_round env_slow_spin lock_a (yield_wait_entry env_slow_spin ready_shim lock_a))
        - wall_time 6000 (yield_wait_entry env_slow_spin ready_shim lock_a)) / 1000 = 12 ∧
    ready_shim.g_fallback_us = 500 ∧ ready_shim.g_yield_budget = 64 ∧
    ∃ st1, pthread_mutex_lock 64 env_slow_spin ready_shim lock_a = some (0, st1) ∧
      count_yields st1.trace = 1 ∧
      st1.trace.getLast? = some (Event.real_lock 0) := by
  have hfail : ∀ n, env_slow_spin.trylock_ret n ≠ 0 := by
    intro n; simp [env_slow_spin]
  obtain ⟨hlen, _, _⟩ := yield_wait_entry_facts env_slow_spin ready_shim lock_a hfail
  have hlen1 : (yield_wait_entry env_slow_spin ready_shim lock_a).trace.length = 101 := by
    rw [hlen]; rfl
  have hlen2 : (failed_round env_slow_spin lock_a
      (yield_wait_entry env_slow_spin ready_shim lock_a)).trace.length = 103 := by
    rw [(failed_round_facts env_slow_spin lock_a _).2.2.2]
    simp [hlen1]
  have hdeg : lock_degrades_at env_slow_spin ready_shim 1 := by
    unfold lock_degrades_at
    right; decide
  obtain ⟨st1, he, hc, hlast⟩ := lock_all_fail 64 env_slow_spin ready_shim lock_a
    rfl rfl rfl hfail 1 (by decide) (by decide) hdeg (by intro j h1 h2; omega)
  refine ⟨⟨by decide, ?_⟩, ?_, rfl, rfl, st1, he, ?_, hlast⟩
  · simp only [wall_time, hlen2]
    decide
  · simp only [wall_time, hlen1, hlen2]
  · rw [hc]; rfl

theorem on_lock_acquired_ticks (env : Env) (s : Shim) (mutex : Nat) :
    ∃ tail, ticks (on_lock_acquired env s mutex).log = ticks s.log ++ tail ∧
      ∀ t ∈ tail, ∃ v, t = Tick.clock v := by
  unfold on_lock_acquired
  cases h : s.g_lock_table with
  | none => exact ⟨[], by simp [h], by simp⟩
  | some lt =>
    refine ⟨[Tick.clock (env.time_ns s.clock_reads % 2 ^ 64)],
      by simp [h, get_time_ns, ticks, tick_of], ?_⟩
    intro t ht
    exact ⟨_, List.mem_singleton.mp ht⟩

theorem spin_phase_all_fail_ticks (env : Env) (mutex : Nat)
    (hfail : ∀ n, env.trylock_ret n ≠ 0) :
    ∀ (n : Nat) (s : Shim),
      ticks (spin_phase env mutex n s).2.log
        = ticks s.log ++ spin_ticks env s.trylock_calls n := by
  intro n
  induction n with
  | zero => intro s; simp [spin_phase, spin_ticks]
  | succ n ih =>
    intro s
    have hs : spin_phase env mutex (n + 1) s
        = spin_phase env mutex n (call_real_trylock env s).2 := by
      have h := hfail s.trylock_calls
      simp [spin_phase, call_real_trylock, h]
    rw [hs, ih]
    simp [call_real_trylock, ticks, tick_of, spin_ticks]

theorem failed_round_ticks (env : Env) (mutex : Nat) (s : Shim) :
    ticks (failed_round env mutex s).log
      = ticks s.log ++ [Tick.call Event.sched_yield,
          Tick.call (Event.real_trylock (env.trylock_ret s.trylock_calls)),
          Tick.clock (env.time_ns s.clock_reads % 2 ^ 64)] ∧
    (failed_round env mutex s).trylock_calls = s.trylock_calls + 1 := by
  simp [failed_round, get_time_ns, call_real_trylock, call_sched_yield, ticks, tick_of]

theorem blocking_fallback_ticks (env : Env) (mutex : Nat) (s : Shim) :
    ∃ tail, ticks (blocking_fallback env mutex s).2.log
        = ticks s.log ++ Tick.call (Event.real_lock env.lock_ret) :: tail ∧
      ∀ t ∈ tail, ∃ v, t = Tick.clock v := by
  unfold blocking_fallback
  by_cases hl : env.lock_ret = 0
  · simp only [if_pos hl]
    obtain ⟨tail, he, hn⟩ := on_lock_acquired_ticks env
      (call_real_lock env
        { s with g_waiter_table := waiter_slot_clear s.g_waiter_table env.tid }).2 mutex
    exact ⟨tail, by rw [he]; simp [call_real_lock, ticks, tick_of], hn⟩
  · simp only [if_neg hl]
    exact ⟨[], by simp [call_real_lock, ticks, tick_of], by simp⟩

theorem yield_phase_all_fail_ticks (env : Env) (mutex start_ns : Nat)
    (hfail : ∀ n, env.trylock_ret n ≠ 0) :
    ∀ (m fuel : Nat) (y : Int) (s : Shim), m + 1 ≤ fuel →
      degrade_check env start_ns y s m →
      (∀ i, i < m → ¬ degrade_check env start_ns y s i) →
      ∃ s1 tail, yield_phase env mutex start_ns fuel y s = some (env.lock_ret, s1) ∧
        ticks s1.log = ticks s.log ++ (yield_ticks env s.trylock_calls s.clock_reads (m + 1) ++
          Tick.call (Event.real_lock env.lock_ret) :: tail) ∧
        ∀ t ∈ tail, ∃ v, t = Tick.clock v := by
  intro m
  induction m with
  | zero =>
    intro fuel y s hfuel hc _
    obtain ⟨f, rfl⟩ : ∃ f, fuel = f + 1 := ⟨fuel - 1, by omega⟩
    rw [yield_phase_fail env mutex start_ns f y s (hfail _)]
    have hc0 : y + 1 ≥ s.g_yield_budget ∨
        elapsed_us env start_ns s.clock_reads ≥ u64_of_int s.g_fallback_us := by
      simpa [degrade_check] using hc
    rw [if_pos hc0]
    obtain ⟨hr, _⟩ := blocking_fallback_facts env mutex (failed_round env mutex s)
    obtain ⟨tail, ht, hn⟩ := blocking_fallback_ticks env mutex (failed_round env mutex s)
    refine ⟨(blocking_fallback env mutex (failed_round env mutex s)).2, tail, ?_, ?_, hn⟩
    · rw [← hr]
    · rw [ht, (failed_round_ticks env mutex s).1]
      simp [yield_ticks]
  | succ m ih =>
    intro fuel y s hfuel hc hnc
    obtain ⟨f, rfl⟩ : ∃ f, fuel = f + 1 := ⟨fuel - 1, by omega⟩
    rw [yield_phase_fail env mutex start_ns f y s (hfail _)]
    have hc0 : ¬ (y + 1 ≥ s.g_yield_budget ∨
        elapsed_us env start_ns s.clock_reads ≥ u64_of_int s.g_fallback_us) := by
      simpa [degrade_check] using hnc 0 (by omega)
    rw [if_neg hc0]
    obtain ⟨hclk, hbud, hfb, _⟩ := failed_round_facts env mutex s
    obtain ⟨hft, htc⟩ := failed_round_ticks env mutex s
    have hshift : ∀ i, degrade_check env start_ns (y + 1) (failed_round env mutex s) i
        ↔ degrade_check env start_ns y s (i + 1) := by
      intro i
      simp only [degrade_check, hclk, hbud, hfb]
      have e1 : s.clock_reads + 1 + i = s.clock_reads + (i + 1) := by omega
      have e2 : y + 1 + ((i : Int) + 1) = y + (((i + 1 : Nat) : Int) + 1) := by
        push_cast; ring
      rw [e1, e2]
    obtain ⟨s1, tail, he, ht, hn⟩ := ih f (y + 1) (failed_round env mutex s) (by omega)
      ((hshift m).mpr hc) (fun i hi => fun h => hnc (i + 1) (by omega) ((hshift i).mp h))
    refine ⟨s1, tail, he, ?_, hn⟩
    rw [ht, hft, htc, hclk]
    simp [yield_ticks]

theorem lock_all_fail_ticks (fuel : Nat) (env : Env) (st : Shim) (mutex : Nat)
    (k : Nat)
    (hinit : st.g_initialized = true) (hen : st.g_enabled = true)
    (hl : st.real_pthread_mutex_lock = true)
    (hfail : ∀ n, env.trylock_ret n ≠ 0)
    (hk1 : 1 ≤ k) (hkf : k ≤ fuel)
    (hdeg : (k : Int) ≥ st.g_yield_budget ∨
      ((env.time_ns (st.clock_reads + k) % 2 ^ 64 + 2 ^ 64 - env.time_ns st.clock_reads % 2 ^ 64)
        % 2 ^ 64) / 1000 ≥ u64_of_int st.g_fallback_us)
    (hnot : ∀ j, 1 ≤ j → j < k →
      ¬ ((j : Int) ≥ st.g_yield_budget ∨
        ((env.time_ns (st.clock_reads + j) % 2 ^ 64 + 2 ^ 64
            - env.time_ns st.clock_reads % 2 ^ 64) % 2 ^ 64) / 1000
          ≥ u64_of_int st.g_fallback_us)) :
    ∃ st1 tail, pthread_mutex_lock fuel env st mutex = some (env.lock_ret, st1) ∧
      ticks st1.log = ticks st.log ++
        (Tick.call (Event.real_trylock (env.trylock_ret st.trylock_calls)) ::
          Tick.clock (env.time_ns st.clock_reads % 2 ^ 64) ::
          (spin_ticks env (st.trylock_calls + 1) 100 ++
            (yield_ticks env (st.trylock_calls + 1 + 100) (st.clock_reads + 1) k ++
              Tick.call (Event.real_lock env.lock_ret) :: tail))) ∧
      (∀ t ∈ tail, ∃ v, t = Tick.clock v) := by
  rw [lock_contended fuel env st mutex hinit hen hl (hfail _)]
  obtain ⟨hb, hclk, hbud, hfb, _⟩ :=
    spin_phase_all_fail env mutex hfail SPIN_TRIES (spin_entry env st)
  obtain ⟨_, htc, _⟩ := yield_wait_entry_facts env st mutex hfail
  have hspin := spin_phase_all_fail_ticks env mutex hfail SPIN_TRIES (spin_entry env st)
  rw [if_neg (by simp [hb])]
  have hentry : ticks (publish_waiter env mutex
      (spin_phase env mutex SPIN_TRIES (spin_entry env st)).2).log
      = ticks st.log ++
        (Tick.call (Event.real_trylock (env.trylock_ret st.trylock_calls)) ::
          Tick.clock (env.time_ns st.clock_reads % 2 ^ 64) ::
          spin_ticks env (st.trylock_calls + 1) 100) := by
    show ticks (spin_phase env mutex SPIN_TRIES (spin_entry env st)).2.log = _
    rw [hspin]
    simp [spin_entry, get_time_ns, call_real_trylock, ticks, tick_of, SPIN_TRIES]
  have htc2 : (publish_waiter env mutex
      (spin_phase env mutex SPIN_TRIES (spin_entry env st)).2).trylock_calls
      = st.trylock_calls + 1 + 100 := htc
  have hclk2 : (publish_waiter env mutex
      (spin_phase env mutex SPIN_TRIES (spin_entry env st)).2).clock_reads
      = st.clock_reads + 1 := by
    show (spin_phase env mutex SPIN_TRIES (spin_entry env st)).2.clock_reads = _
    rw [hclk]
    rfl
  have hbud2 : (publish_waiter env mutex
      (spin_phase env mutex SPIN_TRIES (spin_entry env st)).2).g_yield_budget
      = st.g_yield_budget := by
    show (spin_phase env mutex SPIN_TRIES (spin_entry env st)).2.g_yield_budget = _
    rw [hbud]
    rfl
  have hfb2 : (publish_waiter env mutex
      (spin_phase env mutex SPIN_TRIES (spin_entry env st)).2).g_fallback_us
      = st.g_fallback_us := by
    show (spin_phase env mutex SPIN_TRIES (spin_entry env st)).2.g_fallback_us = _
    rw [hfb]
    rfl
  generalize publish_waiter env mutex
    (spin_phase env mutex SPIN_TRIES (spin_entry env st)).2 = s4 at hentry htc2 hclk2 hbud2 hfb2 ⊢
  have hshift : ∀ i, degrade_check env (env.time_ns st.clock_reads % 2 ^ 64) 0 s4 i ↔
      ((i + 1 : Nat) : Int) ≥ st.g_yield_budget ∨
        ((env.time_ns (st.clock_reads + (i + 1)) % 2 ^ 64 + 2 ^ 64
            - env.time_ns st.clock_reads % 2 ^ 64) % 2 ^ 64) / 1000
          ≥ u64_of_int st.g_fallback_us := by
    intro i
    simp only [degrade_check, elapsed_us, hclk2, hbud2, hfb2]
    have e1 : st.clock_reads + 1 + i = st.clock_reads + (i + 1) := by omega
    have e2 : (0 : Int) + ((i : Int) + 1) = ((i + 1 : Nat) : Int) := by push_cast; ring
    rw [e1, e2]
  obtain ⟨m, rfl⟩ : ∃ m, k = m + 1 := ⟨k - 1, by omega⟩
  obtain ⟨s1, tail, he, ht, hn⟩ := yield_phase_all_fail_ticks env mutex
    (env.time_ns st.clock_reads % 2 ^ 64) hfail m fuel 0 s4 hkf
    ((hshift m).mpr hdeg)
    (fun i hi h => hnot (i + 1) (by omega) (by omega) ((hshift i).mp h))
  refine ⟨s1, tail, he, ?_, hn⟩
  rw [ht, hentry, htc2, hclk2]
  simp

/-- C25 (amended). Fallback clock origin (shim initialised and enabled, every wrapped
`trylock` failing, `k ≥ 1` the first retry at which `k ≥ yield_budget` or the elapsed time is
at least the threshold).  The elapsed time of retry `j` is the clock value read in round `j`
of the yield loop minus the first clock value the call reads, in `u64` arithmetic, divided by
1000.  `pthread_mutex_lock` returns the code of the wrapped blocking lock, and what it does
is, in this order: the failed fast-path `trylock`; the reading of that first clock value; the
100 `trylock` calls of the spin phase; `k` rounds of yield, `trylock` and clock reading; the
wrapped blocking lock (followed by clock readings only).  So the origin of the elapsed time
is read before the spin phase, and the time spent in the spin phase counts toward the
threshold. -/
theorem fallback_clock_starts_before_spin (fuel : Nat) (env : Env) (st : Shim) (mutex : Nat)
    (k : Nat)
    (hinit : st.g_initialized = true) (hen : st.g_enabled = true)
    (hl : st.real_pthread_mutex_lock = true)
    (hfail : ∀ n, env.trylock_ret n ≠ 0)
    (hk1 : 1 ≤ k) (hkf : k ≤ fuel)
    (hdeg : (k : Int) ≥ st.g_yield_budget ∨
      ((env.time_ns (st.clock_reads + k) % 2 ^ 64 + 2 ^ 64 - env.time_ns st.clock_reads % 2 ^ 64)
        % 2 ^ 64) / 1000 ≥ u64_of_int st.g_fallback_us)
    (hnot : ∀ j, 1 ≤ j → j < k →
      ¬ ((j : Int) ≥ st.g_yield_budget ∨
        ((env.time_ns (st.clock_reads + j) % 2 ^ 64 + 2 ^ 64
            - env.time_ns st.clock_reads % 2 ^ 64) % 2 ^ 64) / 1000
          ≥ u64_of_int st.g_fallback_us)) :
    ∃ st1 tail, pthread_mutex_lock fuel env st mutex = some (env.lock_ret, st1) ∧
      ticks st1.log = ticks st.log ++
        (Tick.call (Event.real_trylock (env.trylock_ret st.trylock_calls)) ::
          Tick.clock (env.time_ns st.clock_reads % 2 ^ 64) ::
          (spin_ticks env (st.trylock_calls + 1) 100 ++
            (yield_ticks env (st.trylock_calls + 1 + 100) (st.clock_reads + 1) k ++
              Tick.call (Event.real_lock env.lock_ret) :: tail))) ∧
      (∀ t ∈ tail, ∃ v, t = Tick.clock v) :=
  lock_all_fail_ticks fuel env st mutex k hinit hen hl hfail hk1 hkf hdeg hnot

/-- Witness of `fallback_clock_starts_before_spin`: on the clock of `env_slow_spin` the first
value read is 6000 ns and the value read in round 1 is 618000 ns, so the elapsed time of
retry 1 is 612 us and the call falls back after one round; the value 6000 is read between the
fast-path `trylock` and the 100 `trylock` calls of the spin phase. -/
theorem fallback_clock_starts_before_spin_witness :
    (ready_shim.g_initialized = true ∧ ready_shim.g_enabled = true ∧
      ready_shim.real_pthread_mutex_lock = true ∧
      (∀ n, env_slow_spin.trylock_ret n ≠ 0) ∧
      ((env_slow_spin.time_ns (ready_shim.clock_reads + 1) % 2 ^ 64 + 2 ^ 64
          - env_slow_spin.time_ns ready_shim.clock_reads % 2 ^ 64) % 2 ^ 64) / 1000 = 612 ∧
      u64_of_int ready_shim.g_fallback_us = 500) ∧
    ∃ st1 tail, pthread_mutex_lock 64 env_slow_spin ready_shim lock_a = some (0, st1) ∧
      ticks st1.log =
        Tick.call (Event.real_trylock 16) :: Tick.clock 6000 ::
          (spin_ticks env_slow_spin 1 100 ++
            [Tick.call Event.sched_yield, Tick.call (Event.real_trylock 16),
              Tick.clock 618000, Tick.call (Event.real_lock 0)] ++ tail) ∧
      (∀ t ∈ tail, ∃ v, t = Tick.clock v) := by
  have hfail : ∀ n, env_slow_spin.trylock_ret n ≠ 0 := by
    intro n; simp [env_slow_spin]
  obtain ⟨st1, tail, he, ht, hn⟩ :=
    fallback_clock_starts_before_spin 64 env_slow_spin ready_shim lock_a 1 rfl rfl rfl
      hfail (by decide) (by decide) (Or.inr (by decide)) (by intro j h1 h2; omega)
  refine ⟨⟨rfl, rfl, rfl, hfail, by decide, by decide⟩, st1, tail, he, ?_, hn⟩
  rw [ht]
  simp [ready_shim, ticks, yield_ticks, env_slow_spin]

theorem waiter_flags_clear (s : Shim) (tid : Nat) (h : s.g_waiter_table.isSome = true) :
    waiter_flags { s with g_waiter_table := waiter_slot_clear s.g_waiter_table tid } tid
      = some LH_WAITER_INACTIVE := by
  cases hw : s.g_waiter_table with
  | none => simp [hw] at h
  | some wt => simp [waiter_flags, waiter_slot_clear, store_same]

theorem waiter_flags_acquired (env : Env) (s : Shim) (mutex : Nat) :
    waiter_flags (on_lock_acquired env s mutex) env.tid = waiter_flags s env.tid := by
  simp [waiter_flags, on_lock_acquired_waiter]

theorem spin_phase_waiter (env : Env) (mutex : Nat) :
    ∀ (n : Nat) (s : Shim), (spin_phase env mutex n s).2.g_waiter_table = s.g_waiter_table := by
  intro n
  induction n with
  | zero => intro s; rfl
  | succ n ih =>
    intro s
    by_cases h : env.trylock_ret s.trylock_calls = 0
    · have hs : spin_phase env mutex (n + 1) s
          = (true, on_lock_acquired env (call_real_trylock env s).2 mutex) := by
        simp [spin_phase, call_real_trylock, h]
      rw [hs]
      show (on_lock_acquired env (call_real_trylock env s).2 mutex).g_waiter_table = _
      rw [on_lock_acquired_waiter]
      rfl
    · have hs : spin_phase env mutex (n + 1) s
          = spin_phase env mutex n (call_real_trylock env s).2 := by
        simp [spin_phase, call_real_trylock, h]
      rw [hs, ih]
      rfl

theorem failed_round_waiter_mapped (env : Env) (mutex : Nat) (s : Shim)
    (h : s.g_waiter_table.isSome = true) :
    (failed_round env mutex s).g_waiter_table.isSome = true := by
  cases hw : s.g_waiter_table with
  | none => simp [hw] at h
  | some wt =>
    simp [failed_round, get_time_ns, call_real_trylock, call_sched_yield, waiter_refresh, hw]

theorem no_lock_clock (v : Nat) : NoLock (Obs.clock v) := by
  intro ret mem h
  cases h

theorem no_lock_trylock (r : Int) (m : Shared) : NoLock (Obs.call (Event.real_trylock r) m) := by
  intro ret mem h
  cases h

theorem no_lock_yield (m : Shared) : NoLock (Obs.call Event.sched_yield m) := by
  intro ret mem h
  cases h

theorem on_lock_acquired_log (env : Env) (s : Shim) (mutex : Nat) :
    ∃ extra, (on_lock_acquired env s mutex).log = s.log ++ extra ∧ ∀ o ∈ extra, NoLock o := by
  unfold on_lock_acquired
  cases h : s.g_lock_table with
  | none => exact ⟨[], by simp [h], by simp⟩
  | some lt =>
    refine ⟨[Obs.clock (env.time_ns s.clock_reads % 2 ^ 64)], by simp [h, get_time_ns], ?_⟩
    intro o ho
    rw [List.mem_singleton] at ho
    rw [ho]
    exact no_lock_clock _

theorem spin_phase_log (env : Env) (mutex : Nat) :
    ∀ (n : Nat) (s : Shim),
      ∃ extra, (spin_phase env mutex n s).2.log = s.log ++ extra ∧ ∀ o ∈ extra, NoLock o := by
  intro n
  induction n with
  | zero => intro s; exact ⟨[], by simp [spin_phase], by simp⟩
  | succ n ih =>
    intro s
    have hlog1 : (call_real_trylock env s).2.log
        = s.log ++ [Obs.call (Event.real_trylock (env.trylock_ret s.trylock_calls))
            (shared_of s)] := rfl
    by_cases h : env.trylock_ret s.trylock_calls = 0
    · have hs : spin_phase env mutex (n + 1) s
          = (true, on_lock_acquired env (call_real_trylock env s).2 mutex) := by
        simp [spin_phase, call_real_trylock, h]
      obtain ⟨extra, he, hn⟩ := on_lock_acquired_log env (call_real_trylock env s).2 mutex
      rw [hs]
      refine ⟨_ :: extra, by rw [he, hlog1, List.append_assoc]; rfl, ?_⟩
      intro o ho
      rcases List.mem_cons.mp ho with ho | ho
      · rw [ho]; exact no_lock_trylock _ _
      · exact hn o ho
    · have hs : spin_phase env mutex (n + 1) s
          = spin_phase env mutex n (call_real_trylock env s).2 := by
        simp [spin_phase, call_real_trylock, h]
      obtain ⟨extra, he, hn⟩ := ih (call_real_trylock env s).2
      rw [hs]
      refine ⟨_ :: extra, by rw [he, hlog1, List.append_assoc]; rfl, ?_⟩
      intro o ho
      rcases List.mem_cons.mp ho with ho | ho
      · rw [ho]; exact no_lock_trylock _ _
      · exact hn o ho

theorem failed_round_log (env : Env) (mutex : Nat) (s : Shim) :
    (failed_round env mutex s).log
      = s.log ++ [Obs.call Event.sched_yield (shared_of s),
          Obs.call (Event.real_trylock (env.trylock_ret s.trylock_calls)) (shared_of s),
          Obs.clock (env.time_ns s.clock_reads % 2 ^ 64)] := by
  simp [failed_round, get_time_ns, call_real_trylock, call_sched_yield, shared_of]

theorem blocking_fallback_log (env : Env) (mutex : Nat) (s : Shim)
    (h : s.g_waiter_table.isSome = true) :
    ∃ mem extra, (blocking_fallback env mutex s).2.log
        = s.log ++ Obs.call (Event.real_lock (blocking_fallback env mutex s).1) mem :: extra ∧
      mem_flags mem env.tid = some LH_WAITER_INACTIVE ∧ (∀ o ∈ extra, NoLock o) ∧
      waiter_flags (blocking_fallback env mutex s).2 env.tid = some LH_WAITER_INACTIVE := by
  have hc := waiter_flags_clear s env.tid h
  unfold blocking_fallback
  by_cases hl : env.lock_ret = 0
  · simp only [if_pos hl]
    obtain ⟨extra, he, hn⟩ := on_lock_acquired_log env
      (call_real_lock env
        { s with g_waiter_table := waiter_slot_clear s.g_waiter_table env.tid }).2 mutex
    refine ⟨shared_of { s with g_waiter_table := waiter_slot_clear s.g_waiter_table env.tid },
      extra, by rw [he]; simp [call_real_lock], hc, hn, ?_⟩
    rw [waiter_flags_acquired]
    exact hc
  · simp only [if_neg hl]
    exact ⟨shared_of { s with g_waiter_table := waiter_slot_clear s.g_waiter_table env.tid },
      [], rfl, hc, by simp, hc⟩

theorem yield_phase_hint (env : Env) (mutex start_ns : Nat) :
    ∀ (fuel : Nat) (y : Int) (s : Shim) (r : Int × Shim),
      s.g_waiter_table.isSome = true →
      yield_phase env mutex start_ns fuel y s = some r →
      waiter_flags r.2 env.tid = some LH_WAITER_INACTIVE ∧
      ∃ rest, r.2.log = s.log ++ Obs.call Event.sched_yield (shared_of s) :: rest ∧
        LockHintFree env.tid rest ∧
        ((r.1 = 0 ∧ ∀ o ∈ rest, NoLock o) ∨
          ∃ mem, Obs.call (Event.real_lock r.1) mem ∈ rest) := by
  intro fuel
  induction fuel with
  | zero => intro y s r _ h; simp [yield_phase] at h
  | succ fuel ih =>
    intro y s r hw h
    by_cases ht : env.trylock_ret s.trylock_calls = 0
    · have hs : yield_phase env mutex start_ns (fuel + 1) y s
          = some (0, on_lock_acquired env
              { (call_real_trylock env (call_sched_yield s)).2 with
                g_waiter_table :=
                  waiter_slot_clear (call_real_trylock env (call_sched_yield s)).2.g_waiter_table
                    env.tid } mutex) := by
        rw [yield_phase]
        simp only [call_real_trylock] at ht ⊢
        simp [ht, call_sched_yield]
      rw [hs] at h
      have hr := (Option.some.inj h).symm
      have hc := waiter_flags_clear (call_real_trylock env (call_sched_yield s)).2 env.tid hw
      obtain ⟨extra, he, hn⟩ := on_lock_acquired_log env
        { (call_real_trylock env (call_sched_yield s)).2 with
          g_waiter_table :=
            waiter_slot_clear (call_real_trylock env (call_sched_yield s)).2.g_waiter_table
              env.tid } mutex
      subst hr
      have hall : ∀ o ∈ Obs.call (Event.real_trylock (env.trylock_ret s.trylock_calls))
          (shared_of (call_sched_yield s)) :: extra, NoLock o := by
        intro o ho
        rcases List.mem_cons.mp ho with ho | ho
        · rw [ho]; exact no_lock_trylock _ _
        · exact hn o ho
      refine ⟨?_, Obs.call (Event.real_trylock (env.trylock_ret s.trylock_calls))
          (shared_of (call_sched_yield s)) :: extra, ?_, ?_, Or.inl ⟨rfl, hall⟩⟩
      · show waiter_flags (on_lock_acquired env _ mutex) env.tid = _
        rw [waiter_flags_acquired]
        exact hc
      · show (on_lock_acquired env _ mutex).log = _
        rw [he]
        simp [call_real_trylock, call_sched_yield]
      · intro ret mem hm
        exact absurd rfl (hall _ hm ret mem)
    · rw [yield_phase_fail env mutex start_ns fuel y s ht] at h
      have hw2 := failed_round_waiter_mapped env mutex s hw
      have hfl := failed_round_log env mutex s
      by_cases hc : y + 1 ≥ s.g_yield_budget ∨
          elapsed_us env start_ns s.clock_reads ≥ u64_of_int s.g_fallback_us
      · rw [if_pos hc] at h
        have hr := (Option.some.inj h).symm
        subst hr
        obtain ⟨mem, extra, hlog, hmem, hn, hfin⟩ :=
          blocking_fallback_log env mutex (failed_round env mutex s) hw2
        refine ⟨hfin,
          Obs.call (Event.real_trylock (env.trylock_ret s.trylock_calls)) (shared_of s) ::
            Obs.clock (env.time_ns s.clock_reads % 2 ^ 64) ::
            Obs.call (Event.real_lock (blocking_fallback env mutex
              (failed_round env mutex s)).1) mem :: extra,
          by rw [hlog, hfl]; simp, ?_, Or.inr ⟨mem, by simp⟩⟩
        intro ret m hm
        simp only [List.mem_cons] at hm
        rcases hm with hm | hm | hm | hm
        · cases hm
        · cases hm
        · cases hm
          exact hmem
        · exact absurd rfl (hn _ hm ret m)
      · rw [if_neg hc] at h
        obtain ⟨hfin, rest, hlog, hfree, hpath⟩ := ih (y + 1) (failed_round env mutex s) r hw2 h
        refine ⟨hfin,
          Obs.call (Event.real_trylock (env.trylock_ret s.trylock_calls)) (shared_of s) ::
            Obs.clock (env.time_ns s.clock_reads % 2 ^ 64) ::
            Obs.call Event.sched_yield (shared_of (failed_round env mutex s)) :: rest,
          by rw [hlog, hfl]; simp, ?_, ?_⟩
        · intro ret m hm
          simp only [List.mem_cons] at hm
          rcases hm with hm | hm | hm | hm
          · cases hm
          · cases hm
          · cases hm
          · exact hfree ret m hm
        · rcases hpath with ⟨h0, hno⟩ | ⟨mem, hmem⟩
          · left
            refine ⟨h0, ?_⟩
            intro o ho
            simp only [List.mem_cons] at ho
            rcases ho with ho | ho | ho | ho
            · rw [ho]; exact no_lock_trylock _ _
            · rw [ho]; exact no_lock_clock _
            · rw [ho]; exact no_lock_yield _
            · exact hno o ho
          · right
            exact ⟨mem, by simp [hmem]⟩

/-- C26. Waiter hint never outlives the wait (shim initialised and enabled, waiter table
mapped, enough fuel for the yield budget): when the fast path and the spin phase of
`pthread_mutex_lock` have failed, the call returns, and in the log of what it did: a
`sched_yield()` is made while the caller's waiter slot is active in the shared memory (the
hint was published); every call of the wrapped blocking lock is made while the caller's slot
is inactive in the shared memory; and either the function returns 0 without any call of the
wrapped blocking lock (success while yielding), or the wrapped blocking lock is called and
its code returned (blocking fallback).  In the state the function returns, the caller's slot
is inactive. -/
theorem waiter_hint_cleared_before_return (fuel : Nat) (env : Env) (st : Shim) (mutex : Nat)
    (hinit : st.g_initialized = true) (hen : st.g_enabled = true)
    (hl : st.real_pthread_mutex_lock = true)
    (hwt : st.g_waiter_table.isSome = true)
    (hf1 : 1 ≤ fuel) (hf : st.g_yield_budget ≤ (fuel : Int))
    (hfirst : env.trylock_ret st.trylock_calls ≠ 0)
    (hspin : (spin_phase env mutex SPIN_TRIES (spin_entry env st)).1 = false) :
    ∃ r new, pthread_mutex_lock fuel env st mutex = some r ∧
      r.2.log = st.log ++ new ∧
      (∃ mem, Obs.call Event.sched_yield mem ∈ new ∧
        mem_flags mem env.tid = some LH_WAITER_ACTIVE) ∧
      (∀ ret mem, Obs.call (Event.real_lock ret) mem ∈ new →
        mem_flags mem env.tid = some LH_WAITER_INACTIVE) ∧
      ((r.1 = 0 ∧ ∀ ret mem, Obs.call (Event.real_lock ret) mem ∉ new) ∨
        ∃ mem, Obs.call (Event.real_lock r.1) mem ∈ new) ∧
      waiter_flags r.2 env.tid = some LH_WAITER_INACTIVE := by
  have hsw : (spin_phase env mutex SPIN_TRIES (spin_entry env st)).2.g_waiter_table
      = st.g_waiter_table := by
    rw [spin_phase_waiter]
    rfl
  obtain ⟨ret, st1, he, _⟩ := lock_outcome fuel env st mutex hinit hen hl hf1 hf
  have hy := he
  rw [lock_contended fuel env st mutex hinit hen hl hfirst, if_neg (by simp [hspin])] at hy
  obtain ⟨extra, hspinlog, hspinno⟩ :=
    spin_phase_log env mutex SPIN_TRIES (spin_entry env st)
  have hentrylog : (spin_entry env st).log
      = st.log ++ [Obs.call (Event.real_trylock (env.trylock_ret st.trylock_calls))
          (shared_of st), Obs.clock (env.time_ns st.clock_reads % 2 ^ 64)] := by
    simp [spin_entry, get_time_ns, call_real_trylock]
  cases hw : st.g_waiter_table with
  | none => simp [hw] at hwt
  | some wt =>
    have hentry : (publish_waiter env mutex
        (spin_phase env mutex SPIN_TRIES (spin_entry env st)).2).g_waiter_table.isSome
          = true := by
      simp [publish_waiter, hsw, hw, waiter_slot_set]
    have hactive : mem_flags (shared_of (publish_waiter env mutex
        (spin_phase env mutex SPIN_TRIES (spin_entry env st)).2)) env.tid
          = some LH_WAITER_ACTIVE := by
      simp [mem_flags, shared_of, publish_waiter, hsw, hw, waiter_slot_set, store_same]
    obtain ⟨hfin, rest, hlog, hfree, hpath⟩ :=
      yield_phase_hint env mutex _ fuel 0 _ (ret, st1) hentry hy
    have hpre : ∀ o ∈ Obs.call (Event.real_trylock (env.trylock_ret st.trylock_calls))
        (shared_of st) :: Obs.clock (env.time_ns st.clock_reads % 2 ^ 64) :: extra,
        NoLock o := by
      intro o ho
      simp only [List.mem_cons] at ho
      rcases ho with ho | ho | ho
      · rw [ho]; exact no_lock_trylock _ _
      · rw [ho]; exact no_lock_clock _
      · exact hspinno o ho
    refine ⟨(ret, st1),
      (Obs.call (Event.real_trylock (env.trylock_ret st.trylock_calls)) (shared_of st) ::
        Obs.clock (env.time_ns st.clock_reads % 2 ^ 64) :: extra) ++
        Obs.call Event.sched_yield (shared_of (publish_waiter env mutex
          (spin_phase env mutex SPIN_TRIES (spin_entry env st)).2)) :: rest,
      he, ?_, ⟨_, ?_, hactive⟩, ?_, ?_, hfin⟩
    · show st1.log = _
      rw [hlog]
      show (spin_phase env mutex SPIN_TRIES (spin_entry env st)).2.log ++ _ = _
      rw [hspinlog, hentrylog]
      simp only [List.append_assoc, List.cons_append, List.nil_append]
    · simp
    · intro r0 m hm
      simp only [List.mem_append, List.mem_cons] at hm
      rcases hm with hm | hm | hm
      · exact absurd rfl (hpre _ (by simpa using hm) r0 m)
      · cases hm
      · exact hfree r0 m hm
    · rcases hpath with ⟨h0, hno⟩ | ⟨mem, hmem⟩
      · left
        refine ⟨h0, ?_⟩
        intro r0 m hm
        simp only [List.mem_append, List.mem_cons] at hm
        rcases hm with hm | hm | hm
        · exact hpre _ (by simpa using hm) r0 m rfl
        · cases hm
        · exact hno _ hm r0 m rfl
      · right
        exact ⟨mem, by simp [hmem]⟩

/-- Witness of `waiter_hint_cleared_before_return`: thread 7 waits for a held mutex with the
default settings until the yield budget of 64 is used up.  The call returns the 0 of the
blocking lock; a yield was made while slot 7 was active, the blocking lock was called while
slot 7 was inactive, and slot 7 is inactive in the state returned. -/
theorem waiter_hint_cleared_before_return_witness :
    (ready_shim.g_waiter_table.isSome = true ∧
      (env_busy 1000).trylock_ret ready_shim.trylock_calls ≠ 0 ∧
      (spin_phase (env_busy 1000) lock_a SPIN_TRIES (spin_entry (env_busy 1000) ready_shim)).1
        = false) ∧
    ∃ st1 new, pthread_mutex_lock 64 (env_busy 1000) ready_shim lock_a = some (0, st1) ∧
      st1.log = ready_shim.log ++ new ∧
      (∃ mem, Obs.call Event.sched_yield mem ∈ new ∧
        mem_flags mem 7 = some LH_WAITER_ACTIVE) ∧
      (∃ mem, Obs.call (Event.real_lock 0) mem ∈ new ∧
        mem_flags mem 7 = some LH_WAITER_INACTIVE) ∧
      waiter_flags st1 7 = some LH_WAITER_INACTIVE := by
  have hfail : ∀ n, (env_busy 1000).trylock_ret n ≠ 0 := by
    intro n; simp [env_busy]
  have hspin := (spin_phase_all_fail (env_busy 1000) lock_a hfail SPIN_TRIES
    (spin_entry (env_busy 1000) ready_shim)).1
  obtain ⟨r, new, he, hlog, hyield, hfree, _, hfin⟩ :=
    waiter_hint_cleared_before_return 64 (env_busy 1000) ready_shim lock_a rfl rfl rfl
      rfl (by decide) (by decide) (hfail _) hspin
  have hlow : ∀ j : Nat, 1 ≤ j → j < 64 →
      ¬ ((j : Int) ≥ ready_shim.g_yield_budget ∨
        (((env_busy 1000).time_ns (ready_shim.clock_reads + j) % 2 ^ 64 + 2 ^ 64
            - (env_busy 1000).time_ns ready_shim.clock_reads % 2 ^ 64) % 2 ^ 64) / 1000
          ≥ u64_of_int ready_shim.g_fallback_us) := by
    intro j h1 h2
    interval_cases j <;> decide
  obtain ⟨st1, tail, he2, ht, _⟩ := lock_all_fail_ticks 64 (env_busy 1000) ready_shim lock_a 64
    rfl rfl rfl hfail (by decide) (by decide) (Or.inl (by decide)) hlow
  have hr : r = (0, st1) := by
    rw [he] at he2
    exact Option.some.inj he2
  subst hr
  have hmem : Tick.call (Event.real_lock 0) ∈ ticks new := by
    have hnew : ticks new = ticks (ready_shim.log ++ new) := rfl
    rw [hnew, ← hlog, ht]
    simp [env_busy]
  obtain ⟨o, ho, hto⟩ := List.mem_map.mp hmem
  cases o with
  | clock v => cases hto
  | call e mem =>
    have hev : e = Event.real_lock 0 := by
      simp only [tick_of] at hto
      exact Tick.call.inj hto
    subst hev
    exact ⟨⟨rfl, hfail _, hspin⟩, st1, new, he, hlog, hyield, ⟨mem, ho, hfree 0 mem ho⟩, hfin⟩


theorem scan_idx_val (lock_addr i : Nat) :
    (scan_idx lock_addr i).val = ((lock_addr >>> 6) + i) % 4096 := by
  show (((lock_addr >>> 6) % 2 ^ 32) % LH_WAITER_TABLE_SLOTS + i) % LH_WAITER_TABLE_SLOTS = _
  simp only [LH_WAITER_TABLE_SLOTS]
  omega

theorem has_waiters_iff (t : Option WaiterTable) (lock_addr : Nat) :
    has_waiters_for_lock t lock_addr = true ↔
      ∃ wt, t = some wt ∧ ∃ i, i < 16 ∧
        (wt (scan_idx lock_addr i)).flags = LH_WAITER_ACTIVE ∧
        (wt (scan_idx lock_addr i)).lock_addr = lock_addr := by
  cases t with
  | none => simp [has_waiters_for_lock]
  | some wt =>
    simp only [has_waiters_for_lock, List.any_eq_true, List.mem_range, Bool.and_eq_true,
      decide_eq_true_eq, Option.some.injEq, exists_eq_left']

theorem unlock_log (env : Env) (st : Shim) (mutex : Nat)
    (hinit : st.g_initialized = true) (hen : st.g_enabled = true)
    (hu : st.real_pthread_mutex_unlock = true) :
    (pthread_mutex_unlock env st mutex).2.log
      = st.log ++ Obs.call (Event.real_unlock env.unlock_ret)
            (shared_of (on_lock_release env st mutex)) ::
          (if has_waiters_for_lock st.g_waiter_table mutex
            then [Obs.call Event.sched_yield (shared_of (on_lock_release env st mutex))]
            else []) := by
  simp only [pthread_mutex_unlock, hinit, hen, hu]
  cases has_waiters_for_lock st.g_waiter_table mutex <;>
    simp [call_real_unlock, on_lock_release, call_sched_yield, shared_of]

theorem cs_leave_depth (ct : CsTable) (tid : Nat) (hd : (ct (cs_idx tid)).in_cs < 2 ^ 32) :
    ∃ ct1, cs_slot_leave (some ct) tid = some ct1 ∧
      (ct1 (cs_idx tid)).in_cs = (ct (cs_idx tid)).in_cs - 1 := by
  by_cases h0 : (ct (cs_idx tid)).in_cs = 0
  · refine ⟨store (store ct (cs_idx tid) { in_cs := (0 + 2 ^ 32 - 1) % 2 ^ 32 }) (cs_idx tid)
        { in_cs := 0 }, by simp only [cs_slot_leave, h0, if_true], ?_⟩
    simp [store_same, h0]
  · refine ⟨store ct (cs_idx tid) { in_cs := ((ct (cs_idx tid)).in_cs + 2 ^ 32 - 1) % 2 ^ 32 },
      by simp only [cs_slot_leave, if_neg h0], ?_⟩
    simp only [store_same]
    omega

theorem release_effects (env : Env) (st : Shim) (mutex : Nat) :
    (shared_of (on_lock_release env st mutex)).waiter_table = st.g_waiter_table ∧
    (∀ ct, st.g_cs_table = some ct → (ct (cs_idx env.tid)).in_cs < 2 ^ 32 →
      ∃ ct1, (shared_of (on_lock_release env st mutex)).cs_table = some ct1 ∧
        (ct1 (cs_idx env.tid)).in_cs = (ct (cs_idx env.tid)).in_cs - 1) ∧
    (∀ lt, st.g_lock_table = some lt →
      ¬ ((lt (bucket_idx st.g_hash_salt mutex)).way0.tag = tag_from_addr st.g_hash_salt mutex ∧
          (lt (bucket_idx st.g_hash_salt mutex)).way1.tag
            = tag_from_addr st.g_hash_salt mutex) →
      lock_table_get_owner_cpu (shared_of (on_lock_release env st mutex)).lock_table
        st.g_hash_salt mutex = -1) := by
  refine ⟨rfl, ?_, ?_⟩
  · intro ct hct hd
    show ∃ ct1, cs_slot_leave st.g_cs_table env.tid = some ct1 ∧ _
    rw [hct]
    exact cs_leave_depth ct env.tid hd
  · intro lt hlt hdup
    show lock_table_get_owner_cpu (lock_table_remove st.g_lock_table st.g_hash_salt mutex)
      st.g_hash_salt mutex = -1
    rw [hlt]
    exact lookup_after_remove lt st.g_hash_salt mutex hdup

/-- C27. Release scan and yield (shim initialised and enabled): the outside calls of
`pthread_mutex_unlock(L)` are the wrapped unlock followed by exactly one `sched_yield()` when,
in the waiter table of the state the call starts in, one of the 16 slots at indices
`((L >> 6) + i) mod 4096`, `i < 16`, is active with `lock_addr = L`, and the wrapped unlock
alone otherwise; every scanned index is below 4096.  At the moment the wrapped unlock is
called the shared memory already shows the cleanup: the caller's depth `d` has become `d - 1`
(0 stays 0), the ownership lookup of `L` returns -1 (for a bucket that does not hold the tag
in both ways), and the waiter table is untouched; the yield is made on the same memory, and
the tables the call leaves are those. -/
theorem unlock_scans_then_yields (env : Env) (st : Shim) (mutex : Nat)
    (hinit : st.g_initialized = true) (hen : st.g_enabled = true)
    (hu : st.real_pthread_mutex_unlock = true) :
    (∀ i, (scan_idx mutex i).val = ((mutex >>> 6) + i) % 4096 ∧ (scan_idx mutex i).val < 4096) ∧
    ∃ mem,
      ((∃ wt, st.g_waiter_table = some wt ∧ ∃ i, i < 16 ∧
            (wt (scan_idx mutex i)).flags = LH_WAITER_ACTIVE ∧
            (wt (scan_idx mutex i)).lock_addr = mutex) →
        (pthread_mutex_unlock env st mutex).2.trace
          = st.trace ++ [Event.real_unlock env.unlock_ret, Event.sched_yield] ∧
        (pthread_mutex_unlock env st mutex).2.log
          = st.log ++ [Obs.call (Event.real_unlock env.unlock_ret) mem,
              Obs.call Event.sched_yield mem]) ∧
      (¬ (∃ wt, st.g_waiter_table = some wt ∧ ∃ i, i < 16 ∧
            (wt (scan_idx mutex i)).flags = LH_WAITER_ACTIVE ∧
            (wt (scan_idx mutex i)).lock_addr = mutex) →
        (pthread_mutex_unlock env st mutex).2.trace
          = st.trace ++ [Event.real_unlock env.unlock_ret] ∧
        (pthread_mutex_unlock env st mutex).2.log
          = st.log ++ [Obs.call (Event.real_unlock env.unlock_ret) mem]) ∧
      mem.waiter_table = st.g_waiter_table ∧
      mem.cs_table = cs_slot_leave st.g_cs_table env.tid ∧
      mem.lock_table = lock_table_remove st.g_lock_table st.g_hash_salt mutex ∧
      (∀ ct, st.g_cs_table = some ct → (ct (cs_idx env.tid)).in_cs < 2 ^ 32 →
        ∃ ct1, mem.cs_table = some ct1 ∧
          (ct1 (cs_idx env.tid)).in_cs = (ct (cs_idx env.tid)).in_cs - 1) ∧
      (∀ lt, st.g_lock_table = some lt →
        ¬ ((lt (bucket_idx st.g_hash_salt mutex)).way0.tag
              = tag_from_addr st.g_hash_salt mutex ∧
            (lt (bucket_idx st.g_hash_salt mutex)).way1.tag
              = tag_from_addr st.g_hash_salt mutex) →
        lock_table_get_owner_cpu mem.lock_table st.g_hash_salt mutex = -1) ∧
      shared_of (pthread_mutex_unlock env st mutex).2 = mem := by
  obtain ⟨hw, hcs, hlk⟩ := release_effects env st mutex
  have hlog := unlock_log env st mutex hinit hen hu
  have htrace := unlock_trace env st mutex hinit hen hu
  refine ⟨fun i => ⟨scan_idx_val mutex i, (scan_idx mutex i).isLt⟩,
    shared_of (on_lock_release env st mutex), ?_, ?_, hw, rfl, rfl, hcs, hlk, ?_⟩
  · intro h
    rw [htrace, hlog, (has_waiters_iff _ _).mpr h]
    exact ⟨rfl, rfl⟩
  · intro h
    have hf : has_waiters_for_lock st.g_waiter_table mutex = false := by
      cases hb : has_waiters_for_lock st.g_waiter_table mutex with
      | false => rfl
      | true => exact absurd ((has_waiters_iff _ _).mp hb) h
    rw [htrace, hlog, hf]
    exact ⟨rfl, rfl⟩
  · simp only [pthread_mutex_unlock, hinit, hen, hu]
    cases has_waiters_for_lock st.g_waiter_table mutex <;>
      simp [call_real_unlock, on_lock_release, call_sched_yield, shared_of]

/-- Witness of `unlock_scans_then_yields`: thread 7 holds `lock_a` (depth 1, owner CPU 2) and
thread 4163 waits for it in slot 67, the fourth slot of the window of `lock_a`, which starts
at slot 64.  The release calls the wrapped unlock and then yields once, both on a memory in
which the depth of thread 7 is 0 and `lock_a` has no owner. -/
theorem unlock_scans_then_yields_witness :
    ((window_waiter_table (scan_idx lock_a 3)).flags = LH_WAITER_ACTIVE ∧
      (window_waiter_table (scan_idx lock_a 3)).lock_addr = lock_a ∧
      holding_waited_shim.g_cs_table.map (fun ct => (ct (cs_idx 7)).in_cs) = some 1 ∧
      lock_table_get_owner_cpu holding_waited_shim.g_lock_table
        holding_waited_shim.g_hash_salt lock_a = 2) ∧
    ∃ mem,
      (pthread_mutex_unlock env_free holding_waited_shim lock_a).2.trace
        = holding_waited_shim.trace ++ [Event.real_unlock 0, Event.sched_yield] ∧
      (pthread_mutex_unlock env_free holding_waited_shim lock_a).2.log
        = holding_waited_shim.log ++ [Obs.call (Event.real_unlock 0) mem,
            Obs.call Event.sched_yield mem] ∧
      (∃ ct1, mem.cs_table = some ct1 ∧ (ct1 (cs_idx 7)).in_cs = 0) ∧
      lock_table_get_owner_cpu mem.lock_table holding_waited_shim.g_hash_salt lock_a = -1 := by
  have hs : (window_waiter_table (scan_idx lock_a 3)).flags = LH_WAITER_ACTIVE ∧
      (window_waiter_table (scan_idx lock_a 3)).lock_addr = lock_a := by decide
  obtain ⟨mem, hyes, _, _, _, _, hcs, hlk, _⟩ :=
    (unlock_scans_then_yields env_free holding_waited_shim lock_a rfl rfl rfl).2
  obtain ⟨htr, hlog⟩ := hyes ⟨window_waiter_table, rfl, 3, by decide, hs.1, hs.2⟩
  obtain ⟨ct1, hct1, hd⟩ := hcs
    (store zero_cs_table (cs_idx 7) { in_cs := ((zero_cs_table (cs_idx 7)).in_cs + 1) % 2 ^ 32 })
    rfl (by decide)
  have hlook := hlk
    (store zero_lock_table (bucket_idx default_salt lock_a)
      { zero_lock_table (bucket_idx default_salt lock_a) with
        way0 := publish_entry (zero_lock_table (bucket_idx default_salt lock_a)).way0
          (tag_from_addr default_salt lock_a) 7 2 (1000000 % 2 ^ 64) })
    rfl (by decide)
  exact ⟨⟨hs.1, hs.2, by decide, by decide⟩, mem, htr, hlog, ⟨ct1, hct1, hd⟩, hlook⟩

/-- C29. Hint cleanup on release is unconditional (shim initialised and enabled): whatever
code the wrapped unlock returns, `pthread_mutex_unlock` returns that code unchanged.  The
cleanup is done before the wrapped unlock is called: at the moment of that call, the first
outside call of the function, the shared memory already shows the caller's depth `d` as
`d - 1` (0 stays 0) and no owner for the lock (for a bucket that does not hold the tag in both
ways).  The tables the function leaves are those, and they are the same for any other answer
of the wrapped unlock. -/
theorem unlock_cleans_up_whatever_unlock_returns (env : Env) (st : Shim) (mutex : Nat)
    (hinit : st.g_initialized = true) (hen : st.g_enabled = true)
    (hu : st.real_pthread_mutex_unlock = true) :
    (pthread_mutex_unlock env st mutex).1 = env.unlock_ret ∧
    (∃ mem rest,
      (pthread_mutex_unlock env st mutex).2.log
        = st.log ++ Obs.call (Event.real_unlock env.unlock_ret) mem :: rest ∧
      mem.cs_table = cs_slot_leave st.g_cs_table env.tid ∧
      mem.lock_table = lock_table_remove st.g_lock_table st.g_hash_salt mutex ∧
      (∀ ct, st.g_cs_table = some ct → (ct (cs_idx env.tid)).in_cs < 2 ^ 32 →
        ∃ ct1, mem.cs_table = some ct1 ∧
          (ct1 (cs_idx env.tid)).in_cs = (ct (cs_idx env.tid)).in_cs - 1) ∧
      (∀ lt, st.g_lock_table = some lt →
        ¬ ((lt (bucket_idx st.g_hash_salt mutex)).way0.tag
              = tag_from_addr st.g_hash_salt mutex ∧
            (lt (bucket_idx st.g_hash_salt mutex)).way1.tag
              = tag_from_addr st.g_hash_salt mutex) →
        lock_table_get_owner_cpu mem.lock_table st.g_hash_salt mutex = -1) ∧
      (pthread_mutex_unlock env st mutex).2.g_cs_table = mem.cs_table ∧
      (pthread_mutex_unlock env st mutex).2.g_lock_table = mem.lock_table) ∧
    (∀ env2 : Env, env2.tid = env.tid →
      (pthread_mutex_unlock env2 st mutex).2.g_cs_table
        = (pthread_mutex_unlock env st mutex).2.g_cs_table ∧
      (pthread_mutex_unlock env2 st mutex).2.g_lock_table
        = (pthread_mutex_unlock env st mutex).2.g_lock_table) := by
  have hcs := unlock_cs_table env st mutex hinit hen hu
  have hlt := unlock_lock_table env st mutex hinit hen hu
  obtain ⟨_, hcse, hlke⟩ := release_effects env st mutex
  refine ⟨unlock_ret env st mutex hinit hen hu,
    ⟨shared_of (on_lock_release env st mutex), _, unlock_log env st mutex hinit hen hu,
      rfl, rfl, hcse, hlke, hcs, hlt⟩, ?_⟩
  intro env2 htid
  rw [hcs, hlt, unlock_cs_table env2 st mutex hinit hen hu,
    unlock_lock_table env2 st mutex hinit hen hu, htid]
  exact ⟨rfl, rfl⟩

/-- Witness of `unlock_cleans_up_whatever_unlock_returns`: thread 7 holds `lock_a` (depth 1,
owner CPU 2); a release whose wrapped unlock fails with `EPERM` (1) returns 1, and the wrapped
unlock was called on a memory in which the depth of thread 7 is 0 and `lock_a` has no owner,
which is how the tables stay. -/
theorem unlock_cleans_up_whatever_unlock_returns_witness :
    (holding_shim.g_initialized = true ∧ holding_shim.g_enabled = true ∧
      holding_shim.real_pthread_mutex_unlock = true ∧
      holding_shim.g_cs_table.map (fun ct => (ct (cs_idx 7)).in_cs) = some 1 ∧
      lock_table_get_owner_cpu holding_shim.g_lock_table holding_shim.g_hash_salt lock_a = 2) ∧
    (pthread_mutex_unlock env_not_owner holding_shim lock_a).1 = 1 ∧
    ∃ mem rest,
      (pthread_mutex_unlock env_not_owner holding_shim lock_a).2.log
        = holding_shim.log ++ Obs.call (Event.real_unlock 1) mem :: rest ∧
      (∃ ct1, mem.cs_table = some ct1 ∧ (ct1 (cs_idx 7)).in_cs = 0) ∧
      lock_table_get_owner_cpu mem.lock_table holding_shim.g_hash_salt lock_a = -1 ∧
      (pthread_mutex_unlock env_not_owner holding_shim lock_a).2.g_cs_table = mem.cs_table ∧
      (pthread_mutex_unlock env_not_owner holding_shim lock_a).2.g_lock_table
        = mem.lock_table := by
  have h := unlock_cleans_up_whatever_unlock_returns env_not_owner holding_shim lock_a
    rfl rfl rfl
  obtain ⟨mem, rest, hlog, _, _, hcs, hlk, hfc, hfl⟩ := h.2.1
  obtain ⟨ct1, hct1, hd⟩ := hcs
    (store zero_cs_table (cs_idx 7) { in_cs := ((zero_cs_table (cs_idx 7)).in_cs + 1) % 2 ^ 32 })
    rfl (by decide)
  have hlook := hlk
    (store zero_lock_table (bucket_idx default_salt lock_a)
      { zero_lock_table (bucket_idx default_salt lock_a) with
        way0 := publish_entry (zero_lock_table (bucket_idx default_salt lock_a)).way0
          (tag_from_addr default_salt lock_a) 7 2 (1000000 % 2 ^ 64) })
    rfl (by decide)
  exact ⟨⟨rfl, rfl, rfl, by decide, by decide⟩, h.1, mem, rest, hlog, ⟨ct1, hct1, hd⟩, hlook,
    hfc, hfl⟩

/-- C30. Ownership entries do not track nesting while the depth does: from all-zero mapped
tables, after one thread (the three calls share the thread id; CPU and clock are free) runs
`on_lock_acquired` twice for the same lock and then `on_lock_release` once, the depth in its
critical-section slot is 1, the scheduler's `is_task_in_cs` of a task with that pid is true,
and `lock_table_get_owner_cpu` of that lock returns -1 (not found). -/
theorem nested_acquire_keeps_depth_loses_owner (env1 env2 env3 : Env) (st : Shim)
    (mutex tgid : Nat)
    (hlt : st.g_lock_table = some zero_lock_table)
    (hct : st.g_cs_table = some zero_cs_table)
    (h2 : env2.tid = env1.tid) (h3 : env3.tid = env1.tid) :
    ∃ ct,
      (on_lock_release env3
        (on_lock_acquired env2 (on_lock_acquired env1 st mutex) mutex) mutex).g_cs_table
          = some ct ∧
      (ct (cs_idx env1.tid)).in_cs = 1 ∧
      is_task_in_cs ct { pid := env1.tid, tgid := tgid } = true ∧
      lock_table_get_owner_cpu
        (on_lock_release env3
          (on_lock_acquired env2 (on_lock_acquired env1 st mutex) mutex) mutex).g_lock_table
        (on_lock_release env3
          (on_lock_acquired env2 (on_lock_acquired env1 st mutex) mutex) mutex).g_hash_salt
        mutex = -1 := by
  have hz := tag_from_addr_ne_zero st.g_hash_salt mutex
  have hcs : (on_lock_release env3
      (on_lock_acquired env2 (on_lock_acquired env1 st mutex) mutex) mutex).g_cs_table
      = cs_slot_leave (cs_slot_enter (cs_slot_enter (some zero_cs_table) env1.tid) env1.tid)
          env1.tid := by
    show cs_slot_leave (on_lock_acquired env2 (on_lock_acquired env1 st mutex) mutex).g_cs_table
      env3.tid = _
    rw [on_lock_acquired_cs, on_lock_acquired_cs, hct, h2, h3]
  have hsalt : (on_lock_release env3
      (on_lock_acquired env2 (on_lock_acquired env1 st mutex) mutex) mutex).g_hash_salt
      = st.g_hash_salt := by
    show (on_lock_acquired env2 (on_lock_acquired env1 st mutex) mutex).g_hash_salt = _
    rw [(on_lock_acquired_flags env2 _ mutex).2.2.2, (on_lock_acquired_flags env1 _ mutex).2.2.2]
  have hlk : (on_lock_release env3
      (on_lock_acquired env2 (on_lock_acquired env1 st mutex) mutex) mutex).g_lock_table
      = lock_table_remove
          (lock_table_insert
            (lock_table_insert (some zero_lock_table) st.g_hash_salt mutex env1.tid
              (get_cpu env1) (env1.time_ns st.clock_reads % 2 ^ 64))
            st.g_hash_salt mutex env2.tid (get_cpu env2)
            (env2.time_ns (on_lock_acquired env1 st mutex).clock_reads % 2 ^ 64))
          st.g_hash_salt mutex := by
    show lock_table_remove
      (on_lock_acquired env2 (on_lock_acquired env1 st mutex) mutex).g_lock_table
      (on_lock_acquired env2 (on_lock_acquired env1 st mutex) mutex).g_hash_salt mutex = _
    rw [on_lock_acquired_lock, on_lock_acquired_lock, (on_lock_acquired_flags env2 _ mutex).2.2.2,
      (on_lock_acquired_flags env1 _ mutex).2.2.2, hlt]
  have hd2 : (store (store zero_cs_table (cs_idx env1.tid)
        { in_cs := ((zero_cs_table (cs_idx env1.tid)).in_cs + 1) % 2 ^ 32 }) (cs_idx env1.tid)
        { in_cs := ((store zero_cs_table (cs_idx env1.tid)
            { in_cs := ((zero_cs_table (cs_idx env1.tid)).in_cs + 1) % 2 ^ 32 }
              (cs_idx env1.tid)).in_cs + 1) % 2 ^ 32 } (cs_idx env1.tid)).in_cs = 2 := by
    simp [store_same, zero_cs_table]
  obtain ⟨ct, hleave, hdepth⟩ := cs_leave_depth _ env1.tid (by rw [hd2]; decide)
  rw [hd2] at hdepth
  refine ⟨ct, hcs.trans hleave, hdepth, ?_, ?_⟩
  · rw [is_task_in_cs]
    simp only [cs_lookup_own_slot]
    simp [hdepth]
  · rw [hlk, hsalt]
    simp [lock_table_remove, lock_table_insert, lock_table_get_owner_cpu, store, publish_entry,
      zero_lock_table, zero_entry, Ne.symm hz]

/-- Witness of `nested_acquire_keeps_depth_loses_owner`: thread 7 takes `lock_a` twice and
releases it once. -/
theorem nested_acquire_keeps_depth_loses_owner_witness :
    ∃ ct,
      (on_lock_release env_free
        (on_lock_acquired env_free (on_lock_acquired env_free ready_shim lock_a) lock_a)
        lock_a).g_cs_table = some ct ∧
      (ct (cs_idx 7)).in_cs = 1 ∧
      is_task_in_cs ct { pid := 7, tgid := 1 } = true ∧
      lock_table_get_owner_cpu
        (on_lock_release env_free
          (on_lock_acquired env_free (on_lock_acquired env_free ready_shim lock_a) lock_a)
          lock_a).g_lock_table
        (on_lock_release env_free
          (on_lock_acquired env_free (on_lock_acquired env_free ready_shim lock_a) lock_a)
          lock_a).g_hash_salt
        lock_a = -1 :=
  nested_acquire_keeps_depth_loses_owner env_free env_free env_free ready_shim lock_a 1
    rfl rfl rfl rfl


theorem xor_low_bits_congr (a b s n : Nat) (h : a % 2 ^ n = b % 2 ^ n) :
    (a ^^^ s) % 2 ^ n = (b ^^^ s) % 2 ^ n := by
  apply Nat.eq_of_testBit_eq
  intro i
  have hi := congrArg (fun x => Nat.testBit x i) h
  simp only [Nat.testBit_mod_two_pow] at hi
  simp only [Nat.testBit_mod_two_pow, Nat.testBit_xor]
  by_cases hlt : i < n
  · simp only [hlt, decide_True, Bool.true_and] at hi ⊢
    rw [hi]
  · simp [hlt]

theorem bucket_low_bits (x : Nat) :
    (((x % 2 ^ 32) * 2654435761) % 2 ^ 32) % 1024 = ((x % 2 ^ 10) * 2654435761) % 1024 := by
  omega

theorem xor_high_bits_congr (a b s : Nat) (h : (a >>> 33) % 2 ^ 31 = (b >>> 33) % 2 ^ 31) :
    ((a ^^^ s) >>> 33) % 2 ^ 31 = ((b ^^^ s) >>> 33) % 2 ^ 31 := by
  apply Nat.eq_of_testBit_eq
  intro i
  have hi := congrArg (fun x => Nat.testBit x i) h
  simp only [Nat.testBit_mod_two_pow, Nat.testBit_shiftRight] at hi
  simp only [Nat.testBit_mod_two_pow, Nat.testBit_shiftRight, Nat.testBit_xor]
  by_cases hlt : i < 31
  · simp only [hlt, decide_True, Bool.true_and] at hi ⊢
    rw [hi]
  · simp [hlt]

theorem lor_one_eq (w : Nat) : w ||| 1 = 2 * (w / 2) + 1 := by
  apply Nat.eq_of_testBit_eq
  intro i
  cases i with
  | zero =>
    have e : (2 * (w / 2) + 1) % 2 = 1 := by omega
    simp [Nat.testBit_or, e]
  | succ j =>
    have e : (2 * (w / 2) + 1) / 2 = w / 2 := by omega
    rw [Nat.testBit_or, Nat.testBit_succ, Nat.testBit_succ 1, Nat.testBit_succ (2 * (w / 2) + 1), e]
    simp

theorem tag_high_bits (y : Nat) :
    ((y >>> 32) % 2 ^ 32) ||| 1 = 2 * ((y >>> 33) % 2 ^ 31) + 1 := by
  rw [lor_one_eq, Nat.shiftRight_eq_div_pow, Nat.shiftRight_eq_div_pow]
  omega

theorem lookup_congr (t : Option LockTable) (salt l1 l2 : Nat)
    (hb : bucket_idx salt l1 = bucket_idx salt l2)
    (ht : tag_from_addr salt l1 = tag_from_addr salt l2) :
    lock_table_get_owner_cpu t salt l1 = lock_table_get_owner_cpu t salt l2 := by
  simp only [lock_table_get_owner_cpu, hb, ht]

theorem remove_congr (t : Option LockTable) (salt l1 l2 : Nat)
    (hb : bucket_idx salt l1 = bucket_idx salt l2)
    (ht : tag_from_addr salt l1 = tag_from_addr salt l2) :
    lock_table_remove t salt l1 = lock_table_remove t salt l2 := by
  simp only [lock_table_remove, hb, ht]

theorem insert_then_remove_lookup (tbl : LockTable) (salt lock_addr tid : Nat) (cpu : Int)
    (now : Nat)
    (h : ¬ ((tbl (bucket_idx salt lock_addr)).way1.tag = tag_from_addr salt lock_addr ∧
            ((tbl (bucket_idx salt lock_addr)).way0.tag = 0 ∨
              (tbl (bucket_idx salt lock_addr)).way0.tag = tag_from_addr salt lock_addr))) :
    lock_table_get_owner_cpu
      (lock_table_remove (lock_table_insert (some tbl) salt lock_addr tid cpu now) salt lock_addr)
      salt lock_addr = -1 := by
  have hz := tag_from_addr_ne_zero salt lock_addr
  simp only [lock_table_insert, lock_table_remove, lock_table_get_owner_cpu]
  split_ifs <;> simp_all [store, publish_entry, Ne.symm hz]

/-- C28. Lock identities are distinguished only by part of their bits: the bucket index is a
function of bits 0-9 of `lock_addr XOR salt` and the tag a function of bits 33-63 of it; so
for lock addresses `l1`, `l2` that agree on bits 0-9 and on bits 33-63, bucket and tag are
equal, a lookup of `l2` after `lock_table_insert(l1, tid, c)` returns `c`, `lock_table_remove`
of `l2` leaves the table `lock_table_remove` of `l1` leaves, and a lookup of `l1` then returns
-1 (unless, before the insert, way 1 of the bucket held the tag while way 0 was empty or held
the tag too: the insert then stores into way 0 and the removal clears way 0 only). -/
theorem identity_uses_partial_bits (tbl : LockTable) (salt l1 l2 tid : Nat) (c : Int)
    (now : Nat)
    (hlow : l1 % 2 ^ 10 = l2 % 2 ^ 10)
    (hhigh : (l1 >>> 33) % 2 ^ 31 = (l2 >>> 33) % 2 ^ 31) :
    (∀ l, LH_BUCKET_IDX l salt = (((l ^^^ salt) % 2 ^ 10) * 2654435761) % 1024 ∧
      LH_TAG_FROM_ADDR l salt = 2 * (((l ^^^ salt) >>> 33) % 2 ^ 31) + 1) ∧
    (bucket_idx salt l1 = bucket_idx salt l2 ∧ tag_from_addr salt l1 = tag_from_addr salt l2) ∧
    lock_table_get_owner_cpu (lock_table_insert (some tbl) salt l1 tid c now) salt l2 = c ∧
    lock_table_remove (lock_table_insert (some tbl) salt l1 tid c now) salt l2
      = lock_table_remove (lock_table_insert (some tbl) salt l1 tid c now) salt l1 ∧
    (¬ ((tbl (bucket_idx salt l1)).way1.tag = tag_from_addr salt l1 ∧
        ((tbl (bucket_idx salt l1)).way0.tag = 0 ∨
          (tbl (bucket_idx salt l1)).way0.tag = tag_from_addr salt l1)) →
      lock_table_get_owner_cpu
        (lock_table_remove (lock_table_insert (some tbl) salt l1 tid c now) salt l2)
        salt l1 = -1) := by
  have hform : ∀ l, LH_BUCKET_IDX l salt = (((l ^^^ salt) % 2 ^ 10) * 2654435761) % 1024 ∧
      LH_TAG_FROM_ADDR l salt = 2 * (((l ^^^ salt) >>> 33) % 2 ^ 31) + 1 :=
    fun l => ⟨bucket_low_bits _, tag_high_bits _⟩
  have hb : bucket_idx salt l1 = bucket_idx salt l2 := by
    apply Fin.ext
    show LH_BUCKET_IDX l1 salt = LH_BUCKET_IDX l2 salt
    rw [(hform l1).1, (hform l2).1, xor_low_bits_congr l1 l2 salt 10 hlow]
  have ht : tag_from_addr salt l1 = tag_from_addr salt l2 := by
    show LH_TAG_FROM_ADDR l1 salt = LH_TAG_FROM_ADDR l2 salt
    rw [(hform l1).2, (hform l2).2, xor_high_bits_congr l1 l2 salt hhigh]
  have hrem := remove_congr (lock_table_insert (some tbl) salt l1 tid c now) salt l2 l1
    hb.symm ht.symm
  refine ⟨hform, ⟨hb, ht⟩, ?_, hrem, ?_⟩
  · rw [← lookup_congr _ salt l1 l2 hb ht]
    exact lookup_after_insert tbl salt l1 tid c now
  · intro h
    rw [hrem]
    exact insert_then_remove_lookup tbl salt l1 tid c now h

/-- Witness of `identity_uses_partial_bits`: `lock_a` and `lock_a_twin` differ (in bits 10 and
32) and are one identity for the ownership table. -/
theorem identity_uses_partial_bits_witness :
    (lock_a ≠ lock_a_twin ∧ lock_a % 2 ^ 10 = lock_a_twin % 2 ^ 10 ∧
      (lock_a >>> 33) % 2 ^ 31 = (lock_a_twin >>> 33) % 2 ^ 31) ∧
    lock_table_get_owner_cpu (lock_table_insert (some zero_lock_table) default_salt lock_a 7 2 0)
      default_salt lock_a_twin = 2 ∧
    lock_table_get_owner_cpu
      (lock_table_remove (lock_table_insert (some zero_lock_table) default_salt lock_a 7 2 0)
        default_salt lock_a_twin)
      default_salt lock_a = -1 := by
  have h := identity_uses_partial_bits zero_lock_table default_salt lock_a lock_a_twin 7 2 0
    (by decide) (by decide)
  exact ⟨⟨by decide, by decide, by decide⟩, h.2.2.1, h.2.2.2.2 (by decide)⟩


end LH
